import Mathlib

/-!
# azdocs: analysis engine and diagram renderer

A shallow embedding of `pkg/analysis` (security, cost, compliance and tagging
analyzers), of the diagram builder of `pkg/renderer/diagram.go` and of the priority
actions of `pkg/renderer/sections.go`, with the properties of the specification stated
and settled against it.

Conventions of the embedding.

* `interface{}` values decoded from JSON are the inductive type `Value`; a
  `map[string]interface{}` is an association list in which the first binding
  of a key is the one the map holds.
* A method with a pointer receiver that appends to `a.Findings` becomes a
  function from the analysis record to the updated record.
* `float64` is modelled by the rationals it can hold, every arithmetic
  operation rounding its exact result to 53 significant bits (nearest, ties to
  even).  The exponent range is unbounded: overflow to an infinity and gradual
  underflow are outside the model.
* Go leaves the order of `range` over a map unspecified; wherever that order
  reaches the output the functions take the order as an argument (`MapOrder`).
* A failed single-value type assertion panics; functions that can panic
  return `Option`.  The analyzers are rendered a second time with every operation
  that can panic made explicit (`analysis.checked`), and shown to return the results
  of the first rendering.
* `strings.ToLower` and `strings.EqualFold` follow the Unicode tables of Go's
  `unicode` package (simple lower-case mapping and simple case folding).
* Go `int` is modelled by the integers: the counters and scores stay far from the
  64-bit bounds.  The conversion `int(x)` of a `float64` read from the input is
  modelled with the 64-bit range (`Float64.toInt64`).
-/

set_option autoImplicit false

/-! ## Go runtime: unicode

Go's `unicode` package maps a code point to lower case by the simple lower-case mapping of
the Unicode Character Database, and `unicode.SimpleFold` steps through the code points that
have the same simple case folding.  Both mappings are tables of the Unicode standard; they
are given here for Unicode 15.0, the version of the tables of Go 1.21, as runs of code
points. -/

namespace unicode

/-- A run of a case table: the code points `Lo`, `Lo + Step`, ..., `Hi` map to themselves
plus `Delta`. -/
structure CaseRun where
  Lo : ℕ
  Hi : ℕ
  Step : ℕ
  Delta : ℤ

/-- The image of the code point `r` under the first run of the table that holds it. -/
def lookupRun (runs : List CaseRun) (r : ℕ) : Option ℕ :=
  (runs.find? (fun run =>
      decide (run.Lo ≤ r ∧ r ≤ run.Hi ∧ (r - run.Lo) % run.Step = 0))).map
    (fun run => ((r : ℤ) + run.Delta).toNat)

/-- The simple lower-case mappings of the code points beyond ASCII (the lower-case column
of `unicode.CaseRanges`), part 1: from `0xC0` to `0x19D`. -/
def lowerRuns1 : List CaseRun :=
  [⟨0xC0, 0xD6, 1, 32⟩, ⟨0xD8, 0xDE, 1, 32⟩, ⟨0x100, 0x12E, 2, 1⟩, ⟨0x130, 0x130, 1, -199⟩,
    ⟨0x132, 0x136, 2, 1⟩, ⟨0x139, 0x147, 2, 1⟩, ⟨0x14A, 0x176, 2, 1⟩, ⟨0x178, 0x178, 1, -121⟩,
    ⟨0x179, 0x17D, 2, 1⟩, ⟨0x181, 0x181, 1, 210⟩, ⟨0x182, 0x184, 2, 1⟩, ⟨0x186, 0x186, 1, 206⟩,
    ⟨0x187, 0x187, 1, 1⟩, ⟨0x189, 0x18A, 1, 205⟩, ⟨0x18B, 0x18B, 1, 1⟩, ⟨0x18E, 0x18E, 1, 79⟩,
    ⟨0x18F, 0x18F, 1, 202⟩, ⟨0x190, 0x190, 1, 203⟩, ⟨0x191, 0x191, 1, 1⟩, ⟨0x193, 0x193, 1, 205⟩,
    ⟨0x194, 0x194, 1, 207⟩, ⟨0x196, 0x196, 1, 211⟩, ⟨0x197, 0x197, 1, 209⟩, ⟨0x198, 0x198, 1, 1⟩,
    ⟨0x19C, 0x19C, 1, 211⟩, ⟨0x19D, 0x19D, 1, 213⟩ ]

/-- The simple lower-case mappings of the code points beyond ASCII (the lower-case column
of `unicode.CaseRanges`), part 2: from `0x19F` to `0x220`. -/
def lowerRuns2 : List CaseRun :=
  [⟨0x19F, 0x19F, 1, 214⟩, ⟨0x1A0, 0x1A4, 2, 1⟩, ⟨0x1A6, 0x1A6, 1, 218⟩, ⟨0x1A7, 0x1A7, 1, 1⟩,
    ⟨0x1A9, 0x1A9, 1, 218⟩, ⟨0x1AC, 0x1AC, 1, 1⟩, ⟨0x1AE, 0x1AE, 1, 218⟩, ⟨0x1AF, 0x1AF, 1, 1⟩,
    ⟨0x1B1, 0x1B2, 1, 217⟩, ⟨0x1B3, 0x1B5, 2, 1⟩, ⟨0x1B7, 0x1B7, 1, 219⟩, ⟨0x1B8, 0x1B8, 1, 1⟩,
    ⟨0x1BC, 0x1BC, 1, 1⟩, ⟨0x1C4, 0x1C4, 1, 2⟩, ⟨0x1C5, 0x1C5, 1, 1⟩, ⟨0x1C7, 0x1C7, 1, 2⟩,
    ⟨0x1C8, 0x1C8, 1, 1⟩, ⟨0x1CA, 0x1CA, 1, 2⟩, ⟨0x1CB, 0x1DB, 2, 1⟩, ⟨0x1DE, 0x1EE, 2, 1⟩,
    ⟨0x1F1, 0x1F1, 1, 2⟩, ⟨0x1F2, 0x1F4, 2, 1⟩, ⟨0x1F6, 0x1F6, 1, -97⟩, ⟨0x1F7, 0x1F7, 1, -56⟩,
    ⟨0x1F8, 0x21E, 2, 1⟩, ⟨0x220, 0x220, 1, -130⟩ ]

/-- The simple lower-case mappings of the code points beyond ASCII (the lower-case column
of `unicode.CaseRanges`), part 3: from `0x222` to `0x3FF`. -/
def lowerRuns3 : List CaseRun :=
  [⟨0x222, 0x232, 2, 1⟩, ⟨0x23A, 0x23A, 1, 10795⟩, ⟨0x23B, 0x23B, 1, 1⟩, ⟨0x23D, 0x23D, 1, -163⟩,
    ⟨0x23E, 0x23E, 1, 10792⟩, ⟨0x241, 0x241, 1, 1⟩, ⟨0x243, 0x243, 1, -195⟩,
    ⟨0x244, 0x244, 1, 69⟩, ⟨0x245, 0x245, 1, 71⟩, ⟨0x246, 0x24E, 2, 1⟩, ⟨0x370, 0x372, 2, 1⟩,
    ⟨0x376, 0x376, 1, 1⟩, ⟨0x37F, 0x37F, 1, 116⟩, ⟨0x386, 0x386, 1, 38⟩, ⟨0x388, 0x38A, 1, 37⟩,
    ⟨0x38C, 0x38C, 1, 64⟩, ⟨0x38E, 0x38F, 1, 63⟩, ⟨0x391, 0x3A1, 1, 32⟩, ⟨0x3A3, 0x3AB, 1, 32⟩,
    ⟨0x3CF, 0x3CF, 1, 8⟩, ⟨0x3D8, 0x3EE, 2, 1⟩, ⟨0x3F4, 0x3F4, 1, -60⟩, ⟨0x3F7, 0x3F7, 1, 1⟩,
    ⟨0x3F9, 0x3F9, 1, -7⟩, ⟨0x3FA, 0x3FA, 1, 1⟩, ⟨0x3FD, 0x3FF, 1, -130⟩ ]

/-- The simple lower-case mappings of the code points beyond ASCII (the lower-case column
of `unicode.CaseRanges`), part 4: from `0x400` to `0x1F8F`. -/
def lowerRuns4 : List CaseRun :=
  [⟨0x400, 0x40F, 1, 80⟩, ⟨0x410, 0x42F, 1, 32⟩, ⟨0x460, 0x480, 2, 1⟩, ⟨0x48A, 0x4BE, 2, 1⟩,
    ⟨0x4C0, 0x4C0, 1, 15⟩, ⟨0x4C1, 0x4CD, 2, 1⟩, ⟨0x4D0, 0x52E, 2, 1⟩, ⟨0x531, 0x556, 1, 48⟩,
    ⟨0x10A0, 0x10C5, 1, 7264⟩, ⟨0x10C7, 0x10C7, 1, 7264⟩, ⟨0x10CD, 0x10CD, 1, 7264⟩,
    ⟨0x13A0, 0x13EF, 1, 38864⟩, ⟨0x13F0, 0x13F5, 1, 8⟩, ⟨0x1C90, 0x1CBA, 1, -3008⟩,
    ⟨0x1CBD, 0x1CBF, 1, -3008⟩, ⟨0x1E00, 0x1E94, 2, 1⟩, ⟨0x1E9E, 0x1E9E, 1, -7615⟩,
    ⟨0x1EA0, 0x1EFE, 2, 1⟩, ⟨0x1F08, 0x1F0F, 1, -8⟩, ⟨0x1F18, 0x1F1D, 1, -8⟩,
    ⟨0x1F28, 0x1F2F, 1, -8⟩, ⟨0x1F38, 0x1F3F, 1, -8⟩, ⟨0x1F48, 0x1F4D, 1, -8⟩,
    ⟨0x1F59, 0x1F5F, 2, -8⟩, ⟨0x1F68, 0x1F6F, 1, -8⟩, ⟨0x1F88, 0x1F8F, 1, -8⟩ ]

/-- The simple lower-case mappings of the code points beyond ASCII (the lower-case column
of `unicode.CaseRanges`), part 5: from `0x1F98` to `0x2C63`. -/
def lowerRuns5 : List CaseRun :=
  [⟨0x1F98, 0x1F9F, 1, -8⟩, ⟨0x1FA8, 0x1FAF, 1, -8⟩, ⟨0x1FB8, 0x1FB9, 1, -8⟩,
    ⟨0x1FBA, 0x1FBB, 1, -74⟩, ⟨0x1FBC, 0x1FBC, 1, -9⟩, ⟨0x1FC8, 0x1FCB, 1, -86⟩,
    ⟨0x1FCC, 0x1FCC, 1, -9⟩, ⟨0x1FD8, 0x1FD9, 1, -8⟩, ⟨0x1FDA, 0x1FDB, 1, -100⟩,
    ⟨0x1FE8, 0x1FE9, 1, -8⟩, ⟨0x1FEA, 0x1FEB, 1, -112⟩, ⟨0x1FEC, 0x1FEC, 1, -7⟩,
    ⟨0x1FF8, 0x1FF9, 1, -128⟩, ⟨0x1FFA, 0x1FFB, 1, -126⟩, ⟨0x1FFC, 0x1FFC, 1, -9⟩,
    ⟨0x2126, 0x2126, 1, -7517⟩, ⟨0x212A, 0x212A, 1, -8383⟩, ⟨0x212B, 0x212B, 1, -8262⟩,
    ⟨0x2132, 0x2132, 1, 28⟩, ⟨0x2160, 0x216F, 1, 16⟩, ⟨0x2183, 0x2183, 1, 1⟩,
    ⟨0x24B6, 0x24CF, 1, 26⟩, ⟨0x2C00, 0x2C2F, 1, 48⟩, ⟨0x2C60, 0x2C60, 1, 1⟩,
    ⟨0x2C62, 0x2C62, 1, -10743⟩, ⟨0x2C63, 0x2C63, 1, -3814⟩ ]

/-- The simple lower-case mappings of the code points beyond ASCII (the lower-case column
of `unicode.CaseRanges`), part 6: from `0x2C64` to `0xA7AC`. -/
def lowerRuns6 : List CaseRun :=
  [⟨0x2C64, 0x2C64, 1, -10727⟩, ⟨0x2C67, 0x2C6B, 2, 1⟩, ⟨0x2C6D, 0x2C6D, 1, -10780⟩,
    ⟨0x2C6E, 0x2C6E, 1, -10749⟩, ⟨0x2C6F, 0x2C6F, 1, -10783⟩, ⟨0x2C70, 0x2C70, 1, -10782⟩,
    ⟨0x2C72, 0x2C72, 1, 1⟩, ⟨0x2C75, 0x2C75, 1, 1⟩, ⟨0x2C7E, 0x2C7F, 1, -10815⟩,
    ⟨0x2C80, 0x2CE2, 2, 1⟩, ⟨0x2CEB, 0x2CED, 2, 1⟩, ⟨0x2CF2, 0x2CF2, 1, 1⟩,
    ⟨0xA640, 0xA66C, 2, 1⟩, ⟨0xA680, 0xA69A, 2, 1⟩, ⟨0xA722, 0xA72E, 2, 1⟩,
    ⟨0xA732, 0xA76E, 2, 1⟩, ⟨0xA779, 0xA77B, 2, 1⟩, ⟨0xA77D, 0xA77D, 1, -35332⟩,
    ⟨0xA77E, 0xA786, 2, 1⟩, ⟨0xA78B, 0xA78B, 1, 1⟩, ⟨0xA78D, 0xA78D, 1, -42280⟩,
    ⟨0xA790, 0xA792, 2, 1⟩, ⟨0xA796, 0xA7A8, 2, 1⟩, ⟨0xA7AA, 0xA7AA, 1, -42308⟩,
    ⟨0xA7AB, 0xA7AB, 1, -42319⟩, ⟨0xA7AC, 0xA7AC, 1, -42315⟩ ]

/-- The simple lower-case mappings of the code points beyond ASCII (the lower-case column
of `unicode.CaseRanges`), part 7: from `0xA7AD` to `0x1E921`. -/
def lowerRuns7 : List CaseRun :=
  [⟨0xA7AD, 0xA7AD, 1, -42305⟩, ⟨0xA7AE, 0xA7AE, 1, -42308⟩, ⟨0xA7B0, 0xA7B0, 1, -42258⟩,
    ⟨0xA7B1, 0xA7B1, 1, -42282⟩, ⟨0xA7B2, 0xA7B2, 1, -42261⟩, ⟨0xA7B3, 0xA7B3, 1, 928⟩,
    ⟨0xA7B4, 0xA7C2, 2, 1⟩, ⟨0xA7C4, 0xA7C4, 1, -48⟩, ⟨0xA7C5, 0xA7C5, 1, -42307⟩,
    ⟨0xA7C6, 0xA7C6, 1, -35384⟩, ⟨0xA7C7, 0xA7C9, 2, 1⟩, ⟨0xA7D0, 0xA7D0, 1, 1⟩,
    ⟨0xA7D6, 0xA7D8, 2, 1⟩, ⟨0xA7F5, 0xA7F5, 1, 1⟩, ⟨0xFF21, 0xFF3A, 1, 32⟩,
    ⟨0x10400, 0x10427, 1, 40⟩, ⟨0x104B0, 0x104D3, 1, 40⟩, ⟨0x10570, 0x10594, 2, 39⟩,
    ⟨0x10571, 0x10579, 2, 39⟩, ⟨0x1057D, 0x10589, 2, 39⟩, ⟨0x1058D, 0x10591, 2, 39⟩,
    ⟨0x10595, 0x10595, 1, 39⟩, ⟨0x10C80, 0x10CB2, 1, 64⟩, ⟨0x118A0, 0x118BF, 1, 32⟩,
    ⟨0x16E40, 0x16E5F, 1, 32⟩, ⟨0x1E900, 0x1E921, 1, 34⟩ ]

/-- The simple lower-case mappings of the code points beyond ASCII. -/
def lowerRuns : List CaseRun :=
  lowerRuns1 ++ lowerRuns2 ++ lowerRuns3 ++ lowerRuns4 ++ lowerRuns5 ++ lowerRuns6 ++ lowerRuns7

/-- Go `unicode.ToLower`: the ASCII letters directly, every other code point by the
table. -/
def ToLower (c : Char) : Char :=
  if c.toNat < 128 then
    if 'A' ≤ c ∧ c ≤ 'Z' then Char.ofNat (c.toNat + 32) else c
  else
    match lookupRun lowerRuns c.toNat with
    | some r => Char.ofNat r
    | none => c

/-- The code points beyond ASCII whose simple case folding (status C and S of the case
folding table) is not their lower-case mapping, with their folding. -/
def foldRuns : List CaseRun :=
  [⟨0xB5, 0xB5, 1, 775⟩, ⟨0x130, 0x130, 1, 0⟩, ⟨0x17F, 0x17F, 1, -268⟩, ⟨0x345, 0x345, 1, 116⟩,
    ⟨0x3C2, 0x3C2, 1, 1⟩, ⟨0x3D0, 0x3D0, 1, -30⟩, ⟨0x3D1, 0x3D1, 1, -25⟩, ⟨0x3D5, 0x3D5, 1, -15⟩,
    ⟨0x3D6, 0x3D6, 1, -22⟩, ⟨0x3F0, 0x3F0, 1, -54⟩, ⟨0x3F1, 0x3F1, 1, -48⟩,
    ⟨0x3F5, 0x3F5, 1, -64⟩, ⟨0x13A0, 0x13F5, 1, 0⟩, ⟨0x13F8, 0x13FD, 1, -8⟩,
    ⟨0x1C80, 0x1C80, 1, -6222⟩, ⟨0x1C81, 0x1C81, 1, -6221⟩, ⟨0x1C82, 0x1C82, 1, -6212⟩,
    ⟨0x1C83, 0x1C84, 1, -6210⟩, ⟨0x1C85, 0x1C85, 1, -6211⟩, ⟨0x1C86, 0x1C86, 1, -6204⟩,
    ⟨0x1C87, 0x1C87, 1, -6180⟩, ⟨0x1C88, 0x1C88, 1, 35267⟩, ⟨0x1E9B, 0x1E9B, 1, -58⟩,
    ⟨0x1FBE, 0x1FBE, 1, -7173⟩, ⟨0xAB70, 0xABBF, 1, -38864⟩ ]

/-- The simple case folding of a code point.  The orbits of `unicode.SimpleFold` are the
sets of code points with the same folding. -/
def simpleFolding (c : Char) : Char :=
  if c.toNat < 128 then ToLower c
  else
    match lookupRun foldRuns c.toNat with
    | some r => Char.ofNat r
    | none => ToLower c

end unicode

/-! ## Go runtime: strings -/

namespace strings

/-- Go `strings.ToLower`: every code point of the string mapped by `unicode.ToLower`. -/
def ToLower (s : String) : String := ⟨s.data.map unicode.ToLower⟩

/-- Whether `sub` occurs in `l` as a contiguous block. -/
def containsChars (l sub : List Char) : Bool :=
  match l with
  | [] => sub.isEmpty
  | c :: cs => sub.isPrefixOf (c :: cs) || containsChars cs sub

/-- Go `strings.Contains`. -/
def Contains (s substr : String) : Bool := containsChars s.data substr.data

/-- Go `strings.EqualFold`: the strings have as many code points and agree code point by
code point up to simple case folding (the second lies on the `unicode.SimpleFold` orbit of
the first). -/
def EqualFold (s t : String) : Bool :=
  s.data.map unicode.simpleFolding == t.data.map unicode.simpleFolding

/-- The first element of Go `strings.Split(s, "-")`: the text before the first hyphen. -/
def SplitHyphenFirst (s : String) : String := ⟨s.data.takeWhile (fun c => c != '-')⟩

/-- Go `fmt.Sprintf("%v", xs)` for a slice of strings: `[a b c]`. -/
def formatSlice (xs : List String) : String := "[" ++ " ".intercalate xs ++ "]"

end strings

/-! ## Go runtime: decoded JSON values -/

/-- An `interface{}` value as `encoding/json` decodes it. -/
inductive Value where
  | null : Value
  | bool (b : Bool) : Value
  | number (x : ℚ) : Value
  | string (s : String) : Value
  | array (xs : List Value) : Value
  | object (kvs : List (String × Value)) : Value

/-- A `map[string]interface{}`: the first binding of a key is the map's entry. -/
abbrev Object := List (String × Value)

namespace Value

/-- The type assertion `v.(string)`. -/
def asString : Value → Option String
  | string s => some s
  | _ => none

/-- The type assertion `v.(float64)`. -/
def asFloat64 : Value → Option ℚ
  | number x => some x
  | _ => none

/-- The type assertion `v.([]interface{})`. -/
def asArray : Value → Option (List Value)
  | array xs => some xs
  | _ => none

/-- The type assertion `v.(map[string]interface{})`. -/
def asObject : Value → Option Object
  | object kvs => some kvs
  | _ => none

end Value

namespace Object

/-- The map index expression `m[k]`: the nil interface when the key is absent. -/
def index (m : Object) (k : String) : Value := (m.lookup k).getD Value.null

/-- The comma-ok assertion `s, _ := m[k].(string)`: the empty string on failure. -/
def str (m : Object) (k : String) : String := ((m.index k).asString).getD ""

/-- The assertion `m[k].(map[string]interface{})`. -/
def obj (m : Object) (k : String) : Option Object := (m.index k).asObject

/-- The assertion `m[k].([]interface{})`. -/
def arr (m : Object) (k : String) : Option (List Value) := (m.index k).asArray

/-- The entries a `range` over the map visits: one per key, the first binding. -/
def entries : Object → Object
  | [] => []
  | (k, v) :: rest => (k, v) :: (entries rest).filter (fun e => e.1 != k)

/-- The keys of the map, each once. -/
def keys (m : Object) : List String := m.entries.map Prod.fst

end Object

/-- The order in which one `range` statement visits the keys of a map.  Go does
not specify it; `site` names the statement (and the outer key for a nested
loop), so that every loop has an order of its own. -/
structure MapOrder where
  order : String → List String → List String
  perm : ∀ (site : String) (ks : List String), List.Perm (order site ks) ks

/-- The order that visits keys as the embedding lists them. -/
def MapOrder.listed : MapOrder := ⟨fun _ ks => ks, fun _ _ => List.Perm.refl _⟩

/-- A finite `float64` value. -/
abbrev Float64 := ℚ

namespace Float64

/-- The power `2 ^ e` as a rational. -/
def pow2 (e : ℤ) : ℚ :=
  if 0 ≤ e then ((2 ^ e.toNat : ℕ) : ℚ) else 1 / ((2 ^ (-e).toNat : ℕ) : ℚ)

/-- The number of halvings that bring `n` below 2, at most `fuel` of them. -/
def log2Aux : ℕ → ℕ → ℕ
  | 0, _ => 0
  | fuel + 1, n => if n < 2 then 0 else log2Aux fuel (n / 2) + 1

/-- For `n > 0`: the exponent `k` with `2 ^ k ≤ n < 2 ^ (k + 1)`. -/
def log2 (n : ℕ) : ℕ := log2Aux n n

/-- For `q > 0`: the exponent `l` with `2 ^ l ≤ q < 2 ^ (l + 1)`. -/
def ilog2 (q : ℚ) : ℤ :=
  let e : ℤ := (log2 q.num.natAbs : ℤ) - (log2 q.den : ℤ)
  if pow2 e ≤ q then e else e - 1

/-- Round to the nearest integer, a tie going to the even neighbour. -/
def roundHalfEven (q : ℚ) : ℤ :=
  let f := ⌊q⌋
  let r := q - f
  if r < 1 / 2 then f
  else if 1 / 2 < r then f + 1
  else if f % 2 = 0 then f else f + 1

/-- Round an exact result to binary64: 53 significant bits, nearest, ties to even. -/
def roundNearest (q : ℚ) : Float64 :=
  if q = 0 then 0
  else
    let e := ilog2 |q| - 52
    (roundHalfEven (q / pow2 e) : ℚ) * pow2 e

/-- A decimal constant of the source, converted to `float64`. -/
def lit (q : ℚ) : Float64 := roundNearest q

/-- The conversion `float64(n)` of an `int`. -/
def ofInt (n : ℤ) : Float64 := roundNearest n

/-- Addition `x + y`. -/
def add (x y : Float64) : Float64 := roundNearest (x + y)

/-- Subtraction `x - y`. -/
def sub (x y : Float64) : Float64 := roundNearest (x - y)

/-- Multiplication `x * y`. -/
def mul (x y : Float64) : Float64 := roundNearest (x * y)

/-- Division `x / y`, for `y ≠ 0`. -/
def div (x y : Float64) : Float64 := roundNearest (x / y)

/-- The conversion `int(x)` for an operand within the 64-bit range: truncation toward
zero.  It is used for the coverages and rates of the scores, which the analyzers keep
between 0 and 100. -/
def toInt (x : Float64) : ℤ := if 0 ≤ x then ⌊x⌋ else ⌈x⌉

/-- The conversion `int(x)` for an operand that can lie outside the 64-bit range:
truncation toward zero when the result is a 64-bit integer.  Outside that range Go leaves
the result to the implementation; the value given is the one of the amd64 conversion
instruction, the least 64-bit integer. -/
def toInt64 (x : Float64) : ℤ :=
  if -(2 : ℤ) ^ 63 ≤ toInt x ∧ toInt x < (2 : ℤ) ^ 63 then toInt x else -(2 : ℤ) ^ 63

end Float64

/-- A Go map from strings: an association list with one binding per key. -/
abbrev GoMap (β : Type) := List (String × β)

namespace GoMap

/-- The assignment `m[k] = f(m[k])`, where `m[k]` reads `zero` when `k` is absent:
an existing binding is replaced in place, a new key is added. -/
def update {β : Type} (m : GoMap β) (k : String) (zero : β) (f : β → β) : GoMap β :=
  match m with
  | [] => [(k, f zero)]
  | (k0, v) :: rest => if k0 = k then (k0, f v) :: rest else (k0, v) :: update rest k zero f

/-- The bindings in the order `ord` visits the keys at `site`. -/
def range {β : Type} (ord : MapOrder) (site : String) (m : GoMap β) : List (String × β) :=
  (ord.order site (m.map Prod.fst)).filterMap (fun k => (m.lookup k).map (fun v => (k, v)))

end GoMap

/-! ## pkg/analysis/security.go -/

namespace analysis

/-- A resource record of the inventory: `map[string]interface{}`. -/
abbrev Resource := Object

/-- The lower-cased `type` of a resource. -/
def typeOf (res : Resource) : String := strings.ToLower (res.str "type")

structure SecurityFinding where
  Severity : String
  Category : String
  Resource : String
  Issue : String
  Impact : String
  Remediation : String
  References : List String
  deriving DecidableEq

structure SecurityAnalysis where
  CriticalCount : ℤ
  HighCount : ℤ
  MediumCount : ℤ
  LowCount : ℤ
  Findings : List SecurityFinding
  deriving DecidableEq

def dangerousPorts : List String := ["22", "3389", "1433", "3306", "5432", "27017", "6379"]

def isDangerousPort (portRange : String) : Bool :=
  dangerousPorts.any (fun port => strings.Contains portRange port)

/-- The body of the rule loop of `analyzeNSGRules`: the findings one rule adds. -/
def nsgRuleFindings (nsgName : String) (ruleIface : Value) : List SecurityFinding :=
  match ruleIface.asObject with
  | none => []
  | some rule =>
    match rule.obj "properties" with
    | none => []
    | some ruleProps =>
      let direction := ruleProps.str "direction"
      let access := ruleProps.str "access"
      let sourcePrefix := ruleProps.str "sourceAddressPrefix"
      let destPort := ruleProps.str "destinationPortRange"
      let ruleName := rule.str "name"
      if direction = "Inbound" ∧ access = "Allow" then
        if sourcePrefix = "0.0.0.0/0" ∨ sourcePrefix = "*" ∨ sourcePrefix = "Internet" then
          let severity := if isDangerousPort destPort then "Critical" else "Medium"
          let issue :=
            if isDangerousPort destPort then
              "NSG rule '" ++ ruleName ++ "' allows " ++ destPort ++ " from Internet (port "
                ++ destPort ++ ")"
            else
              "NSG rule '" ++ ruleName ++ "' allows inbound traffic from Internet ("
                ++ sourcePrefix ++ ")"
          [{ Severity := severity
             Category := "NSG"
             Resource := nsgName
             Issue := issue
             Impact := "Resources may be exposed to attacks from the Internet"
             Remediation := "Restrict source IP ranges to known trusted networks. Use Azure Bastion for management access."
             References := [] }]
        else []
      else []

/-- The body of the resource loop of `analyzeNSGRules`. -/
def nsgFindings (res : Resource) : List SecurityFinding :=
  if typeOf res ≠ "microsoft.network/networksecuritygroups" then []
  else
    let nsgName := res.str "name"
    match res.obj "properties" with
    | none => []
    | some props =>
      match props.arr "securityRules" with
      | none => []
      | some securityRules => securityRules.flatMap (nsgRuleFindings nsgName)

def analyzeNSGRules (a : SecurityAnalysis) (resources : List Resource) : SecurityAnalysis :=
  { a with Findings := a.Findings ++ resources.flatMap nsgFindings }

/-- The body of the VM loop of `analyzePublicExposure`. -/
def publicExposureFindings (res : Resource) : List SecurityFinding :=
  if typeOf res ≠ "microsoft.compute/virtualmachines" then []
  else
    [{ Severity := "High"
       Category := "PublicExposure"
       Resource := res.str "name"
       Issue := "Virtual Machine may have public IP exposure"
       Impact := "Direct internet exposure increases attack surface"
       Remediation := "Use Azure Bastion for secure remote access instead of public IPs"
       References := [] }]

/-- The map of public IPs the source builds first is never read; only the VM loop
reaches the result. -/
def analyzePublicExposure (a : SecurityAnalysis) (resources : List Resource) : SecurityAnalysis :=
  { a with Findings := a.Findings ++ resources.flatMap publicExposureFindings }

/-- The body of the loop of `analyzeEncryption`. -/
def encryptionFindings (res : Resource) : List SecurityFinding :=
  let resName := res.str "name"
  if typeOf res = "microsoft.storage/storageaccounts" then
    match res.obj "properties" with
    | none => []
    | some props =>
      match props.obj "encryption" with
      | none =>
        [{ Severity := "Medium"
           Category := "Encryption"
           Resource := resName
           Issue := "Storage account encryption status unclear"
           Impact := "Data at rest may not be encrypted"
           Remediation := "Enable storage account encryption with customer-managed keys"
           References := [] }]
      | some encryption =>
        match encryption.obj "services" with
        | none =>
          [{ Severity := "Low"
             Category := "Encryption"
             Resource := resName
             Issue := "Storage encryption services not configured"
             Impact := "Some storage services may not be encrypted"
             Remediation := "Enable encryption for Blob, File, Table, and Queue services"
             References := [] }]
        | some _ => []
  else if typeOf res = "microsoft.compute/disks" then
    match res.obj "properties" with
    | none => []
    | some props =>
      match props.obj "encryptionSettingsCollection" with
      | none =>
        [{ Severity := "Low"
           Category := "Encryption"
           Resource := resName
           Issue := "Disk encryption not configured"
           Impact := "Disk data at rest is not encrypted with customer-managed keys"
           Remediation := "Enable Azure Disk Encryption (ADE) or use encryption at host"
           References := [] }]
      | some _ => []
  else []

def analyzeEncryption (a : SecurityAnalysis) (resources : List Resource) : SecurityAnalysis :=
  { a with Findings := a.Findings ++ resources.flatMap encryptionFindings }

/-- The body of the loop of `analyzeNetworkIsolation`. -/
def networkIsolationFindings (res : Resource) : List SecurityFinding :=
  if typeOf res = "microsoft.storage/storageaccounts" then
    match res.obj "properties" with
    | none => []
    | some props =>
      match props.obj "networkAcls" with
      | none => []
      | some networkAcls =>
        if networkAcls.str "defaultAction" = "Allow" then
          [{ Severity := "Medium"
             Category := "NetworkIsolation"
             Resource := res.str "name"
             Issue := "Storage account allows public network access"
             Impact := "Data can be accessed from any network"
             Remediation := "Configure network ACLs to deny by default and use private endpoints"
             References := [] }]
        else []
  else []

def analyzeNetworkIsolation (a : SecurityAnalysis) (resources : List Resource) : SecurityAnalysis :=
  { a with Findings := a.Findings ++ resources.flatMap networkIsolationFindings }

/-- One step of the severity count of `AnalyzeSecurity`. -/
def countSeverity (a : SecurityAnalysis) (finding : SecurityFinding) : SecurityAnalysis :=
  if finding.Severity = "Critical" then { a with CriticalCount := a.CriticalCount + 1 }
  else if finding.Severity = "High" then { a with HighCount := a.HighCount + 1 }
  else if finding.Severity = "Medium" then { a with MediumCount := a.MediumCount + 1 }
  else if finding.Severity = "Low" then { a with LowCount := a.LowCount + 1 }
  else a

def AnalyzeSecurity (resources : List Resource) : SecurityAnalysis :=
  let analysis : SecurityAnalysis :=
    { CriticalCount := 0, HighCount := 0, MediumCount := 0, LowCount := 0, Findings := [] }
  let analysis := analyzeNSGRules analysis resources
  let analysis := analyzePublicExposure analysis resources
  let analysis := analyzeEncryption analysis resources
  let analysis := analyzeNetworkIsolation analysis resources
  analysis.Findings.foldl countSeverity analysis

def SecurityAnalysis.GetSecurityScore (a : SecurityAnalysis) : ℤ :=
  if a.Findings.length = 0 then 100
  else
    let score : ℤ := 100
    let score := score - a.CriticalCount * 20
    let score := score - a.HighCount * 10
    let score := score - a.MediumCount * 5
    let score := score - a.LowCount * 2
    if score < 0 then 0 else score

end analysis

/-! ## pkg/analysis/cost.go -/

namespace analysis

structure CostFinding where
  Severity : String
  Category : String
  Resource : String
  Issue : String
  CurrentCost : Float64
  PotentialSavings : Float64
  Remediation : String
  deriving DecidableEq

structure CostAnalysis where
  TotalMonthlyCost : Float64
  PotentialMonthlySavings : Float64
  Findings : List CostFinding
  deriving DecidableEq

/-- The id a VM record contributes to `attachedDisks`:
`properties.storageProfile.osDisk.managedDisk.id`, when every level has the expected shape. -/
def osDiskID (res : Resource) : Option String :=
  if typeOf res ≠ "microsoft.compute/virtualmachines" then none
  else
    match res.obj "properties" with
    | none => none
    | some props =>
      match props.obj "storageProfile" with
      | none => none
      | some osDisk =>
        match osDisk.obj "osDisk" with
        | none => none
        | some managedDisk =>
          match managedDisk.obj "managedDisk" with
          | none => none
          | some diskRef => (diskRef.index "id").asString

/-- The set `attachedDisks` of `analyzeOrphanedResources`. -/
def attachedDisks (resources : List Resource) : List String :=
  resources.filterMap osDiskID

/-- The local `diskSize` of the orphaned-disk loop: `int(diskSizeGB)`, 128 by default. -/
def orphanDiskSize (res : Resource) : ℤ :=
  match res.obj "properties" with
  | none => 128
  | some props =>
    match (props.index "diskSizeGB").asFloat64 with
    | none => 128
    | some size => Float64.toInt64 size

/-- The body of the orphaned-disk loop of `analyzeOrphanedResources`. -/
def orphanedDiskFindings (attached : List String) (res : Resource) : List CostFinding :=
  if typeOf res ≠ "microsoft.compute/disks" then []
  else
    let id := res.str "id"
    let name := res.str "name"
    if id ∈ attached then []
    else
      let estimatedCost := Float64.mul (Float64.ofInt (orphanDiskSize res)) (Float64.lit 0.12)
      [{ Severity := "Medium"
         Category := "Orphaned"
         Resource := name
         Issue := "Disk is not attached to any VM"
         CurrentCost := estimatedCost
         PotentialSavings := estimatedCost
         Remediation := "Delete orphaned disk or attach to a VM if needed" }]

/-- The ids one IP configuration of a network interface adds to `usedPublicIPs`. -/
def ipConfigPublicIP (ipConfigIface : Value) : Option String :=
  match ipConfigIface.asObject with
  | none => none
  | some ipConfig =>
    match ipConfig.obj "properties" with
    | none => none
    | some ipProps =>
      match ipProps.obj "publicIPAddress" with
      | none => none
      | some pubIP => (pubIP.index "id").asString

/-- The ids one resource adds to `usedPublicIPs`. -/
def nicPublicIPs (res : Resource) : List String :=
  if typeOf res ≠ "microsoft.network/networkinterfaces" then []
  else
    match res.obj "properties" with
    | none => []
    | some props =>
      match props.arr "ipConfigurations" with
      | none => []
      | some ipConfigs => ipConfigs.filterMap ipConfigPublicIP

/-- The set `usedPublicIPs` of `analyzeOrphanedResources`. -/
def usedPublicIPs (resources : List Resource) : List String :=
  resources.flatMap nicPublicIPs

/-- The body of the orphaned public IP loop of `analyzeOrphanedResources`. -/
def orphanedPublicIPFindings (used : List String) (res : Resource) : List CostFinding :=
  if typeOf res ≠ "microsoft.network/publicipaddresses" then []
  else
    let id := res.str "id"
    let name := res.str "name"
    if id ∈ used then []
    else
      [{ Severity := "Low"
         Category := "Orphaned"
         Resource := name
         Issue := "Public IP is not associated with any resource"
         CurrentCost := Float64.lit 3.65
         PotentialSavings := Float64.lit 3.65
         Remediation := "Delete unused public IP or associate with a resource" }]

def analyzeOrphanedResources (a : CostAnalysis) (resources : List Resource) : CostAnalysis :=
  let a := { a with
    Findings := a.Findings ++ resources.flatMap (orphanedDiskFindings (attachedDisks resources)) }
  { a with
    Findings := a.Findings ++ resources.flatMap (orphanedPublicIPFindings (usedPublicIPs resources)) }

def estimateVMCost (vmSize : String) : Float64 :=
  let costMap : List (String × Float64) :=
    [ ("Standard_B1s", Float64.lit 7.5),
      ("Standard_B2s", 30),
      ("Standard_B2ms", 60),
      ("Standard_D2s_v3", 70),
      ("Standard_D4s_v3", 140),
      ("Standard_E2s_v3", 87),
      ("Standard_E4s_v3", 175) ]
  match costMap.lookup vmSize with
  | some cost => cost
  | none => 50

/-- The `hardwareProfile.vmSize` of a VM's properties, `dflt` when it is not given. -/
def vmSizeOr (props : Object) (dflt : String) : String :=
  match props.obj "hardwareProfile" with
  | none => dflt
  | some hardwareProfile =>
    match (hardwareProfile.index "vmSize").asString with
    | none => dflt
    | some size => size

/-- The body of the loop of `analyzeIdleResources`. -/
def idleFindings (res : Resource) : List CostFinding :=
  if typeOf res = "microsoft.compute/virtualmachines" then
    match res.obj "properties" with
    | none => []
    | some props =>
      let vmSize := vmSizeOr props "Standard_B2s"
      let estimatedCost := estimateVMCost vmSize
      [{ Severity := "Low"
         Category := "Idle"
         Resource := res.str "name"
         Issue := "VM may be idle or underutilized (requires metrics analysis)"
         CurrentCost := estimatedCost
         PotentialSavings := Float64.mul estimatedCost (Float64.lit 0.7)
         Remediation := "Review VM metrics. If CPU <5% avg, consider deallocating when not in use or downsizing" }]
  else []

def analyzeIdleResources (a : CostAnalysis) (resources : List Resource) : CostAnalysis :=
  { a with Findings := a.Findings ++ resources.flatMap idleFindings }

/-- The body of the loop of `analyzeOversizedResources`. -/
def oversizedFindings (res : Resource) : List CostFinding :=
  if typeOf res = "microsoft.compute/virtualmachines" then
    match res.obj "properties" with
    | none => []
    | some props =>
      let vmSize := vmSizeOr props ""
      if strings.Contains vmSize "Standard_D" || strings.Contains vmSize "Standard_E" then
        let currentCost := estimateVMCost vmSize
        let potentialSavings := Float64.mul currentCost (Float64.lit 0.4)
        [{ Severity := "Medium"
           Category := "Oversized"
           Resource := res.str "name"
           Issue := "VM using " ++ vmSize ++ " - may be oversized for workload"
           CurrentCost := currentCost
           PotentialSavings := potentialSavings
           Remediation := "Analyze CPU/Memory metrics. Consider B-series or smaller size if utilization <30%" }]
      else []
  else []

def analyzeOversizedResources (a : CostAnalysis) (resources : List Resource) : CostAnalysis :=
  { a with Findings := a.Findings ++ resources.flatMap oversizedFindings }

/-- The body of the loop of `analyzeStorageTiers`. -/
def storageTierFindings (res : Resource) : List CostFinding :=
  if typeOf res = "microsoft.storage/storageaccounts" then
    match res.obj "properties" with
    | none => []
    | some props =>
      if props.str "accessTier" = "Hot" then
        [{ Severity := "Low"
           Category := "StorageTier"
           Resource := res.str "name"
           Issue := "Storage account using Hot tier - review access patterns"
           CurrentCost := 50
           PotentialSavings := 25
           Remediation := "If data is accessed <1x/month, move to Cool tier. For archival, use Archive tier" }]
      else []
  else []

def analyzeStorageTiers (a : CostAnalysis) (resources : List Resource) : CostAnalysis :=
  { a with Findings := a.Findings ++ resources.flatMap storageTierFindings }

/-- One step of the loop of `estimateTotalCost`. -/
def addResourceCost (totalCost : Float64) (res : Resource) : Float64 :=
  if typeOf res = "microsoft.compute/virtualmachines" then
    let vmSize :=
      match res.obj "properties" with
      | none => "Standard_B2s"
      | some props => vmSizeOr props "Standard_B2s"
    Float64.add totalCost (estimateVMCost vmSize)
  else if typeOf res = "microsoft.storage/storageaccounts" then Float64.add totalCost 50
  else if typeOf res = "microsoft.network/natgateways" then Float64.add totalCost 33
  else if typeOf res = "microsoft.network/publicipaddresses" then
    Float64.add totalCost (Float64.lit 3.65)
  else if typeOf res = "microsoft.compute/disks" then
    let diskSize : Float64 :=
      match res.obj "properties" with
      | none => 128
      | some props =>
        match (props.index "diskSizeGB").asFloat64 with
        | none => 128
        | some size => size
    Float64.add totalCost (Float64.mul diskSize (Float64.lit 0.12))
  else totalCost

def estimateTotalCost (a : CostAnalysis) (resources : List Resource) : CostAnalysis :=
  { a with TotalMonthlyCost := resources.foldl addResourceCost 0 }

def AnalyzeCost (resources : List Resource) : CostAnalysis :=
  let analysis : CostAnalysis :=
    { TotalMonthlyCost := 0, PotentialMonthlySavings := 0, Findings := [] }
  let analysis := analyzeOrphanedResources analysis resources
  let analysis := analyzeIdleResources analysis resources
  let analysis := analyzeOversizedResources analysis resources
  let analysis := analyzeStorageTiers analysis resources
  let analysis := { analysis with
    PotentialMonthlySavings :=
      analysis.Findings.foldl (fun s finding => Float64.add s finding.PotentialSavings)
        analysis.PotentialMonthlySavings }
  estimateTotalCost analysis resources

def CostAnalysis.GetCostScore (a : CostAnalysis) : ℤ :=
  if a.TotalMonthlyCost = 0 then 100
  else
    let optimizationPct := Float64.mul (Float64.div a.PotentialMonthlySavings a.TotalMonthlyCost) 100
    if optimizationPct < 10 then 100
    else if optimizationPct < 25 then 80
    else if optimizationPct < 40 then 60
    else 40

end analysis

/-! ## pkg/analysis/compliance.go -/

namespace analysis

structure ComplianceFinding where
  Category : String
  Severity : String
  Resources : List String
  Issue : String
  Impact : String
  Remediation : String
  deriving DecidableEq

structure ComplianceAnalysis where
  BackupCoverage : Float64
  MonitoringCoverage : Float64
  Findings : List ComplianceFinding
  deriving DecidableEq

def analyzeBackup (a : ComplianceAnalysis) (resources : List Resource) : ComplianceAnalysis :=
  let vms := resources.filter (fun res => typeOf res = "microsoft.compute/virtualmachines")
  let totalVMs : ℤ := vms.length
  let vmsWithoutBackup := vms.map (fun res => res.str "name")
  if 0 < totalVMs then
    let a := { a with
      BackupCoverage :=
        Float64.mul
          (Float64.div (Float64.ofInt (totalVMs - vmsWithoutBackup.length)) (Float64.ofInt totalVMs))
          100 }
    if 0 < vmsWithoutBackup.length then
      { a with Findings := a.Findings ++
          [{ Category := "Backup"
             Severity := "High"
             Resources := vmsWithoutBackup
             Issue := toString vmsWithoutBackup.length ++ " VMs without Azure Backup configured"
             Impact := "Risk of data loss if VM fails or is corrupted"
             Remediation := "Configure Azure Backup with appropriate retention policy (7-30 days recommended)" }] }
    else a
  else a

def isMonitorable (resType : String) : Bool :=
  let monitorableTypes :=
    [ "microsoft.compute/virtualmachines",
      "microsoft.storage/storageaccounts",
      "microsoft.network/applicationgateways",
      "microsoft.network/loadbalancers",
      "microsoft.web/sites",
      "microsoft.sql/servers" ]
  let resTypeLower := strings.ToLower resType
  monitorableTypes.any (fun monType => resTypeLower = monType)

def analyzeMonitoring (a : ComplianceAnalysis) (resources : List Resource) : ComplianceAnalysis :=
  let monitorable := resources.filter (fun res => isMonitorable (res.str "type"))
  let totalMonitorable : ℤ := monitorable.length
  let resourcesWithoutDiagnostics :=
    monitorable.map (fun res => res.str "name" ++ " (" ++ res.str "type" ++ ")")
  if 0 < totalMonitorable then
    let a := { a with
      MonitoringCoverage :=
        Float64.mul
          (Float64.div (Float64.ofInt (totalMonitorable - resourcesWithoutDiagnostics.length))
            (Float64.ofInt totalMonitorable))
          100 }
    if 5 < resourcesWithoutDiagnostics.length then
      { a with Findings := a.Findings ++
          [{ Category := "Monitoring"
             Severity := "Medium"
             Resources := resourcesWithoutDiagnostics.take 5
             Issue := toString resourcesWithoutDiagnostics.length
               ++ " resources without diagnostic settings (showing first 5)"
             Impact := "Limited visibility into resource health and performance"
             Remediation := "Enable diagnostic settings to send logs to Log Analytics workspace" }] }
    else if 0 < resourcesWithoutDiagnostics.length then
      { a with Findings := a.Findings ++
          [{ Category := "Monitoring"
             Severity := "Medium"
             Resources := resourcesWithoutDiagnostics
             Issue := toString resourcesWithoutDiagnostics.length
               ++ " resources without diagnostic settings"
             Impact := "Limited visibility into resource health and performance"
             Remediation := "Enable diagnostic settings to send logs to Log Analytics workspace" }] }
    else a
  else a

/-- The body of the loop of `analyzeGeoRedundancy`: the name a storage account adds
to `nonRedundantStorage`. -/
def nonRedundantName (res : Resource) : Option String :=
  if typeOf res ≠ "microsoft.storage/storageaccounts" then none
  else
    match res.obj "sku" with
    | none => none
    | some sku => if strings.Contains (sku.str "name") "LRS" then some (res.str "name") else none

def analyzeGeoRedundancy (a : ComplianceAnalysis) (resources : List Resource) : ComplianceAnalysis :=
  let nonRedundantStorage := resources.filterMap nonRedundantName
  if 0 < nonRedundantStorage.length then
    { a with Findings := a.Findings ++
        [{ Category := "DR"
           Severity := "Medium"
           Resources := nonRedundantStorage
           Issue := toString nonRedundantStorage.length
             ++ " storage accounts using LRS (locally redundant)"
           Impact := "Data not protected against regional outages"
           Remediation := "Consider GRS (Geo-Redundant Storage) or GZRS for critical data" }] }
  else a

def AnalyzeCompliance (resources : List Resource) : ComplianceAnalysis :=
  let analysis : ComplianceAnalysis :=
    { BackupCoverage := 0, MonitoringCoverage := 0, Findings := [] }
  let analysis := analyzeBackup analysis resources
  let analysis := analyzeMonitoring analysis resources
  analyzeGeoRedundancy analysis resources

/-- The penalty one finding costs in `GetComplianceScore`. -/
def compliancePenalty (finding : ComplianceFinding) : ℤ :=
  if finding.Severity = "Critical" then 15
  else if finding.Severity = "High" then 10
  else if finding.Severity = "Medium" then 5
  else if finding.Severity = "Low" then 2
  else 0

def ComplianceAnalysis.GetComplianceScore (a : ComplianceAnalysis) : ℤ :=
  let score : ℤ := 100
  let score := score - Float64.toInt (Float64.mul (Float64.sub 100 a.BackupCoverage) (Float64.lit 0.3))
  let score := score - Float64.toInt (Float64.mul (Float64.sub 100 a.MonitoringCoverage) (Float64.lit 0.2))
  let score := a.Findings.foldl (fun s finding => s - compliancePenalty finding) score
  if score < 0 then 0 else score

end analysis

/-! ## pkg/analysis/tagging.go -/

namespace analysis

structure TagFinding where
  Severity : String
  Category : String
  Resources : List String
  Issue : String
  Impact : String
  Remediation : String
  deriving DecidableEq

structure TaggingAnalysis where
  TotalResources : ℤ
  TaggedResources : ℤ
  UntaggedResources : ℤ
  ComplianceRate : Float64
  Findings : List TagFinding
  RequiredTags : List String
  TagValueInconsistencies : GoMap (List String)
  deriving DecidableEq

def isSystemResource (resType : String) : Bool :=
  let systemTypes :=
    [ "microsoft.network/networkwatchers",
      "microsoft.insights/actiongroups",
      "microsoft.operationalinsights/workspaces" ]
  let resTypeLower := strings.ToLower resType
  systemTypes.any (fun sysType => resTypeLower = sysType)

/-- The assignment `missingByTag[requiredTag] = append(missingByTag[requiredTag], name)`. -/
def appendMissing (missingByTag : GoMap (List String)) (requiredTag name : String) :
    GoMap (List String) :=
  missingByTag.update requiredTag [] (fun l => l ++ [name])

/-- One step of the resource loop of `analyzeMissingTags`, on the analysis record and
the local map `missingByTag`. -/
def missingTagsStep (st : TaggingAnalysis × GoMap (List String)) (res : Resource) :
    TaggingAnalysis × GoMap (List String) :=
  let a := st.1
  let missingByTag := st.2
  let name := res.str "name"
  if isSystemResource (res.str "type") then st
  else
    let untagged : TaggingAnalysis × GoMap (List String) :=
      ({ a with UntaggedResources := a.UntaggedResources + 1 },
        a.RequiredTags.foldl (fun m requiredTag => appendMissing m requiredTag name) missingByTag)
    match res.obj "tags" with
    | none => untagged
    | some tags =>
      if tags.length = 0 then untagged
      else
        ({ a with TaggedResources := a.TaggedResources + 1 },
          a.RequiredTags.foldl
            (fun m requiredTag =>
              let found := tags.keys.any (fun tagKey => strings.EqualFold tagKey requiredTag)
              if !found then appendMissing m requiredTag name else m)
            missingByTag)

/-- The finding `analyzeMissingTags` creates for one entry of `missingByTag`. -/
def missingTagFinding (entry : String × List String) : List TagFinding :=
  let tagName := entry.1
  let resourceList := entry.2
  if 0 < resourceList.length then
    let severity := if tagName = "owner" ∨ tagName = "cost-center" then "High" else "Medium"
    [{ Severity := severity
       Category := "Missing"
       Resources := resourceList
       Issue := toString resourceList.length ++ " resources missing '" ++ tagName ++ "' tag"
       Impact := "Cannot track ownership, cost allocation, or compliance"
       Remediation := "Add '" ++ tagName ++ "' tag to all resources according to tagging policy" }]
  else []

def analyzeMissingTags (ord : MapOrder) (a : TaggingAnalysis) (resources : List Resource) :
    TaggingAnalysis :=
  let st := resources.foldl missingTagsStep (a, [])
  let a := st.1
  let missingByTag := st.2
  { a with
    Findings := a.Findings ++ (GoMap.range ord "missingByTag" missingByTag).flatMap missingTagFinding }

/-- The statement `tagKeyVariations[normalized][tagKey]++`, the inner map being made
when it is missing. -/
def countVariation (tagKeyVariations : GoMap (GoMap ℤ)) (tagKey : String) : GoMap (GoMap ℤ) :=
  let normalized := strings.ToLower tagKey
  tagKeyVariations.update normalized [] (fun variations => variations.update tagKey 0 (fun n => n + 1))

/-- The map `tagKeyVariations` of `analyzeTagConsistency` after the resource loop. -/
def tagKeyVariations (resources : List Resource) : GoMap (GoMap ℤ) :=
  resources.foldl
    (fun m res =>
      match res.obj "tags" with
      | none => m
      | some tags => tags.keys.foldl countVariation m)
    []

/-- The finding `analyzeTagConsistency` creates for one entry of `tagKeyVariations`. -/
def tagConsistencyFinding (ord : MapOrder) (entry : String × GoMap ℤ) : List TagFinding :=
  let normalized := entry.1
  let variations := entry.2
  if 1 < variations.length then
    let varList := (GoMap.range ord ("variations:" ++ normalized) variations).map Prod.fst
    [{ Severity := "Low"
       Category := "Inconsistent"
       Resources := []
       Issue := "Tag key '" ++ normalized ++ "' has " ++ toString variations.length
         ++ " variations: " ++ strings.formatSlice varList
       Impact := "Makes filtering and cost reporting difficult"
       Remediation := "Standardize to single format (recommended: '" ++ normalized ++ "')" }]
  else []

def analyzeTagConsistency (ord : MapOrder) (a : TaggingAnalysis) (resources : List Resource) :
    TaggingAnalysis :=
  { a with
    Findings := a.Findings ++
      (GoMap.range ord "tagKeyVariations" (tagKeyVariations resources)).flatMap
        (tagConsistencyFinding ord) }

/-- The map `envValues` of `analyzeTagValuePatterns` after the resource loop. -/
def envValues (resources : List Resource) : GoMap ℤ :=
  resources.foldl
    (fun m res =>
      match res.obj "tags" with
      | none => m
      | some tags =>
        tags.entries.foldl
          (fun m entry =>
            if strings.EqualFold entry.1 "environment" || strings.EqualFold entry.1 "env" then
              match entry.2.asString with
              | some val => m.update (strings.ToLower val) 0 (fun n => n + 1)
              | none => m
            else m)
          m)
    []

def analyzeTagValuePatterns (ord : MapOrder) (a : TaggingAnalysis) (resources : List Resource) :
    TaggingAnalysis :=
  let envValues := envValues resources
  if 5 < envValues.length then
    let values := (GoMap.range ord "envValues" envValues).map Prod.fst
    { a with Findings := a.Findings ++
        [{ Severity := "Medium"
           Category := "Inconsistent"
           Resources := []
           Issue := "Environment tag has " ++ toString envValues.length ++ " different values: "
             ++ strings.formatSlice values
           Impact := "Difficult to filter resources by environment"
           Remediation := "Standardize environment values to: production, staging, development, test" }] }
  else a

def AnalyzeTagging (ord : MapOrder) (resources : List Resource) : TaggingAnalysis :=
  let analysis : TaggingAnalysis :=
    { TotalResources := resources.length
      TaggedResources := 0
      UntaggedResources := 0
      ComplianceRate := 0
      Findings := []
      RequiredTags := ["environment", "owner", "cost-center", "application"]
      TagValueInconsistencies := [] }
  let analysis := analyzeMissingTags ord analysis resources
  let analysis := analyzeTagConsistency ord analysis resources
  let analysis := analyzeTagValuePatterns ord analysis resources
  if 0 < analysis.TotalResources then
    { analysis with
      ComplianceRate :=
        Float64.mul
          (Float64.div (Float64.ofInt analysis.TaggedResources) (Float64.ofInt analysis.TotalResources))
          100 }
  else analysis

/-- The penalty one finding costs in `GetTaggingScore`. -/
def taggingPenalty (finding : TagFinding) : ℤ :=
  if finding.Severity = "High" then 10
  else if finding.Severity = "Medium" then 5
  else if finding.Severity = "Low" then 2
  else 0

def TaggingAnalysis.GetTaggingScore (a : TaggingAnalysis) : ℤ :=
  let score : ℤ := Float64.toInt a.ComplianceRate
  let score := a.Findings.foldl (fun s finding => s - taggingPenalty finding) score
  if score < 0 then 0 else score

end analysis

/-! ## Go runtime: operations that can panic

The analyzers are rendered a second time, in `analysis.checked`, with every operation
that can fail at run time made explicit: a type assertion, which panics in its one-value
form when the value has another type; an assignment to an entry of a map, which panics
when the map is nil; a slice expression, which panics when it is out of range.  A checked
function returns the panic or its result. -/

namespace runtime

/-- A run-time panic. -/
inductive Panic where
  | typeAssertion : Panic
  | nilMap : Panic
  | sliceBounds : Panic
  deriving DecidableEq, Repr

/-- A computation that returns a value or panics. -/
abbrev Checked (α : Type) := Except Panic α

/-- The two forms of a type assertion: `v := x.(T)` and `v, ok := x.(T)`. -/
inductive AssertionForm where
  | oneValue : AssertionForm
  | twoValue : AssertionForm
  deriving DecidableEq, Repr

/-- The type assertion of `x` to the type that `as` recognises.  The result is the value
asserted, or `none` for a two-value assertion that reports `ok = false` (its value is
then the zero value of the type); a one-value assertion panics instead. -/
def assert {α : Type} (form : AssertionForm) (x : Value) (as : Value → Option α) :
    Checked (Option α) :=
  match as x, form with
  | some v, _ => pure (some v)
  | none, AssertionForm.twoValue => pure none
  | none, AssertionForm.oneValue => throw Panic.typeAssertion

/-- A map variable: `none` is the nil map, `some m` a map made by `make` or a literal. -/
abbrev MapRef (β : Type) := Option (GoMap β)

namespace MapRef

/-- The expression `make(map[string]T)`. -/
def make {β : Type} : MapRef β := some []

/-- The index expression `m[k]`: the zero value when the map is nil or has no such
key. -/
def index {β : Type} (m : MapRef β) (k : String) (zero : β) : β :=
  match m with
  | none => zero
  | some g => (g.lookup k).getD zero

/-- The assignment `m[k] = f(m[k])`: a panic when the map is nil. -/
def modify {β : Type} (m : MapRef β) (k : String) (zero : β) (f : β → β) :
    Checked (MapRef β) :=
  match m with
  | none => throw Panic.nilMap
  | some g => pure (some (g.update k zero f))

/-- The assignment `m[k] = v`: a panic when the map is nil. -/
def assign {β : Type} (m : MapRef β) (k : String) (v : β) : Checked (MapRef β) :=
  modify m k v (fun _ => v)

/-- The entries of the map; a nil map has none. -/
def entries {β : Type} (m : MapRef β) : GoMap β := m.getD []

end MapRef

/-- The slice expression `s[:n]`: a panic when `n` exceeds the length. -/
def sliceTo {α : Type} (s : List α) (n : ℕ) : Checked (List α) :=
  if n ≤ s.length then pure (s.take n) else throw Panic.sliceBounds

end runtime

/-! ## pkg/analysis, checked: security.go -/

namespace analysis.checked

open runtime

/-- The statement `s, _ := m[k].(string)`. -/
def str (m : Object) (k : String) : Checked String := do
  let s ← assert AssertionForm.twoValue (m.index k) Value.asString
  pure (s.getD "")

/-- The statement `s, ok := m[k].(string)`. -/
def strOk (m : Object) (k : String) : Checked (Option String) :=
  assert AssertionForm.twoValue (m.index k) Value.asString

/-- The statement `v, ok := m[k].(map[string]interface{})`. -/
def obj (m : Object) (k : String) : Checked (Option Object) :=
  assert AssertionForm.twoValue (m.index k) Value.asObject

/-- The statement `v, ok := m[k].([]interface{})`. -/
def arr (m : Object) (k : String) : Checked (Option (List Value)) :=
  assert AssertionForm.twoValue (m.index k) Value.asArray

/-- The statement `v, ok := m[k].(float64)`. -/
def float64Ok (m : Object) (k : String) : Checked (Option ℚ) :=
  assert AssertionForm.twoValue (m.index k) Value.asFloat64

/-- The statements `resType, _ := res["type"].(string)` and `strings.ToLower(resType)`. -/
def typeOf (res : Resource) : Checked String := do
  let resType ← str res "type"
  pure (strings.ToLower resType)

/-- The body of the rule loop of `analyzeNSGRules`. -/
def nsgRuleFindings (nsgName : String) (ruleIface : Value) : Checked (List SecurityFinding) := do
  match ← assert AssertionForm.twoValue ruleIface Value.asObject with
  | none => pure []
  | some rule =>
    match ← obj rule "properties" with
    | none => pure []
    | some ruleProps =>
      let direction ← str ruleProps "direction"
      let access ← str ruleProps "access"
      let sourcePrefix ← str ruleProps "sourceAddressPrefix"
      let destPort ← str ruleProps "destinationPortRange"
      let ruleName ← str rule "name"
      if direction = "Inbound" ∧ access = "Allow" then
        if sourcePrefix = "0.0.0.0/0" ∨ sourcePrefix = "*" ∨ sourcePrefix = "Internet" then
          let severity := if isDangerousPort destPort then "Critical" else "Medium"
          let issue :=
            if isDangerousPort destPort then
              "NSG rule '" ++ ruleName ++ "' allows " ++ destPort ++ " from Internet (port "
                ++ destPort ++ ")"
            else
              "NSG rule '" ++ ruleName ++ "' allows inbound traffic from Internet ("
                ++ sourcePrefix ++ ")"
          pure
            [{ Severity := severity
               Category := "NSG"
               Resource := nsgName
               Issue := issue
               Impact := "Resources may be exposed to attacks from the Internet"
               Remediation := "Restrict source IP ranges to known trusted networks. Use Azure Bastion for management access."
               References := [] }]
        else pure []
      else pure []

/-- The body of the resource loop of `analyzeNSGRules`. -/
def nsgFindings (res : Resource) : Checked (List SecurityFinding) := do
  let resType ← typeOf res
  if resType ≠ "microsoft.network/networksecuritygroups" then pure []
  else
    let nsgName ← str res "name"
    match ← obj res "properties" with
    | none => pure []
    | some props =>
      match ← arr props "securityRules" with
      | none => pure []
      | some securityRules =>
        let findings ← securityRules.mapM (nsgRuleFindings nsgName)
        pure findings.flatten

def analyzeNSGRules (a : SecurityAnalysis) (resources : List Resource) :
    Checked SecurityAnalysis := do
  let findings ← resources.mapM nsgFindings
  pure { a with Findings := a.Findings ++ findings.flatten }

/-- The body of the first loop of `analyzePublicExposure`, on the map `publicIPs`. -/
def publicIPStep (publicIPs : MapRef String) (res : Resource) : Checked (MapRef String) := do
  let resType ← typeOf res
  if resType ≠ "microsoft.network/publicipaddresses" then pure publicIPs
  else
    let id ← str res "id"
    match ← obj res "properties" with
    | none => pure publicIPs
    | some props =>
      let ipAddress ← str props "ipAddress"
      if ipAddress ≠ "" then publicIPs.assign id ipAddress else pure publicIPs

/-- The body of the VM loop of `analyzePublicExposure`. -/
def publicExposureFindings (res : Resource) : Checked (List SecurityFinding) := do
  let resType ← typeOf res
  if resType ≠ "microsoft.compute/virtualmachines" then pure []
  else
    let vmName ← str res "name"
    pure
      [{ Severity := "High"
         Category := "PublicExposure"
         Resource := vmName
         Issue := "Virtual Machine may have public IP exposure"
         Impact := "Direct internet exposure increases attack surface"
         Remediation := "Use Azure Bastion for secure remote access instead of public IPs"
         References := [] }]

def analyzePublicExposure (a : SecurityAnalysis) (resources : List Resource) :
    Checked SecurityAnalysis := do
  let _ ← resources.foldlM publicIPStep MapRef.make
  let findings ← resources.mapM publicExposureFindings
  pure { a with Findings := a.Findings ++ findings.flatten }

/-- The body of the loop of `analyzeEncryption`. -/
def encryptionFindings (res : Resource) : Checked (List SecurityFinding) := do
  let resType ← typeOf res
  let resName ← str res "name"
  if resType = "microsoft.storage/storageaccounts" then
    match ← obj res "properties" with
    | none => pure []
    | some props =>
      match ← obj props "encryption" with
      | none =>
        pure
          [{ Severity := "Medium"
             Category := "Encryption"
             Resource := resName
             Issue := "Storage account encryption status unclear"
             Impact := "Data at rest may not be encrypted"
             Remediation := "Enable storage account encryption with customer-managed keys"
             References := [] }]
      | some encryption =>
        match ← obj encryption "services" with
        | none =>
          pure
            [{ Severity := "Low"
               Category := "Encryption"
               Resource := resName
               Issue := "Storage encryption services not configured"
               Impact := "Some storage services may not be encrypted"
               Remediation := "Enable encryption for Blob, File, Table, and Queue services"
               References := [] }]
        | some _ => pure []
  else if resType = "microsoft.compute/disks" then
    match ← obj res "properties" with
    | none => pure []
    | some props =>
      match ← obj props "encryptionSettingsCollection" with
      | none =>
        pure
          [{ Severity := "Low"
             Category := "Encryption"
             Resource := resName
             Issue := "Disk encryption not configured"
             Impact := "Disk data at rest is not encrypted with customer-managed keys"
             Remediation := "Enable Azure Disk Encryption (ADE) or use encryption at host"
             References := [] }]
      | some _ => pure []
  else pure []

def analyzeEncryption (a : SecurityAnalysis) (resources : List Resource) :
    Checked SecurityAnalysis := do
  let findings ← resources.mapM encryptionFindings
  pure { a with Findings := a.Findings ++ findings.flatten }

/-- The body of the loop of `analyzeNetworkIsolation`. -/
def networkIsolationFindings (res : Resource) : Checked (List SecurityFinding) := do
  let resType ← typeOf res
  let resName ← str res "name"
  if resType = "microsoft.storage/storageaccounts" then
    match ← obj res "properties" with
    | none => pure []
    | some props =>
      match ← obj props "networkAcls" with
      | none => pure []
      | some networkAcls =>
        let defaultAction ← str networkAcls "defaultAction"
        if defaultAction = "Allow" then
          pure
            [{ Severity := "Medium"
               Category := "NetworkIsolation"
               Resource := resName
               Issue := "Storage account allows public network access"
               Impact := "Data can be accessed from any network"
               Remediation := "Configure network ACLs to deny by default and use private endpoints"
               References := [] }]
        else pure []
  else pure []

def analyzeNetworkIsolation (a : SecurityAnalysis) (resources : List Resource) :
    Checked SecurityAnalysis := do
  let findings ← resources.mapM networkIsolationFindings
  pure { a with Findings := a.Findings ++ findings.flatten }

def AnalyzeSecurity (resources : List Resource) : Checked SecurityAnalysis := do
  let analysis : SecurityAnalysis :=
    { CriticalCount := 0, HighCount := 0, MediumCount := 0, LowCount := 0, Findings := [] }
  let analysis ← analyzeNSGRules analysis resources
  let analysis ← analyzePublicExposure analysis resources
  let analysis ← analyzeEncryption analysis resources
  let analysis ← analyzeNetworkIsolation analysis resources
  pure (analysis.Findings.foldl countSeverity analysis)

end analysis.checked

/-! ## pkg/analysis, checked: cost.go -/

namespace analysis.checked

open runtime

/-- The body of the first loop of `analyzeOrphanedResources`, on the map
`attachedDisks`. -/
def attachedDiskStep (attachedDisks : MapRef Bool) (res : Resource) :
    Checked (MapRef Bool) := do
  let resType ← typeOf res
  if resType ≠ "microsoft.compute/virtualmachines" then pure attachedDisks
  else
    match ← obj res "properties" with
    | none => pure attachedDisks
    | some props =>
      match ← obj props "storageProfile" with
      | none => pure attachedDisks
      | some osDisk =>
        match ← obj osDisk "osDisk" with
        | none => pure attachedDisks
        | some managedDisk =>
          match ← obj managedDisk "managedDisk" with
          | none => pure attachedDisks
          | some diskRef =>
            match ← strOk diskRef "id" with
            | none => pure attachedDisks
            | some id => attachedDisks.assign id true

/-- The body of the orphaned-disk loop of `analyzeOrphanedResources`. -/
def orphanedDiskFindings (attachedDisks : MapRef Bool) (res : Resource) :
    Checked (List CostFinding) := do
  let resType ← typeOf res
  if resType ≠ "microsoft.compute/disks" then pure []
  else
    let id ← str res "id"
    let name ← str res "name"
    if attachedDisks.index id false then pure []
    else
      let diskSize : ℤ ←
        match ← obj res "properties" with
        | none => pure 128
        | some props =>
          match ← float64Ok props "diskSizeGB" with
          | none => pure 128
          | some size => pure (Float64.toInt64 size)
      let estimatedCost := Float64.mul (Float64.ofInt diskSize) (Float64.lit 0.12)
      pure
        [{ Severity := "Medium"
           Category := "Orphaned"
           Resource := name
           Issue := "Disk is not attached to any VM"
           CurrentCost := estimatedCost
           PotentialSavings := estimatedCost
           Remediation := "Delete orphaned disk or attach to a VM if needed" }]

/-- The body of the loop over `ipConfigs`, on the map `usedPublicIPs`. -/
def ipConfigStep (usedPublicIPs : MapRef Bool) (ipConfigIface : Value) :
    Checked (MapRef Bool) := do
  match ← assert AssertionForm.twoValue ipConfigIface Value.asObject with
  | none => pure usedPublicIPs
  | some ipConfig =>
    match ← obj ipConfig "properties" with
    | none => pure usedPublicIPs
    | some ipProps =>
      match ← obj ipProps "publicIPAddress" with
      | none => pure usedPublicIPs
      | some pubIP =>
        match ← strOk pubIP "id" with
        | none => pure usedPublicIPs
        | some id => usedPublicIPs.assign id true

/-- The body of the network interface loop of `analyzeOrphanedResources`, on the map
`usedPublicIPs`. -/
def usedPublicIPStep (usedPublicIPs : MapRef Bool) (res : Resource) :
    Checked (MapRef Bool) := do
  let resType ← typeOf res
  if resType ≠ "microsoft.network/networkinterfaces" then pure usedPublicIPs
  else
    match ← obj res "properties" with
    | none => pure usedPublicIPs
    | some props =>
      match ← arr props "ipConfigurations" with
      | none => pure usedPublicIPs
      | some ipConfigs => ipConfigs.foldlM ipConfigStep usedPublicIPs

/-- The body of the orphaned public IP loop of `analyzeOrphanedResources`. -/
def orphanedPublicIPFindings (usedPublicIPs : MapRef Bool) (res : Resource) :
    Checked (List CostFinding) := do
  let resType ← typeOf res
  if resType ≠ "microsoft.network/publicipaddresses" then pure []
  else
    let id ← str res "id"
    let name ← str res "name"
    if usedPublicIPs.index id false then pure []
    else
      pure
        [{ Severity := "Low"
           Category := "Orphaned"
           Resource := name
           Issue := "Public IP is not associated with any resource"
           CurrentCost := Float64.lit 3.65
           PotentialSavings := Float64.lit 3.65
           Remediation := "Delete unused public IP or associate with a resource" }]

def analyzeOrphanedResources (a : CostAnalysis) (resources : List Resource) :
    Checked CostAnalysis := do
  let attachedDisks ← resources.foldlM attachedDiskStep MapRef.make
  let findings ← resources.mapM (orphanedDiskFindings attachedDisks)
  let a : CostAnalysis := { a with Findings := a.Findings ++ findings.flatten }
  let usedPublicIPs ← resources.foldlM usedPublicIPStep MapRef.make
  let findings ← resources.mapM (orphanedPublicIPFindings usedPublicIPs)
  pure { a with Findings := a.Findings ++ findings.flatten }

/-- The statements that set `vmSize` from `props["hardwareProfile"]`, `dflt` being its
initial value. -/
def vmSizeOr (props : Object) (dflt : String) : Checked String := do
  match ← obj props "hardwareProfile" with
  | none => pure dflt
  | some hardwareProfile =>
    match ← strOk hardwareProfile "vmSize" with
    | none => pure dflt
    | some size => pure size

/-- The body of the loop of `analyzeIdleResources`. -/
def idleFindings (res : Resource) : Checked (List CostFinding) := do
  let resType ← typeOf res
  let name ← str res "name"
  if resType = "microsoft.compute/virtualmachines" then
    match ← obj res "properties" with
    | none => pure []
    | some props =>
      let vmSize ← vmSizeOr props "Standard_B2s"
      let estimatedCost := estimateVMCost vmSize
      pure
        [{ Severity := "Low"
           Category := "Idle"
           Resource := name
           Issue := "VM may be idle or underutilized (requires metrics analysis)"
           CurrentCost := estimatedCost
           PotentialSavings := Float64.mul estimatedCost (Float64.lit 0.7)
           Remediation := "Review VM metrics. If CPU <5% avg, consider deallocating when not in use or downsizing" }]
  else pure []

def analyzeIdleResources (a : CostAnalysis) (resources : List Resource) :
    Checked CostAnalysis := do
  let findings ← resources.mapM idleFindings
  pure { a with Findings := a.Findings ++ findings.flatten }

/-- The body of the loop of `analyzeOversizedResources`. -/
def oversizedFindings (res : Resource) : Checked (List CostFinding) := do
  let resType ← typeOf res
  let name ← str res "name"
  if resType = "microsoft.compute/virtualmachines" then
    match ← obj res "properties" with
    | none => pure []
    | some props =>
      let vmSize ← vmSizeOr props ""
      if strings.Contains vmSize "Standard_D" || strings.Contains vmSize "Standard_E" then
        let currentCost := estimateVMCost vmSize
        let potentialSavings := Float64.mul currentCost (Float64.lit 0.4)
        pure
          [{ Severity := "Medium"
             Category := "Oversized"
             Resource := name
             Issue := "VM using " ++ vmSize ++ " - may be oversized for workload"
             CurrentCost := currentCost
             PotentialSavings := potentialSavings
             Remediation := "Analyze CPU/Memory metrics. Consider B-series or smaller size if utilization <30%" }]
      else pure []
  else pure []

def analyzeOversizedResources (a : CostAnalysis) (resources : List Resource) :
    Checked CostAnalysis := do
  let findings ← resources.mapM oversizedFindings
  pure { a with Findings := a.Findings ++ findings.flatten }

/-- The body of the loop of `analyzeStorageTiers`. -/
def storageTierFindings (res : Resource) : Checked (List CostFinding) := do
  let resType ← typeOf res
  let name ← str res "name"
  if resType = "microsoft.storage/storageaccounts" then
    match ← obj res "properties" with
    | none => pure []
    | some props =>
      let accessTier ← str props "accessTier"
      if accessTier = "Hot" then
        pure
          [{ Severity := "Low"
             Category := "StorageTier"
             Resource := name
             Issue := "Storage account using Hot tier - review access patterns"
             CurrentCost := 50
             PotentialSavings := 25
             Remediation := "If data is accessed <1x/month, move to Cool tier. For archival, use Archive tier" }]
      else pure []
  else pure []

def analyzeStorageTiers (a : CostAnalysis) (resources : List Resource) :
    Checked CostAnalysis := do
  let findings ← resources.mapM storageTierFindings
  pure { a with Findings := a.Findings ++ findings.flatten }

/-- One step of the loop of `estimateTotalCost`. -/
def addResourceCost (totalCost : Float64) (res : Resource) : Checked Float64 := do
  let resType ← typeOf res
  if resType = "microsoft.compute/virtualmachines" then
    let vmSize ←
      match ← obj res "properties" with
      | none => pure "Standard_B2s"
      | some props => vmSizeOr props "Standard_B2s"
    pure (Float64.add totalCost (estimateVMCost vmSize))
  else if resType = "microsoft.storage/storageaccounts" then pure (Float64.add totalCost 50)
  else if resType = "microsoft.network/natgateways" then pure (Float64.add totalCost 33)
  else if resType = "microsoft.network/publicipaddresses" then
    pure (Float64.add totalCost (Float64.lit 3.65))
  else if resType = "microsoft.compute/disks" then
    let diskSize : Float64 ←
      match ← obj res "properties" with
      | none => pure 128
      | some props =>
        match ← float64Ok props "diskSizeGB" with
        | none => pure 128
        | some size => pure size
    pure (Float64.add totalCost (Float64.mul diskSize (Float64.lit 0.12)))
  else pure totalCost

def estimateTotalCost (a : CostAnalysis) (resources : List Resource) : Checked CostAnalysis := do
  let totalCost ← resources.foldlM addResourceCost 0
  pure { a with TotalMonthlyCost := totalCost }

def AnalyzeCost (resources : List Resource) : Checked CostAnalysis := do
  let analysis : CostAnalysis :=
    { TotalMonthlyCost := 0, PotentialMonthlySavings := 0, Findings := [] }
  let analysis ← analyzeOrphanedResources analysis resources
  let analysis ← analyzeIdleResources analysis resources
  let analysis ← analyzeOversizedResources analysis resources
  let analysis ← analyzeStorageTiers analysis resources
  let analysis : CostAnalysis := { analysis with
    PotentialMonthlySavings :=
      analysis.Findings.foldl (fun s finding => Float64.add s finding.PotentialSavings)
        analysis.PotentialMonthlySavings }
  estimateTotalCost analysis resources

end analysis.checked

/-! ## pkg/analysis, checked: compliance.go -/

namespace analysis.checked

open runtime

/-- The body of the loop of `analyzeBackup`, on `vmsWithoutBackup` and `totalVMs`. -/
def backupStep (st : List String × ℤ) (res : Resource) : Checked (List String × ℤ) := do
  let resType ← typeOf res
  if resType ≠ "microsoft.compute/virtualmachines" then pure st
  else
    let name ← str res "name"
    pure (st.1 ++ [name], st.2 + 1)

def analyzeBackup (a : ComplianceAnalysis) (resources : List Resource) :
    Checked ComplianceAnalysis := do
  let st ← resources.foldlM backupStep ([], 0)
  let vmsWithoutBackup := st.1
  let totalVMs := st.2
  if 0 < totalVMs then
    let a : ComplianceAnalysis := { a with
      BackupCoverage :=
        Float64.mul
          (Float64.div (Float64.ofInt (totalVMs - vmsWithoutBackup.length)) (Float64.ofInt totalVMs))
          100 }
    if 0 < vmsWithoutBackup.length then
      pure { a with Findings := a.Findings ++
          [{ Category := "Backup"
             Severity := "High"
             Resources := vmsWithoutBackup
             Issue := toString vmsWithoutBackup.length ++ " VMs without Azure Backup configured"
             Impact := "Risk of data loss if VM fails or is corrupted"
             Remediation := "Configure Azure Backup with appropriate retention policy (7-30 days recommended)" }] }
    else pure a
  else pure a

/-- The body of the loop of `analyzeMonitoring`, on `resourcesWithoutDiagnostics` and
`totalMonitorable`. -/
def monitoringStep (st : List String × ℤ) (res : Resource) : Checked (List String × ℤ) := do
  let resType ← str res "type"
  let name ← str res "name"
  if !isMonitorable resType then pure st
  else pure (st.1 ++ [name ++ " (" ++ resType ++ ")"], st.2 + 1)

def analyzeMonitoring (a : ComplianceAnalysis) (resources : List Resource) :
    Checked ComplianceAnalysis := do
  let st ← resources.foldlM monitoringStep ([], 0)
  let resourcesWithoutDiagnostics := st.1
  let totalMonitorable := st.2
  if 0 < totalMonitorable then
    let a : ComplianceAnalysis := { a with
      MonitoringCoverage :=
        Float64.mul
          (Float64.div (Float64.ofInt (totalMonitorable - resourcesWithoutDiagnostics.length))
            (Float64.ofInt totalMonitorable))
          100 }
    if 5 < resourcesWithoutDiagnostics.length then
      let firstFive ← sliceTo resourcesWithoutDiagnostics 5
      pure { a with Findings := a.Findings ++
          [{ Category := "Monitoring"
             Severity := "Medium"
             Resources := firstFive
             Issue := toString resourcesWithoutDiagnostics.length
               ++ " resources without diagnostic settings (showing first 5)"
             Impact := "Limited visibility into resource health and performance"
             Remediation := "Enable diagnostic settings to send logs to Log Analytics workspace" }] }
    else if 0 < resourcesWithoutDiagnostics.length then
      pure { a with Findings := a.Findings ++
          [{ Category := "Monitoring"
             Severity := "Medium"
             Resources := resourcesWithoutDiagnostics
             Issue := toString resourcesWithoutDiagnostics.length
               ++ " resources without diagnostic settings"
             Impact := "Limited visibility into resource health and performance"
             Remediation := "Enable diagnostic settings to send logs to Log Analytics workspace" }] }
    else pure a
  else pure a

/-- The body of the loop of `analyzeGeoRedundancy`, on `nonRedundantStorage`. -/
def geoRedundancyStep (nonRedundantStorage : List String) (res : Resource) :
    Checked (List String) := do
  let resType ← typeOf res
  if resType ≠ "microsoft.storage/storageaccounts" then pure nonRedundantStorage
  else
    let name ← str res "name"
    match ← obj res "sku" with
    | none => pure nonRedundantStorage
    | some sku =>
      let skuName ← str sku "name"
      if strings.Contains skuName "LRS" then pure (nonRedundantStorage ++ [name])
      else pure nonRedundantStorage

def analyzeGeoRedundancy (a : ComplianceAnalysis) (resources : List Resource) :
    Checked ComplianceAnalysis := do
  let nonRedundantStorage ← resources.foldlM geoRedundancyStep []
  if 0 < nonRedundantStorage.length then
    pure { a with Findings := a.Findings ++
        [{ Category := "DR"
           Severity := "Medium"
           Resources := nonRedundantStorage
           Issue := toString nonRedundantStorage.length
             ++ " storage accounts using LRS (locally redundant)"
           Impact := "Data not protected against regional outages"
           Remediation := "Consider GRS (Geo-Redundant Storage) or GZRS for critical data" }] }
  else pure a

def AnalyzeCompliance (resources : List Resource) : Checked ComplianceAnalysis := do
  let analysis : ComplianceAnalysis :=
    { BackupCoverage := 0, MonitoringCoverage := 0, Findings := [] }
  let analysis ← analyzeBackup analysis resources
  let analysis ← analyzeMonitoring analysis resources
  analyzeGeoRedundancy analysis resources

end analysis.checked

/-! ## pkg/analysis, checked: tagging.go -/

namespace analysis.checked

open runtime

/-- The assignment `missingByTag[requiredTag] = append(missingByTag[requiredTag], name)`. -/
def appendMissing (missingByTag : MapRef (List String)) (requiredTag name : String) :
    Checked (MapRef (List String)) :=
  missingByTag.modify requiredTag [] (fun l => l ++ [name])

/-- One step of the resource loop of `analyzeMissingTags`, on the analysis record and
the local map `missingByTag`. -/
def missingTagsStep (st : TaggingAnalysis × MapRef (List String)) (res : Resource) :
    Checked (TaggingAnalysis × MapRef (List String)) := do
  let a := st.1
  let missingByTag := st.2
  let name ← str res "name"
  let resType ← str res "type"
  if isSystemResource resType then pure st
  else
    let untagged : Checked (TaggingAnalysis × MapRef (List String)) := do
      let missingByTag ←
        a.RequiredTags.foldlM (fun m requiredTag => appendMissing m requiredTag name)
          missingByTag
      pure ({ a with UntaggedResources := a.UntaggedResources + 1 }, missingByTag)
    match ← obj res "tags" with
    | none => untagged
    | some tags =>
      if tags.length = 0 then untagged
      else
        let missingByTag ←
          a.RequiredTags.foldlM
            (fun m requiredTag =>
              let found := tags.keys.any (fun tagKey => strings.EqualFold tagKey requiredTag)
              if !found then appendMissing m requiredTag name else pure m)
            missingByTag
        pure ({ a with TaggedResources := a.TaggedResources + 1 }, missingByTag)

def analyzeMissingTags (ord : MapOrder) (a : TaggingAnalysis) (resources : List Resource) :
    Checked TaggingAnalysis := do
  let st ← resources.foldlM missingTagsStep (a, MapRef.make)
  let a := st.1
  let missingByTag := st.2
  pure { a with
    Findings := a.Findings ++
      (GoMap.range ord "missingByTag" missingByTag.entries).flatMap missingTagFinding }

/-- The statements of the key loop of `analyzeTagConsistency`: the inner map is made when
the entry is nil, then `tagKeyVariations[normalized][tagKey]++`.  The inner map is a
reference; the model writes the incremented map back to the entry. -/
def countVariation (tagKeyVariations : MapRef (MapRef ℤ)) (tagKey : String) :
    Checked (MapRef (MapRef ℤ)) := do
  let normalized := strings.ToLower tagKey
  let tagKeyVariations ←
    if (tagKeyVariations.index normalized none).isNone then
      tagKeyVariations.assign normalized MapRef.make
    else pure tagKeyVariations
  let variations ← (tagKeyVariations.index normalized none).modify tagKey 0 (fun n => n + 1)
  tagKeyVariations.assign normalized variations

/-- The body of the resource loop of `analyzeTagConsistency`. -/
def tagKeyVariationsStep (tagKeyVariations : MapRef (MapRef ℤ)) (res : Resource) :
    Checked (MapRef (MapRef ℤ)) := do
  match ← obj res "tags" with
  | none => pure tagKeyVariations
  | some tags => tags.keys.foldlM countVariation tagKeyVariations

def analyzeTagConsistency (ord : MapOrder) (a : TaggingAnalysis) (resources : List Resource) :
    Checked TaggingAnalysis := do
  let tagKeyVariations ← resources.foldlM tagKeyVariationsStep MapRef.make
  pure { a with
    Findings := a.Findings ++
      (GoMap.range ord "tagKeyVariations" tagKeyVariations.entries).flatMap
        (fun entry => tagConsistencyFinding ord (entry.1, entry.2.entries)) }

/-- The body of the tag loop of `analyzeTagValuePatterns`, on the map `envValues`. -/
def envValueStep (envValues : MapRef ℤ) (entry : String × Value) : Checked (MapRef ℤ) := do
  if strings.EqualFold entry.1 "environment" || strings.EqualFold entry.1 "env" then
    match ← assert AssertionForm.twoValue entry.2 Value.asString with
    | some val => envValues.modify (strings.ToLower val) 0 (fun n => n + 1)
    | none => pure envValues
  else pure envValues

/-- The body of the resource loop of `analyzeTagValuePatterns`. -/
def envValuesStep (envValues : MapRef ℤ) (res : Resource) : Checked (MapRef ℤ) := do
  match ← obj res "tags" with
  | none => pure envValues
  | some tags => tags.entries.foldlM envValueStep envValues

def analyzeTagValuePatterns (ord : MapOrder) (a : TaggingAnalysis) (resources : List Resource) :
    Checked TaggingAnalysis := do
  let envValues ← resources.foldlM envValuesStep MapRef.make
  if 5 < envValues.entries.length then
    let values := (GoMap.range ord "envValues" envValues.entries).map Prod.fst
    pure { a with Findings := a.Findings ++
        [{ Severity := "Medium"
           Category := "Inconsistent"
           Resources := []
           Issue := "Environment tag has " ++ toString envValues.entries.length
             ++ " different values: " ++ strings.formatSlice values
           Impact := "Difficult to filter resources by environment"
           Remediation := "Standardize environment values to: production, staging, development, test" }] }
  else pure a

def AnalyzeTagging (ord : MapOrder) (resources : List Resource) : Checked TaggingAnalysis := do
  let analysis : TaggingAnalysis :=
    { TotalResources := resources.length
      TaggedResources := 0
      UntaggedResources := 0
      ComplianceRate := 0
      Findings := []
      RequiredTags := ["environment", "owner", "cost-center", "application"]
      TagValueInconsistencies := [] }
  let analysis ← analyzeMissingTags ord analysis resources
  let analysis ← analyzeTagConsistency ord analysis resources
  let analysis ← analyzeTagValuePatterns ord analysis resources
  if 0 < analysis.TotalResources then
    pure { analysis with
      ComplianceRate :=
        Float64.mul
          (Float64.div (Float64.ofInt analysis.TaggedResources)
            (Float64.ofInt analysis.TotalResources))
          100 }
  else pure analysis

end analysis.checked

/-! ## pkg/analysis, checked: the maps and the model -/

namespace analysis.checked

open runtime

/-- The map `m`, used as a set, is made and holds exactly the ids of `l`. -/
def Marks (m : MapRef Bool) (l : List String) : Prop :=
  ∃ g : GoMap Bool, m = some g ∧ ∀ id, ((g.lookup id).getD false = true ↔ id ∈ l)

/-- The map of maps `g` as the program holds it: made, every entry a made map. -/
def allMade (g : GoMap (GoMap ℤ)) : MapRef (MapRef ℤ) :=
  some (g.map (fun e => (e.1, some e.2)))

end analysis.checked

/-! ## pkg/llm/client.go -/

namespace llm

structure ConnectionSuggestion where
  SourceResource : String
  TargetResource : String
  ConnectionType : String
  Label : String
  Confidence : String
  Reason : String
  deriving DecidableEq

end llm

/-! ## pkg/renderer/diagram.go

The document is the value handed to `Save`; writing the file is outside the model.
The nesting `Diagram.Model.Root.Cells` of the XML structs is flattened to `Cells`.
Coordinates are `float64` values that stay integers far below `2 ^ 53` for every
resource list that fits in memory, where `float64` addition is exact: they are
computed exactly. -/

namespace renderer

open analysis (Resource)

structure DrawIOGeometry where
  X : Float64
  Y : Float64
  Width : Float64
  Height : Float64
  As : String
  deriving DecidableEq

structure DrawIOCell where
  ID : String
  Value : String
  Style : String
  Vertex : String
  Edge : String
  Source : String
  Target : String
  Parent : String
  Geometry : Option DrawIOGeometry
  deriving DecidableEq

structure DrawIODiagram where
  Host : String
  Type_ : String
  Version : String
  Name : String
  ID : String
  Cells : List DrawIOCell
  deriving DecidableEq

def filterByType (resources : List Resource) (resourceType : String) : List Resource :=
  resources.filter (fun res =>
    match (res.index "type").asString with
    | some resType => resType = resourceType
    | none => false)

def filterByResourceGroup (resources : List Resource) (resourceGroup : String) : List Resource :=
  resources.filter (fun res =>
    match (res.index "resourceGroup").asString with
    | some rg => rg = resourceGroup
    | none => false)

def NewDrawIODiagram (name : String) : DrawIODiagram :=
  { Host := "app.diagrams.net"
    Type_ := "device"
    Version := "21.6.5"
    Name := name
    ID := "diagram-1"
    Cells :=
      [ { ID := "0", Value := "", Style := "", Vertex := "", Edge := "", Source := "", Target := "",
          Parent := "", Geometry := none },
        { ID := "1", Value := "", Style := "", Vertex := "", Edge := "", Source := "", Target := "",
          Parent := "0", Geometry := none } ] }

/-- The statement `d.Diagram.Model.Root.Cells = append(d.Diagram.Model.Root.Cells, cell)`. -/
def DrawIODiagram.appendCell (d : DrawIODiagram) (cell : DrawIOCell) : DrawIODiagram :=
  { d with Cells := d.Cells ++ [cell] }

def DrawIODiagram.AddRectangle (d : DrawIODiagram) (id value : String)
    (x y width height : Float64) (style : String) : DrawIODiagram × String :=
  let cellID := "cell-" ++ id
  let cell : DrawIOCell :=
    { ID := cellID, Value := value, Style := style, Vertex := "1", Edge := "", Source := "",
      Target := "", Parent := "1",
      Geometry := some { X := x, Y := y, Width := width, Height := height, As := "geometry" } }
  (d.appendCell cell, cellID)

/-- The style `AddAzureIcon` selects for an icon type. -/
def iconStyle (iconType : String) : String :=
  let image (path : String) : String :=
    "aspect=fixed;html=1;points=[];align=center;image;fontSize=12;image=img/lib/azure2/" ++ path
      ++ ";labelPosition=bottom;verticalLabelPosition=top;verticalAlign=bottom;"
  if iconType = "vnet" then image "networking/Virtual_Networks.svg"
  else if iconType = "nsg" then image "networking/Network_Security_Groups.svg"
  else if iconType = "routetable" then image "networking/Route_Tables.svg"
  else if iconType = "loadbalancer" then image "networking/Load_Balancers.svg"
  else if iconType = "natgateway" then image "networking/NAT.svg"
  else if iconType = "publicip" then image "networking/Public_IP_Addresses.svg"
  else if iconType = "vm" then image "compute/Virtual_Machine.svg"
  else if iconType = "nic" then image "networking/Network_Interfaces.svg"
  else if iconType = "functionapp" then image "compute/Function_Apps.svg"
  else if iconType = "storage" then image "storage/Storage_Accounts.svg"
  else if iconType = "appserviceplan" then image "compute/App_Service_Plans.svg"
  else image "general/Azure.svg"

def DrawIODiagram.AddAzureIcon (d : DrawIODiagram) (id label iconType : String)
    (x y : Float64) : DrawIODiagram × String :=
  let cellID := "cell-" ++ id
  let cell : DrawIOCell :=
    { ID := cellID, Value := label, Style := iconStyle iconType, Vertex := "1", Edge := "",
      Source := "", Target := "", Parent := "1",
      Geometry := some { X := x, Y := y, Width := 50, Height := 50, As := "geometry" } }
  (d.appendCell cell, cellID)

/-- The style `AddAzureContainer` selects for a container type. -/
def containerStyle (containerType : String) : String :=
  if containerType = "vnet" then
    "rounded=1;whiteSpace=wrap;html=1;fillColor=#dae8fc;strokeColor=#0078D4;strokeWidth=2;dashed=1;dashPattern=5 5;fontSize=14;fontStyle=1;"
  else if containerType = "subnet" then
    "rounded=0;whiteSpace=wrap;html=1;fillColor=#e1d5e7;strokeColor=#9673a6;strokeWidth=1;dashed=1;dashPattern=3 3;fontSize=12;"
  else if containerType = "resourcegroup" then
    "rounded=1;whiteSpace=wrap;html=1;fillColor=#f5f5f5;strokeColor=#666666;strokeWidth=2;fontSize=16;fontStyle=1;"
  else "rounded=1;whiteSpace=wrap;html=1;fillColor=#f5f5f5;strokeColor=#666666;"

def DrawIODiagram.AddAzureContainer (d : DrawIODiagram) (id label containerType : String)
    (x y width height : Float64) : DrawIODiagram × String :=
  let cellID := "cell-" ++ id
  let cell : DrawIOCell :=
    { ID := cellID, Value := label, Style := containerStyle containerType, Vertex := "1",
      Edge := "", Source := "", Target := "", Parent := "1",
      Geometry := some { X := x, Y := y, Width := width, Height := height, As := "geometry" } }
  (d.appendCell cell, cellID)

/-- The style `AddConnection` selects for a connection type. -/
def connectionStyle (connectionType : String) : String :=
  if connectionType = "peering" then
    "endArrow=classic;startArrow=classic;html=1;rounded=0;strokeWidth=2;strokeColor=#0078D4;dashed=1;dashPattern=5 5;"
  else if connectionType = "association" then
    "endArrow=classic;html=1;rounded=0;strokeWidth=1.5;strokeColor=#666666;"
  else if connectionType = "routing" then
    "endArrow=classic;html=1;rounded=0;strokeWidth=1.5;strokeColor=#9673a6;dashed=1;dashPattern=3 3;"
  else if connectionType = "natgw" then
    "endArrow=classic;html=1;rounded=0;strokeWidth=1.5;strokeColor=#d79b00;"
  else "endArrow=classic;html=1;rounded=0;strokeWidth=1;strokeColor=#666666;"

def DrawIODiagram.AddConnection (d : DrawIODiagram)
    (id label sourceID targetID connectionType : String) : DrawIODiagram × String :=
  let cellID := "cell-edge-" ++ id
  let cell : DrawIOCell :=
    { ID := cellID, Value := label, Style := connectionStyle connectionType, Vertex := "",
      Edge := "1", Source := sourceID, Target := targetID, Parent := "1",
      Geometry := some { X := 0, Y := 0, Width := 0, Height := 0, As := "geometry" } }
  (d.appendCell cell, cellID)

/-- One subnet as `extractSubnets` returns it: the entries `name` and `addressPrefix`
of a `map[string]string`, a missing entry reading as the empty string. -/
structure Subnet where
  name : String
  addressPrefix : String
  deriving DecidableEq

/-- The body of the loop of `extractSubnets`. -/
def extractSubnet (subnetIface : Value) : Option Subnet :=
  match subnetIface.asObject with
  | none => none
  | some subnetMap =>
    let name := ((subnetMap.index "name").asString).getD ""
    let addressPrefix :=
      match subnetMap.obj "properties" with
      | none => ""
      | some subnetProps => ((subnetProps.index "addressPrefix").asString).getD ""
    if name ≠ "" then some { name := name, addressPrefix := addressPrefix } else none

def extractSubnets (vnet : Resource) : List Subnet :=
  match vnet.obj "properties" with
  | none => []
  | some props =>
    match props.arr "subnets" with
    | none => []
    | some subnetsArray => subnetsArray.filterMap extractSubnet

/-- The assignment `m[k] = v` on a Go map. -/
def setKey {β : Type} (m : GoMap β) (k : String) (v : β) : GoMap β := m.update k v (fun _ => v)

/-- An entry of `subnetPositions`. -/
structure Position where
  x : Float64
  y : Float64
  width : Float64
  height : Float64
  deriving DecidableEq

/-- The subnet loop of `generateVNetDiagram`, from index `i` and ordinate `subnetY`. -/
def addSubnets : List Subnet → ℕ → Float64 → DrawIODiagram → GoMap Position →
    DrawIODiagram × GoMap Position
  | [], _, _, d, subnetPositions => (d, subnetPositions)
  | subnet :: rest, i, subnetY, d, subnetPositions =>
    let r := d.AddAzureContainer ("subnet-" ++ toString i)
      ("Subnet: " ++ subnet.name ++ "\n" ++ subnet.addressPrefix) "subnet" 100 subnetY 350 120
    addSubnets rest (i + 1) (subnetY + 140) r.1
      (setKey subnetPositions subnet.name { x := 100, y := subnetY, width := 350, height := 120 })

/-- A loop of `generateVNetDiagram` that stacks one icon per resource in a lane at
abscissa `x` (NSGs, route tables, load balancers, NAT gateways, public IPs, storage
accounts), from index `i` and ordinate `y`; `none` when a `name` is not a string. -/
def addLane (idPrefix iconType : String) (x step : Float64) :
    List Resource → ℕ → Float64 → DrawIODiagram → GoMap String →
    Option (DrawIODiagram × GoMap String)
  | [], _, _, d, ids => some (d, ids)
  | res :: rest, i, y, d, ids =>
    match (res.index "name").asString with
    | none => none
    | some name =>
      let r := d.AddAzureIcon (idPrefix ++ "-" ++ toString i) name iconType x y
      addLane idPrefix iconType x step rest (i + 1) (y + step) r.1 (setKey ids name r.2)

/-- Where `generateVNetDiagram` places every VM. -/
def vmPosition (subnetPositions : GoMap Position) : Float64 × Float64 :=
  match subnetPositions.lookup "subnet-management" with
  | some pos => (pos.x + 20, pos.y + 40)
  | none =>
    match subnetPositions.lookup "subnet-services" with
    | some pos => (pos.x + 20, pos.y + 40)
    | none => (200, 300)

/-- The VM loop of `generateVNetDiagram`. -/
def addVMs (subnetPositions : GoMap Position) :
    List Resource → ℕ → DrawIODiagram → GoMap String → Option (DrawIODiagram × GoMap String)
  | [], _, d, vmIDMap => some (d, vmIDMap)
  | vm :: rest, i, d, vmIDMap =>
    match (vm.index "name").asString with
    | none => none
    | some vmName =>
      let p := vmPosition subnetPositions
      let r := d.AddAzureIcon ("vm-" ++ toString i) vmName "vm" p.1 p.2
      addVMs subnetPositions rest (i + 1) r.1 (setKey vmIDMap vmName r.2)

/-- Where `generateVNetDiagram` places the NIC of index `i`. -/
def nicPosition (subnetPositions : GoMap Position) (i : ℕ) : Float64 × Float64 :=
  match subnetPositions.lookup "subnet-management" with
  | some pos => (pos.x + 100 + ((i * 80 : ℕ) : ℚ), pos.y + 60)
  | none => (280 + ((i * 80 : ℕ) : ℚ), 450)

/-- The fallback edges of one NIC: a `range` over `vmIDMap`. -/
def connectNIC (i : ℕ) (nicName nicID : String) (vms : List (String × String))
    (d : DrawIODiagram) : DrawIODiagram :=
  vms.foldl
    (fun d vm =>
      if strings.Contains nicName (strings.SplitHyphenFirst vm.1) then
        (d.AddConnection ("conn-nic-vm-" ++ toString i) "attached to" nicID vm.2 "association").1
      else d)
    d

/-- The NIC loop of `generateVNetDiagram`.  `nicIndex` always equals the loop index. -/
def addNICs (ord : MapOrder) (subnetPositions : GoMap Position) (vmIDMap : GoMap String)
    (noAI : Bool) :
    List Resource → ℕ → DrawIODiagram → GoMap String → Option (DrawIODiagram × GoMap String)
  | [], _, d, nicIDMap => some (d, nicIDMap)
  | nic :: rest, i, d, nicIDMap =>
    match (nic.index "name").asString with
    | none => none
    | some nicName =>
      let p := nicPosition subnetPositions i
      let r := d.AddAzureIcon ("nic-" ++ toString i) nicName "nic" p.1 p.2
      let d :=
        if noAI then
          connectNIC i nicName r.2 (GoMap.range ord ("vmIDMap:" ++ toString i) vmIDMap) r.1
        else r.1
      addNICs ord subnetPositions vmIDMap noAI rest (i + 1) d (setKey nicIDMap nicName r.2)

/-- Where `generateVNetDiagram` places every Function App. -/
def funcPosition (subnetPositions : GoMap Position) : Float64 × Float64 :=
  match subnetPositions.lookup "subnet-apps" with
  | some pos => (pos.x + 20, pos.y + 40)
  | none =>
    match subnetPositions.lookup "subnet-services" with
    | some pos => (pos.x + 20, pos.y + 40)
    | none => (520, 300)

/-- The storage loop inside the Function App loop: the index of the first storage
account the app is connected to, if any; the outer `none` when a storage `name` read
before that is not a string. -/
def firstStorage (funcName : String) : List Resource → ℕ → Option (Option ℕ)
  | [], _ => some none
  | storage :: rest, j =>
    match (storage.index "name").asString with
    | none => none
    | some storageName =>
      if strings.Contains storageName "stfunc" || strings.Contains funcName "func" then some (some j)
      else firstStorage funcName rest (j + 1)

/-- The Function App loop of `generateVNetDiagram`. -/
def addFuncApps (subnetPositions : GoMap Position) (relatedResources : List Resource)
    (noAI : Bool) :
    List Resource → ℕ → DrawIODiagram → GoMap String → Option (DrawIODiagram × GoMap String)
  | [], _, d, funcAppIDMap => some (d, funcAppIDMap)
  | funcApp :: rest, i, d, funcAppIDMap =>
    match (funcApp.index "name").asString with
    | none => none
    | some funcName =>
      let p := funcPosition subnetPositions
      let r := d.AddAzureIcon ("func-" ++ toString i) funcName "functionapp" p.1 p.2
      let funcAppIDMap := setKey funcAppIDMap funcName r.2
      if noAI then
        let storageAccts := filterByType relatedResources "microsoft.storage/storageaccounts"
        match firstStorage funcName storageAccts 0 with
        | none => none
        | some none => addFuncApps subnetPositions relatedResources noAI rest (i + 1) r.1 funcAppIDMap
        | some (some j) =>
          let storageID := "cell-storage-" ++ toString j
          let d := (r.1.AddConnection ("conn-func-storage-" ++ toString i) "uses" r.2 storageID
            "association").1
          addFuncApps subnetPositions relatedResources noAI rest (i + 1) d funcAppIDMap
      else addFuncApps subnetPositions relatedResources noAI rest (i + 1) r.1 funcAppIDMap

/-- The statement `for name, id := range src { resourceIDMap[name] = id }`. -/
def copyInto (resourceIDMap src : GoMap String) : GoMap String :=
  src.foldl (fun m e => setKey m e.1 e.2) resourceIDMap

/-- The loop that applies the high-confidence AI connections. -/
def applyAIConnections (resourceIDMap : GoMap String) :
    List llm.ConnectionSuggestion → ℕ → DrawIODiagram → DrawIODiagram
  | [], _, d => d
  | conn :: rest, connCount, d =>
    if conn.Confidence ≠ "high" then applyAIConnections resourceIDMap rest connCount d
    else
      match resourceIDMap.lookup conn.SourceResource, resourceIDMap.lookup conn.TargetResource with
      | some sourceID, some targetID =>
        let d := (d.AddConnection ("ai-conn-" ++ toString connCount) conn.Label sourceID targetID
          conn.ConnectionType).1
        applyAIConnections resourceIDMap rest (connCount + 1) d
      | _, _ => applyAIConnections resourceIDMap rest connCount d

/-- The document `generateVNetDiagram` builds and hands to `Save`; `none` when a type
assertion on a `name` or `resourceGroup` panics. -/
def generateVNetDiagram (ord : MapOrder) (vnet : Resource) (allResources : List Resource)
    (aiConnections : List llm.ConnectionSuggestion) : Option DrawIODiagram := do
  let vnetName ← (vnet.index "name").asString
  let vnetRG ← (vnet.index "resourceGroup").asString
  let diagram := NewDrawIODiagram vnetName
  let diagram := (diagram.AddAzureContainer vnetName
    ("Virtual Network: " ++ vnetName ++ "\nResource Group: " ++ vnetRG) "vnet" 50 50 1100 600).1
  let relatedResources := filterByResourceGroup allResources vnetRG
  let subnets := extractSubnets vnet
  let (diagram, subnetPositions) := addSubnets subnets 0 120 diagram []
  let nsgs := filterByType relatedResources "microsoft.network/networksecuritygroups"
  let (diagram, nsgIDs) ← addLane "nsg" "nsg" 520 100 nsgs 0 150 diagram []
  let rts := filterByType relatedResources "microsoft.network/routetables"
  let (diagram, _) ← addLane "rt" "routetable" 650 100 rts 0 150 diagram []
  let lbs := filterByType relatedResources "microsoft.network/loadbalancers"
  let (diagram, _) ← addLane "lb" "loadbalancer" 780 100 lbs 0 150 diagram []
  let nats := filterByType relatedResources "microsoft.network/natgateways"
  let (diagram, natIDs) ← addLane "nat" "natgateway" 910 100 nats 0 150 diagram []
  let pips := filterByType relatedResources "microsoft.network/publicipaddresses"
  let (diagram, _) ← addLane "pip" "publicip" 1040 80 pips 0 400 diagram []
  let vms := filterByType relatedResources "microsoft.compute/virtualmachines"
  let (diagram, vmIDMap) ← addVMs subnetPositions vms 0 diagram []
  let noAI : Bool := aiConnections.length = 0
  let nics := filterByType relatedResources "microsoft.network/networkinterfaces"
  let (diagram, nicIDMap) ← addNICs ord subnetPositions vmIDMap noAI nics 0 diagram []
  let funcApps := filterByType relatedResources "microsoft.web/sites"
  let (diagram, funcAppIDMap) ← addFuncApps subnetPositions relatedResources noAI funcApps 0 diagram []
  let storageAccts := filterByType relatedResources "microsoft.storage/storageaccounts"
  let (diagram, storageIDMap) ← addLane "storage" "storage" 520 70 storageAccts 0 450 diagram []
  if 0 < aiConnections.length then
    let resourceIDMap : GoMap String := []
    let resourceIDMap := copyInto resourceIDMap vmIDMap
    let resourceIDMap := copyInto resourceIDMap nicIDMap
    let resourceIDMap := copyInto resourceIDMap storageIDMap
    let resourceIDMap := copyInto resourceIDMap funcAppIDMap
    let resourceIDMap := copyInto resourceIDMap nsgIDs
    let resourceIDMap := copyInto resourceIDMap natIDs
    some (applyAIConnections resourceIDMap aiConnections 0 diagram)
  else some diagram

/-- A wrapping grid of `generateOverviewDiagram`: one icon per resource, 80 apart, a
new row after every tenth; returns the document and the offsets after the loop. -/
def addGrid (idPrefix iconType : String) :
    List Resource → ℕ → Float64 → Float64 → DrawIODiagram →
    Option (DrawIODiagram × Float64 × Float64)
  | [], _, xOffset, yOffset, d => some (d, xOffset, yOffset)
  | res :: rest, i, xOffset, yOffset, d =>
    match (res.index "name").asString with
    | none => none
    | some name =>
      let r := d.AddAzureIcon (idPrefix ++ "-" ++ toString i) name iconType xOffset yOffset
      let xOffset := xOffset + 80
      if (i + 1) % 10 = 0 then addGrid idPrefix iconType rest (i + 1) 100 (yOffset + 70) r.1
      else addGrid idPrefix iconType rest (i + 1) xOffset yOffset r.1

/-- The style of the section labels of `generateOverviewDiagram`. -/
def sectionLabelStyle : String :=
  "text;html=1;strokeColor=none;fillColor=none;align=left;verticalAlign=middle;whiteSpace=wrap;rounded=0;fontSize=14;fontStyle=1"

/-- One resource type section of `generateOverviewDiagram` (NSGs, route tables, load
balancers, NAT gateways, public IPs): the label, then the grid; returns the document
and `yOffset` for the next section.  `xOffset` is 100 at the start of every section. -/
def addSection (items : List Resource) (idPrefix title iconType : String) (yOffset : Float64)
    (d : DrawIODiagram) : Option (DrawIODiagram × Float64) :=
  if 0 < items.length then
    let d := (d.AddRectangle (idPrefix ++ "-label") (title ++ " (" ++ toString items.length ++ ")")
      100 yOffset 200 30 sectionLabelStyle).1
    match addGrid idPrefix iconType items 0 100 (yOffset + 40) d with
    | none => none
    | some (d, _, yOffset) => some (d, yOffset + 80)
  else some (d, yOffset)

/-- The VNet loop of `generateOverviewDiagram`. -/
def addOverviewVNets : List Resource → ℕ → Float64 → DrawIODiagram → Option DrawIODiagram
  | [], _, _, d => some d
  | vnet :: rest, i, xOffset, d =>
    match (vnet.index "name").asString with
    | none => none
    | some vnetName =>
      addOverviewVNets rest (i + 1) (xOffset + 100)
        (d.AddAzureIcon ("vnet-" ++ toString i) vnetName "vnet" xOffset 80).1

/-- The document `generateOverviewDiagram` builds and hands to `Save`; `none` when a
type assertion on a `name` panics. -/
def generateOverviewDiagram (resources : List Resource) : Option DrawIODiagram := do
  let diagram := NewDrawIODiagram "Azure-Overview"
  let diagram := (diagram.AddRectangle "title" "Azure Subscription Overview" 50 20 1000 40
    "text;html=1;strokeColor=none;fillColor=none;align=center;verticalAlign=middle;whiteSpace=wrap;rounded=0;fontSize=20;fontStyle=1").1
  let vnets := filterByType resources "microsoft.network/virtualnetworks"
  let nsgs := filterByType resources "microsoft.network/networksecuritygroups"
  let rts := filterByType resources "microsoft.network/routetables"
  let lbs := filterByType resources "microsoft.network/loadbalancers"
  let nats := filterByType resources "microsoft.network/natgateways"
  let pips := filterByType resources "microsoft.network/publicipaddresses"
  let yOffset : Float64 := 80
  let diagram ← addOverviewVNets vnets 0 100 diagram
  let yOffset := yOffset + 120
  let (diagram, yOffset) ← addSection nsgs "nsg" "Network Security Groups" "nsg" yOffset diagram
  let (diagram, yOffset) ← addSection rts "rt" "Route Tables" "routetable" yOffset diagram
  let (diagram, yOffset) ← addSection lbs "lb" "Load Balancers" "loadbalancer" yOffset diagram
  let (diagram, yOffset) ← addSection nats "nat" "NAT Gateways" "natgateway" yOffset diagram
  let (diagram, _) ← addSection pips "pip" "Public IP Addresses" "publicip" yOffset diagram
  if 2 ≤ vnets.length then
    some (diagram.AddConnection "peering-0-1" "VNet Peering" "cell-vnet-0" "cell-vnet-1" "peering").1
  else some diagram

end renderer

/-! ## pkg/renderer/sections.go -/

namespace renderer

structure PriorityAction where
  Icon : String
  Title : String
  Impact : String
  Severity : String
  deriving DecidableEq

/-- Go `fmt.Sprintf("%.0f", x)`: the nearest integer, a tie going to the even one. -/
def formatFloat0 (x : Float64) : String :=
  if x < 0 then "-" ++ toString (Float64.roundHalfEven (-x)).toNat
  else toString (Float64.roundHalfEven x).toNat

/-- The body of the security loop of `getPriorityActions`. -/
def securityAction (finding : analysis.SecurityFinding) : List PriorityAction :=
  if finding.Severity = "Critical" ∨ finding.Severity = "High" then
    [{ Icon := "🔴"
       Title := finding.Issue
       Impact := "Security: " ++ finding.Impact
       Severity := finding.Severity }]
  else []

/-- The body of the cost loop of `getPriorityActions`. -/
def costAction (finding : analysis.CostFinding) : List PriorityAction :=
  if 20 < finding.PotentialSavings then
    [{ Icon := "💰"
       Title := finding.Issue
       Impact := "Save $" ++ formatFloat0 finding.PotentialSavings ++ "/month"
       Severity := "High" }]
  else []

/-- The body of the tagging loop of `getPriorityActions`. -/
def taggingAction (finding : analysis.TagFinding) : List PriorityAction :=
  if finding.Severity = "High" ∧ 5 < finding.Resources.length then
    [{ Icon := "🏷️"
       Title := finding.Issue
       Impact := "Governance: " ++ finding.Impact
       Severity := finding.Severity }]
  else []

/-- The body of the compliance loop of `getPriorityActions`. -/
def complianceAction (finding : analysis.ComplianceFinding) : List PriorityAction :=
  if finding.Severity = "High" then
    [{ Icon := "⚠️"
       Title := finding.Issue
       Impact := finding.Impact
       Severity := finding.Severity }]
  else []

def getPriorityActions (security : analysis.SecurityAnalysis) (cost : analysis.CostAnalysis)
    (tagging : analysis.TaggingAnalysis) (compliance : analysis.ComplianceAnalysis) :
    List PriorityAction :=
  let actions : List PriorityAction := []
  let actions := actions ++ security.Findings.flatMap securityAction
  let actions := actions ++ cost.Findings.flatMap costAction
  let actions := actions ++ tagging.Findings.flatMap taggingAction
  let actions := actions ++ compliance.Findings.flatMap complianceAction
  actions

end renderer

/-! ## pkg/analysis: posture and health labels

The labels are the string literals of the source, character for character. -/

namespace analysis

def SecurityAnalysis.GetSecurityPosture (a : SecurityAnalysis) : String :=
  let score := a.GetSecurityScore
  if 90 ≤ score then "‚úÖ EXCELLENT"
  else if 75 ≤ score then "‚úÖ GOOD"
  else if 50 ≤ score then "‚ö†Ô∏è NEEDS ATTENTION"
  else "üî¥ CRITICAL"

def TaggingAnalysis.GetTaggingHealth (a : TaggingAnalysis) : String :=
  let score := a.GetTaggingScore
  if 90 ≤ score then "‚úÖ EXCELLENT"
  else if 75 ≤ score then "‚úÖ GOOD"
  else if 50 ≤ score then "‚ö†Ô∏è NEEDS ATTENTION"
  else "üî¥ POOR"

end analysis

/-! ## pkg/renderer/sections.go: the security and tagging sections

A section function appends to a `strings.Builder`; the model returns the strings it
writes, one per `WriteString` call, in order.  The text of the section is their
concatenation. -/

namespace renderer

def getSeverityIcon (severity : String) : String :=
  if severity = "Critical" then "🔴"
  else if severity = "High" then "🟠"
  else if severity = "Medium" then "🟡"
  else if severity = "Low" then "🔵"
  else "⚪"

/-- The strings the body of the finding loop of `generateSecuritySection` writes for one
finding. -/
def securityFindingBlock (finding : analysis.SecurityFinding) : List String :=
  [ "#### " ++ getSeverityIcon finding.Severity ++ " " ++ finding.Severity ++ " - "
      ++ finding.Issue ++ "\n\n",
    "**Resource:** " ++ finding.Resource ++ "\n\n",
    "**Impact:** " ++ finding.Impact ++ "\n\n",
    "**Remediation:** " ++ finding.Remediation ++ "\n\n",
    "---\n\n" ]

/-- The marker `generateSecuritySection` writes when it stops at the eleventh finding
of a category of `n` findings. -/
def securityMoreMarker (category : String) (n : ℕ) : String :=
  "*...and " ++ toString ((n : ℤ) - 10) ++ " more " ++ category ++ " issues*\n\n"

/-- The finding loop of `generateSecuritySection` for one category of `n` findings, from
index `i`: at index 10 it writes the marker and breaks. -/
def securityFindingLoop (category : String) (n : ℕ) :
    List analysis.SecurityFinding → ℕ → List String
  | [], _ => []
  | finding :: rest, i =>
    if 10 ≤ i then [securityMoreMarker category n]
    else securityFindingBlock finding ++ securityFindingLoop category n rest (i + 1)

/-- The map `findingsByCategory` of `generateSecuritySection`. -/
def findingsByCategory (findings : List analysis.SecurityFinding) :
    GoMap (List analysis.SecurityFinding) :=
  findings.foldl (fun m finding => m.update finding.Category [] (fun l => l ++ [finding])) []

/-- The strings `generateSecuritySection` writes for one entry of `findingsByCategory`. -/
def securityCategoryLines (entry : String × List analysis.SecurityFinding) : List String :=
  ("### " ++ entry.1 ++ " Issues (" ++ toString entry.2.length ++ ")\n\n")
    :: securityFindingLoop entry.1 entry.2.length entry.2 0

def generateSecuritySection (ord : MapOrder) (security : analysis.SecurityAnalysis) :
    List String :=
  let header := "**Security Score:** " ++ toString security.GetSecurityScore ++ "/100 - "
    ++ security.GetSecurityPosture ++ "\n\n"
  if security.Findings.length = 0 then
    [header, "✅ No security issues detected. Excellent security posture!\n\n"]
  else
    header :: (GoMap.range ord "findingsByCategory"
      (findingsByCategory security.Findings)).flatMap securityCategoryLines

/-- The loop over `RequiredTags` of `generateTaggingSection`, from index `i`. -/
def requiredTagsLoop : List String → ℕ → List String
  | [], _ => []
  | tag :: rest, i =>
    (if 0 < i then [", "] else []) ++ ["`" ++ tag ++ "`"] ++ requiredTagsLoop rest (i + 1)

/-- The loop `for i := 0; i < 10; i++` of `generateTaggingSection` over
`finding.Resources[i]`: `none` when an index is out of range. -/
def firstTenResourceLines (resources : List String) : Option (List String) :=
  (List.range 10).mapM (fun i => (resources.get? i).map (fun res => "- " ++ res ++ "\n"))

/-- The strings `generateTaggingSection` writes for the affected resources of one
finding; `none` when an index is out of range. -/
def affectedResourceLines (resources : List String) : Option (List String) :=
  if 0 < resources.length ∧ resources.length ≤ 10 then
    some (["**Affected Resources:**\n"] ++ resources.map (fun res => "- " ++ res ++ "\n")
      ++ ["\n"])
  else if 10 < resources.length then
    match firstTenResourceLines resources with
    | none => none
    | some lines =>
      some (["**Affected Resources:** " ++ toString resources.length
          ++ " resources (first 10 shown)\n"] ++ lines
        ++ ["- *...and " ++ toString ((resources.length : ℤ) - 10) ++ " more*\n\n"])
  else some []

/-- The strings the body of the finding loop of `generateTaggingSection` writes for one
finding; `none` when an index is out of range. -/
def taggingFindingLines (finding : analysis.TagFinding) : Option (List String) :=
  match affectedResourceLines finding.Resources with
  | none => none
  | some resourceLines =>
    some ([ "### " ++ getSeverityIcon finding.Severity ++ " " ++ finding.Severity ++ ": "
          ++ finding.Issue ++ "\n\n",
        "**Impact:** " ++ finding.Impact ++ "\n\n",
        "**Remediation:** " ++ finding.Remediation ++ "\n\n" ]
      ++ resourceLines ++ ["---\n\n"])

def generateTaggingSection (tagging : analysis.TaggingAnalysis) : Option (List String) :=
  let header : List String :=
    [ "**Tagging Health:** " ++ tagging.GetTaggingHealth ++ " (Score: "
        ++ toString tagging.GetTaggingScore ++ "/100)\n\n",
      "**Compliance Rate:** " ++ formatFloat0 tagging.ComplianceRate ++ "% ("
        ++ toString tagging.TaggedResources ++ "/" ++ toString tagging.TotalResources
        ++ " resources tagged)\n\n",
      "**Required Tags:** " ]
    ++ requiredTagsLoop tagging.RequiredTags 0 ++ ["\n\n"]
  if tagging.Findings.length = 0 then
    some (header ++ ["✅ Excellent tagging compliance!\n\n"])
  else
    match tagging.Findings.mapM taggingFindingLines with
    | none => none
    | some blocks => some (header ++ blocks.flatten)

end renderer

/-! ## pkg/renderer/diagram.go: RenderAll

`RenderAll` talks to the file system.  The model is given what the file system answers and
returns, next to the result, the names of the files it asked to have written, in order.
`Save` marshals the diagram and calls `os.WriteFile`; marshalling a diagram, a structure of
strings and numbers, does not fail, so a failure of `Save` is a failure of the write. -/

namespace renderer

open analysis (Resource)

/-- What a run of `RenderAll` meets outside the program. -/
structure World where
  /-- The error of `os.MkdirAll` on the output directory, if any. -/
  MkdirAll : Option String
  /-- The result of `loadResources`. -/
  loadResources : Except String (List Resource)
  /-- The value of `aiConnections` after the connection discovery step (empty when the
  client is disabled or the discovery failed). -/
  aiConnections : List llm.ConnectionSuggestion
  /-- The function `filepath.Join` on a directory and a file name. -/
  Join : String → String → String
  /-- The error of `os.WriteFile`, if any, given the names written to before and the name
  written to now. -/
  WriteFile : List String → String → Option String

/-- How a call ends: with `nil`, with an error, or in a panic. -/
inductive Ending where
  | ok : Ending
  | error (msg : String) : Ending
  | panicked : Ending
  deriving DecidableEq, Repr

/-- A run of `RenderAll`: the files it asked to have written, in order, and its ending. -/
structure Run where
  attempted : List String
  ending : Ending
  deriving DecidableEq, Repr

/-- The file `generateVNetDiagram` saves the diagram of `vnet` to.  It is used where
`generateVNetDiagram` has asserted that the name is a string. -/
def vnetFile (w : World) (outputDir : String) (vnet : Resource) : String :=
  w.Join outputDir (vnet.str "name" ++ ".drawio")

/-- The file `generateOverviewDiagram` saves to. -/
def overviewFile (w : World) (outputDir : String) : String :=
  w.Join outputDir "Overview.drawio"

/-- The last step of `RenderAll`: the overview diagram. -/
def renderOverview (w : World) (outputDir : String) (resources : List Resource)
    (attempted : List String) : Run :=
  match generateOverviewDiagram resources with
  | none => ⟨attempted, Ending.panicked⟩
  | some _ =>
    match w.WriteFile attempted (overviewFile w outputDir) with
    | some err =>
      ⟨attempted ++ [overviewFile w outputDir],
        Ending.error ("failed to generate overview diagram: " ++ err)⟩
    | none => ⟨attempted ++ [overviewFile w outputDir], Ending.ok⟩

/-- The loop of `RenderAll` over the VNets, followed by the overview step. -/
def renderVNets (w : World) (outputDir : String) (ord : MapOrder) (resources : List Resource) :
    List Resource → List String → Run
  | [], attempted => renderOverview w outputDir resources attempted
  | vnet :: rest, attempted =>
    match generateVNetDiagram ord vnet resources w.aiConnections with
    | none => ⟨attempted, Ending.panicked⟩
    | some _ =>
      match w.WriteFile attempted (vnetFile w outputDir vnet) with
      | some err =>
        ⟨attempted ++ [vnetFile w outputDir vnet],
          Ending.error ("failed to generate diagram for " ++ vnet.str "name" ++ ": " ++ err)⟩
      | none =>
        renderVNets w outputDir ord resources rest (attempted ++ [vnetFile w outputDir vnet])

def RenderAll (w : World) (outputDir : String) (ord : MapOrder) : Run :=
  match w.MkdirAll with
  | some err => ⟨[], Ending.error ("failed to create diagrams directory: " ++ err)⟩
  | none =>
    match w.loadResources with
    | Except.error err => ⟨[], Ending.error ("failed to load resources: " ++ err)⟩
    | Except.ok resources =>
      renderVNets w outputDir ord resources
        (filterByType resources "microsoft.network/virtualnetworks") []

end renderer

/-! ## Sample inventories -/

namespace sample

open analysis (Resource)

/-- A resource record with the given `type`, `name` and `resourceGroup`. -/
def resource (type name resourceGroup : String) : Resource :=
  [("type", Value.string type), ("name", Value.string name),
    ("resourceGroup", Value.string resourceGroup)]

/-- A security rule of a network security group. -/
def nsgRule (name direction access sourcePrefix destPort : String) : Value :=
  Value.object
    [("name", Value.string name),
      ("properties", Value.object
        [("direction", Value.string direction), ("access", Value.string access),
          ("sourceAddressPrefix", Value.string sourcePrefix),
          ("destinationPortRange", Value.string destPort)])]

/-- A network security group holding the given rules. -/
def nsg (name : String) (rules : List Value) : Resource :=
  [("type", Value.string "Microsoft.Network/networkSecurityGroups"), ("name", Value.string name),
    ("properties", Value.object [("securityRules", Value.array rules)])]

/-- A VM whose OS disk is the managed disk `diskID`. -/
def vmWithOSDisk (name diskID : String) : Resource :=
  [("type", Value.string "Microsoft.Compute/virtualMachines"), ("name", Value.string name),
    ("properties", Value.object
      [("storageProfile", Value.object
        [("osDisk", Value.object
          [("managedDisk", Value.object [("id", Value.string diskID)])])])])]

/-- A managed disk of the given size. -/
def disk (id name : String) (diskSizeGB : ℚ) : Resource :=
  [("type", Value.string "Microsoft.Compute/disks"), ("id", Value.string id),
    ("name", Value.string name),
    ("properties", Value.object [("diskSizeGB", Value.number diskSizeGB)])]

/-- A resource carrying one tag. -/
def tagged (name key value : String) : Resource :=
  [("type", Value.string "Microsoft.Storage/storageAccounts"), ("name", Value.string name),
    ("tags", Value.object [(key, Value.string value)])]

/-- A resource without tags. -/
def untagged (name : String) : Resource :=
  [("type", Value.string "Microsoft.Storage/storageAccounts"), ("name", Value.string name)]

/-- The VM of the scenario uses `D1`; `D2`, of 256 GB, is not referenced. -/
def orphanInventory : List Resource :=
  [vmWithOSDisk "vm1" "D1", disk "D1" "disk1" 128, disk "D2" "disk2" 256]

/-- As `orphanInventory`, the unreferenced disk being of 256.5 GB. -/
def fractionalDiskInventory : List Resource :=
  [vmWithOSDisk "vm1" "D1", disk "D1" "disk1" 128, disk "D2" "disk2" (513 / 2)]

/-- An unreferenced disk whose `diskSizeGB` is 10^19. -/
def hugeDiskInventory : List Resource := [disk "D3" "disk3" (10 ^ 19)]

/-- The VNet record of the sample diagrams. -/
def vnet1 : Resource := resource "microsoft.network/virtualnetworks" "vnet1" "rg"

/-- The VNet `vnet1` of resource group `rg` with a Function App and a storage account. -/
def functionAppInventory : List Resource :=
  [ vnet1,
    resource "microsoft.web/sites" "func-app" "rg",
    resource "microsoft.storage/storageaccounts" "stfunc01" "rg" ]

/-- The VNet `vnet1` of resource group `rg` with two VMs. -/
def twoVMInventory : List Resource :=
  [ vnet1,
    resource "microsoft.compute/virtualmachines" "vm-a" "rg",
    resource "microsoft.compute/virtualmachines" "vm-b" "rg" ]

/-- A VM record that carries no `properties`. -/
def bareVM (name : String) : Resource :=
  [("type", Value.string "Microsoft.Compute/virtualMachines"), ("name", Value.string name)]

/-- A VM record of the given size. -/
def vmOfSize (name vmSize : String) : Resource :=
  [("type", Value.string "Microsoft.Compute/virtualMachines"), ("name", Value.string name),
    ("properties", Value.object
      [("hardwareProfile", Value.object [("vmSize", Value.string vmSize)])])]

/-- A storage account tagged `Owner` and `environment`, one tagged with all four
required keys, an untagged one and a network watcher. -/
def ownerCaseInventory : List Resource :=
  [ [("type", Value.string "Microsoft.Storage/storageAccounts"), ("name", Value.string "st1"),
      ("tags", Value.object [("Owner", Value.string "ops"), ("environment", Value.string "prod")])],
    [("type", Value.string "Microsoft.Storage/storageAccounts"), ("name", Value.string "st2"),
      ("tags", Value.object
        [("environment", Value.string "prod"), ("owner", Value.string "ops"),
          ("cost-center", Value.string "cc1"), ("application", Value.string "shop")])],
    untagged "st3",
    [("type", Value.string "Microsoft.Network/networkWatchers"), ("name", Value.string "nw")] ]

/-- Three resources with the tag `environment` and three with the tag `env`, six
values in all. -/
def envAliasInventory : List Resource :=
  [ tagged "r1" "environment" "prod", tagged "r2" "environment" "staging",
    tagged "r3" "environment" "dev", tagged "r4" "env" "test",
    tagged "r5" "env" "qa", tagged "r6" "env" "uat" ]

/-- Six resources with the tag `environment`; two of the values, `É` and `é`, differ in
letter case only. -/
def accentedEnvInventory : List Resource :=
  [ tagged "r1" "environment" "É", tagged "r2" "environment" "é",
    tagged "r3" "environment" "a", tagged "r4" "environment" "b",
    tagged "r5" "environment" "c", tagged "r6" "environment" "d" ]

/-- A resource carrying the four required tags. -/
def fullyTagged (name : String) : Resource :=
  [("type", Value.string "Microsoft.Storage/storageAccounts"), ("name", Value.string name),
    ("tags", Value.object
      [("environment", Value.string "prod"), ("owner", Value.string "ops"),
        ("cost-center", Value.string "cc1"), ("application", Value.string "shop")])]

/-- Fifty resources, 29 of them tagged. -/
def partlyTaggedInventory : List Resource :=
  List.replicate 29 (fullyTagged "st") ++ List.replicate 21 (untagged "raw")

/-- A VNet of resource group `rg` with the subnets `subnet-web` and `subnet-data`. -/
def twoSubnetVNet : Resource :=
  [("type", Value.string "microsoft.network/virtualnetworks"), ("name", Value.string "vnet1"),
    ("resourceGroup", Value.string "rg"),
    ("properties", Value.object
      [("subnets", Value.array
        [ Value.object [("name", Value.string "subnet-web"),
            ("properties", Value.object [("addressPrefix", Value.string "10.0.1.0/24")])],
          Value.object [("name", Value.string "subnet-data"),
            ("properties", Value.object [("addressPrefix", Value.string "10.0.2.0/24")])] ])])]

/-- The VNet `twoSubnetVNet` with an NSG, the VM `web-01` and the NIC `web-01-nic`. -/
def twoSubnetInventory : List Resource :=
  [ twoSubnetVNet,
    resource "microsoft.network/networksecuritygroups" "nsg1" "rg",
    resource "microsoft.compute/virtualmachines" "web-01" "rg",
    resource "microsoft.network/networkinterfaces" "web-01-nic" "rg" ]

/-- The VNet `vnet1` of resource group `rg` with an NSG, a route table, a load
balancer and a VM. -/
def routedInventory : List Resource :=
  [ vnet1,
    resource "microsoft.network/networksecuritygroups" "nsg1" "rg",
    resource "microsoft.network/routetables" "rt1" "rg",
    resource "microsoft.network/loadbalancers" "lb1" "rg",
    resource "microsoft.compute/virtualmachines" "vm1" "rg" ]

/-- Three high-confidence suggestions between resources of `routedInventory`. -/
def routedSuggestions : List llm.ConnectionSuggestion :=
  [ { SourceResource := "rt1", TargetResource := "vm1", ConnectionType := "routing",
      Label := "routes", Confidence := "high", Reason := "route table of the VM subnet" },
    { SourceResource := "nsg1", TargetResource := "vm1", ConnectionType := "association",
      Label := "protects", Confidence := "high", Reason := "NSG of the VM" },
    { SourceResource := "lb1", TargetResource := "vm1", ConnectionType := "association",
      Label := "balances", Confidence := "high", Reason := "backend pool" } ]

/-- A VNet and a VM typed the way Azure Resource Manager spells the types. -/
def mixedCaseInventory : List Resource :=
  [ resource "Microsoft.Network/virtualNetworks" "vnet1" "rg",
    resource "Microsoft.Compute/virtualMachines" "vm1" "rg" ]

/-- The records of `mixedCaseInventory` with lower-case types. -/
def lowerCaseInventory : List Resource :=
  [ resource "microsoft.network/virtualnetworks" "vnet1" "rg",
    resource "microsoft.compute/virtualmachines" "vm1" "rg" ]

/-- A tagged storage account and a network watcher. -/
def watcherInventory : List Resource :=
  [ tagged "st1" "owner" "ops",
    [("type", Value.string "Microsoft.Network/networkWatchers"), ("name", Value.string "nw")] ]

/-- Records with missing keys and with values of the wrong shape at several levels. -/
def malformedInventory : List Resource :=
  [ [],
    [("type", Value.number 5), ("name", Value.null), ("id", Value.bool true)],
    [("type", Value.string "Microsoft.Compute/virtualMachines"), ("name", Value.array []),
      ("properties", Value.string "oops"), ("tags", Value.array [])],
    [("type", Value.string "Microsoft.Compute/virtualMachines"), ("name", Value.string "vm2"),
      ("properties", Value.object
        [("hardwareProfile", Value.number 1), ("storageProfile", Value.object
          [("osDisk", Value.object [("managedDisk", Value.string "D1")])])]),
      ("tags", Value.object [("env", Value.number 3)])],
    [("type", Value.string "Microsoft.Network/networkSecurityGroups"),
      ("name", Value.string "nsg1"),
      ("properties", Value.object [("securityRules", Value.object [])])],
    [("type", Value.string "Microsoft.Network/networkSecurityGroups"),
      ("name", Value.string "nsg2"),
      ("properties", Value.object [("securityRules", Value.array
        [ Value.number 5, Value.object [("properties", Value.string "x")],
          Value.object [("properties", Value.object [("direction", Value.number 3)])] ])])],
    [("type", Value.string "Microsoft.Storage/storageAccounts"), ("name", Value.string "st1"),
      ("sku", Value.number 7),
      ("properties", Value.object
        [("encryption", Value.number 5), ("networkAcls", Value.array []),
          ("accessTier", Value.bool false)])],
    [("type", Value.string "Microsoft.Storage/storageAccounts"), ("name", Value.string "st2"),
      ("sku", Value.object [("name", Value.null)]), ("properties", Value.null)],
    [("type", Value.string "Microsoft.Network/networkInterfaces"),
      ("properties", Value.object [("ipConfigurations", Value.array
        [ Value.number 1,
          Value.object [("properties", Value.object [("publicIPAddress", Value.string "x")])] ])])],
    [("type", Value.string "Microsoft.Compute/disks"), ("id", Value.number 1),
      ("properties", Value.object [("diskSizeGB", Value.string "big")])] ]

/-- A subnet entry of a VNet's `properties.subnets`. -/
def subnet (name addressPrefix : String) : Value :=
  Value.object [("name", Value.string name),
    ("properties", Value.object [("addressPrefix", Value.string addressPrefix)])]

/-- A VNet of resource group `rg` with four subnets. -/
def fourSubnetVNet : Resource :=
  [("type", Value.string "microsoft.network/virtualnetworks"), ("name", Value.string "vnet4"),
    ("resourceGroup", Value.string "rg"),
    ("properties", Value.object
      [("subnets", Value.array
        [ subnet "subnet-a" "10.0.0.0/24", subnet "subnet-b" "10.0.1.0/24",
          subnet "subnet-c" "10.0.2.0/24", subnet "subnet-d" "10.0.3.0/24" ])])]

/-- The VNet `vnet1` of resource group `rg` with the VMs `web-01` and `web-02` and the
NIC `web-nic`. -/
def sharedTokenInventory : List Resource :=
  [ vnet1,
    resource "microsoft.compute/virtualmachines" "web-01" "rg",
    resource "microsoft.compute/virtualmachines" "web-02" "rg",
    resource "microsoft.network/networkinterfaces" "web-nic" "rg" ]

/-- Two VNets of resource group `rg`. -/
def twoVNetInventory : List Resource :=
  [vnet1, resource "microsoft.network/virtualnetworks" "vnet2" "rg"]

/-- A run over `twoVNetInventory` in which writing `out/vnet1.drawio` fails and every other
write succeeds. -/
def firstWriteFails : renderer.World :=
  { MkdirAll := none
    loadResources := Except.ok twoVNetInventory
    aiConnections := []
    Join := fun dir name => dir ++ "/" ++ name
    WriteFile := fun _ name => if name = "out/vnet1.drawio" then some "disk full" else none }

/-- A run over `twoVNetInventory` in which writing `out/vnet2.drawio` fails and every other
write succeeds. -/
def secondWriteFails : renderer.World :=
  { MkdirAll := none
    loadResources := Except.ok twoVNetInventory
    aiConnections := []
    Join := fun dir name => dir ++ "/" ++ name
    WriteFile := fun _ name => if name = "out/vnet2.drawio" then some "disk full" else none }

end sample

/-! ## Properties the claims speak of -/

namespace analysis

/-- The counts of a security analysis are all non-negative. -/
def CountsNonneg (a : SecurityAnalysis) : Prop :=
  0 ≤ a.CriticalCount ∧ 0 ≤ a.HighCount ∧ 0 ≤ a.MediumCount ∧ 0 ≤ a.LowCount

/-- An inbound Allow rule whose source prefix is one of the wildcard values, with
destination port range `destPort`. -/
def IsOpenInboundRule (ruleIface : Value) (destPort : String) : Prop :=
  ∃ rule ruleProps, ruleIface.asObject = some rule ∧ rule.obj "properties" = some ruleProps ∧
    ruleProps.str "direction" = "Inbound" ∧ ruleProps.str "access" = "Allow" ∧
    (ruleProps.str "sourceAddressPrefix" = "*" ∨ ruleProps.str "sourceAddressPrefix" = "0.0.0.0/0" ∨
      ruleProps.str "sourceAddressPrefix" = "Internet") ∧
    ruleProps.str "destinationPortRange" = destPort

/-- The text of a port range contains the digits of a dangerous port somewhere. -/
def MentionsDangerousPort (portRange : String) : Prop :=
  ∃ port ∈ dangerousPorts, port.data <:+: portRange.data

/-- The orphaned-disk findings among cost findings. -/
def IsOrphanedDiskFinding (f : CostFinding) : Prop :=
  f.Category = "Orphaned" ∧ f.Issue = "Disk is not attached to any VM"

instance (f : CostFinding) : Decidable (IsOrphanedDiskFinding f) := by
  unfold IsOrphanedDiskFinding; infer_instance

/-- The id is the OS managed-disk id of some VM of the inventory. -/
def IsOSDiskOfSomeVM (resources : List Resource) (id : String) : Prop :=
  ∃ vm ∈ resources, osDiskID vm = some id

instance (resources : List Resource) (id : String) : Decidable (IsOSDiskOfSomeVM resources id) := by
  unfold IsOSDiskOfSomeVM; infer_instance

/-- A disk record that no VM of the inventory uses as its OS disk. -/
def IsOrphanedDisk (resources : List Resource) (res : Resource) : Prop :=
  typeOf res = "microsoft.compute/disks" ∧ ¬ IsOSDiskOfSomeVM resources (res.str "id")

instance (resources : List Resource) (res : Resource) : Decidable (IsOrphanedDisk resources res) := by
  unfold IsOrphanedDisk; infer_instance

/-- The tag keys `analyzeTagConsistency` visits: the keys of every `tags` map, in
resource order. -/
def tagKeysOf (resources : List Resource) : List String :=
  resources.flatMap (fun res =>
    match res.obj "tags" with
    | none => []
    | some tags => tags.keys)

/-- Two different tag keys of the inventory have the lower-cased form `k`. -/
def HasTwoSpellings (resources : List Resource) (k : String) : Prop :=
  ∃ t₁ ∈ tagKeysOf resources, ∃ t₂ ∈ tagKeysOf resources,
    t₁ ≠ t₂ ∧ strings.ToLower t₁ = k ∧ strings.ToLower t₂ = k

/-- What `tagKeyVariations` holds after the keys `seen` were counted. -/
def VariationsOf (m : GoMap (GoMap ℤ)) (seen : List String) : Prop :=
  (m.map Prod.fst).Nodup ∧
  (∀ k, k ∈ m.map Prod.fst ↔ ∃ t ∈ seen, strings.ToLower t = k) ∧
  (∀ k variations, m.lookup k = some variations →
    (variations.map Prod.fst).Nodup ∧
    ∀ t, t ∈ variations.map Prod.fst ↔ t ∈ seen ∧ strings.ToLower t = k)

/-- A finding with its `Issue` text blanked: what two findings share when they differ
only in the order in which the text enumerates the entries of a map. -/
def TagFinding.withoutIssue (f : TagFinding) : TagFinding := { f with Issue := "" }

/-- The number of security findings of the given severity. -/
def severityCount (findings : List SecurityFinding) (severity : String) : ℤ :=
  (findings.filter (fun f => decide (f.Severity = severity))).length

/-- A VM record whose `properties` field is a map. -/
def IsVMWithProperties (res : Resource) : Prop :=
  typeOf res = "microsoft.compute/virtualmachines" ∧ (res.obj "properties").isSome

instance (res : Resource) : Decidable (IsVMWithProperties res) := by
  unfold IsVMWithProperties; infer_instance

/-- The size `analyzeIdleResources` prices a VM at: its `hardwareProfile.vmSize`,
`Standard_B2s` when that is not given. -/
def idleVMSize (res : Resource) : String :=
  match res.obj "properties" with
  | none => "Standard_B2s"
  | some props => vmSizeOr props "Standard_B2s"

/-- The percentage `GetCostScore` compares with the band limits: the `float64` value
of `(PotentialMonthlySavings / TotalMonthlyCost) * 100`. -/
def optimizationPct (a : CostAnalysis) : Float64 :=
  Float64.mul (Float64.div a.PotentialMonthlySavings a.TotalMonthlyCost) 100

/-- A resource that is not a system resource and has no tag whose key equals
`requiredTag`, letter case ignored. -/
def LacksTag (requiredTag : String) (res : Resource) : Bool :=
  !isSystemResource (res.str "type") &&
    match res.obj "tags" with
    | none => true
    | some tags => !tags.keys.any (fun tagKey => strings.EqualFold tagKey requiredTag)

/-- The names of the resources lacking `requiredTag`, in input order. -/
def lackingNames (requiredTag : String) (resources : List Resource) : List String :=
  (resources.filter (LacksTag requiredTag)).map (fun res => res.str "name")

/-- The Missing finding for `tagName` and the given resource names. -/
def missingFindingOf (tagName : String) (names : List String) : TagFinding :=
  { Severity := if tagName = "owner" ∨ tagName = "cost-center" then "High" else "Medium"
    Category := "Missing"
    Resources := names
    Issue := toString names.length ++ " resources missing '" ++ tagName ++ "' tag"
    Impact := "Cannot track ownership, cost allocation, or compliance"
    Remediation := "Add '" ++ tagName ++ "' tag to all resources according to tagging policy" }

/-- The state of `missingByTag` after the resources `rs`, for required tags `T`. -/
def MissingByTagOf (T : List String) (rs : List Resource) (m : GoMap (List String)) : Prop :=
  (m.map Prod.fst).Nodup ∧
  ∀ t, m.lookup t =
    if t ∈ T ∧ lackingNames t rs ≠ [] then some (lackingNames t rs) else none

/-- The lower-cased string values of the tags of `res` whose key is `environment`
or `env`, letter case ignored. -/
def envTagValuesOf (res : Resource) : List String :=
  match res.obj "tags" with
  | none => []
  | some tags =>
    tags.entries.filterMap (fun entry =>
      if strings.EqualFold entry.1 "environment" || strings.EqualFold entry.1 "env" then
        entry.2.asString.map strings.ToLower
      else none)

/-- The lower-cased string values under `environment` or `env` across the list. -/
def envTagValues (resources : List Resource) : List String :=
  resources.flatMap envTagValuesOf

/-- The lower-cased values of the tag `environment` alone (letter case of the key
ignored) across the list: the values the specification counts. -/
def environmentTagValues (resources : List Resource) : List String :=
  resources.flatMap (fun res =>
    match res.obj "tags" with
    | none => []
    | some tags =>
      tags.entries.filterMap (fun entry =>
        if strings.EqualFold entry.1 "environment" then entry.2.asString.map strings.ToLower
        else none))

/-- The finding `analyzeTagValuePatterns` appends for the value map `m`. -/
def envValuesFinding (ord : MapOrder) (m : GoMap ℤ) : TagFinding :=
  { Severity := "Medium"
    Category := "Inconsistent"
    Resources := []
    Issue := "Environment tag has " ++ toString m.length ++ " different values: "
      ++ strings.formatSlice ((GoMap.range ord "envValues" m).map Prod.fst)
    Impact := "Difficult to filter resources by environment"
    Remediation := "Standardize environment values to: production, staging, development, test" }

/-- The number of tagging findings of the given severity. -/
def tagSeverityCount (findings : List TagFinding) (severity : String) : ℤ :=
  (findings.filter (fun f => decide (f.Severity = severity))).length

/-- The record `res'` is `res` with at most the letter case of its `type` changed:
the types agree once lower-cased and every other field is the same. -/
def SameUpToTypeCase (res res' : Resource) : Prop :=
  strings.ToLower (res.str "type") = strings.ToLower (res'.str "type") ∧
  ∀ k, k ≠ "type" → res.index k = res'.index k

/-- Two findings that agree up to the letter case of their resource labels, and
fully unless they are Monitoring findings. -/
def SameUpToLabelCase (f f' : ComplianceFinding) : Prop :=
  f.Category = f'.Category ∧ f.Severity = f'.Severity ∧ f.Issue = f'.Issue ∧
  f.Impact = f'.Impact ∧ f.Remediation = f'.Remediation ∧
  f.Resources.map strings.ToLower = f'.Resources.map strings.ToLower ∧
  (f.Category ≠ "Monitoring" → f.Resources = f'.Resources)

/-- Two compliance analyses that agree up to the letter case of resource labels. -/
def ComplianceAnalysis.SameUpToLabelCase (a a' : ComplianceAnalysis) : Prop :=
  a.BackupCoverage = a'.BackupCoverage ∧ a.MonitoringCoverage = a'.MonitoringCoverage ∧
  List.Forall₂ analysis.SameUpToLabelCase a.Findings a'.Findings

end analysis

namespace renderer

/-- Every edge cell refers, as source and as target, to cells that stand before it in
the cell list. -/
def EdgesReferToEarlier (cells : List DrawIOCell) : Prop :=
  ∀ (i : ℕ) (h : i < cells.length), cells[i].Edge = "1" →
    cells[i].Source ∈ (cells.take i).map (fun c => c.ID) ∧
    cells[i].Target ∈ (cells.take i).map (fun c => c.ID)

instance (cells : List DrawIOCell) : Decidable (EdgesReferToEarlier cells) := by
  unfold EdgesReferToEarlier; infer_instance

/-- The `(x, y)` of a cell's geometry. -/
def DrawIOCell.place (c : DrawIOCell) : Option (Float64 × Float64) :=
  c.Geometry.map (fun g => (g.X, g.Y))

/-- Two vertex cells with the same parent and the same `(x, y)`. -/
def SamePlace (c₁ c₂ : DrawIOCell) : Prop :=
  c₁.Vertex = "1" ∧ c₂.Vertex = "1" ∧ c₁.Parent = c₂.Parent ∧ c₁.place = c₂.place

instance (c₁ c₂ : DrawIOCell) : Decidable (SamePlace c₁ c₂) := by
  unfold SamePlace; infer_instance

/-- No two sibling vertices of the document occupy the same `(x, y)`. -/
def NoSiblingsAtSamePlace (cells : List DrawIOCell) : Prop :=
  cells.Pairwise (fun c₁ c₂ => ¬ SamePlace c₁ c₂)

instance (cells : List DrawIOCell) : Decidable (NoSiblingsAtSamePlace cells) := by
  unfold NoSiblingsAtSamePlace; infer_instance

/-- The name and resource group of every resource of the given type, `none` standing
for a field that is not a string. -/
def namesOfType (resources : List analysis.Resource) (resourceType : String) :
    List (Option String × Option String) :=
  (filterByType resources resourceType).map
    (fun res => ((res.index "name").asString, (res.index "resourceGroup").asString))

/-- The number of cells of the document with the given style. -/
def DrawIODiagram.countStyle (d : DrawIODiagram) (style : String) : ℕ :=
  (d.Cells.filter (fun c => decide (c.Style = style))).length

/-- The edge cells of the document. -/
def DrawIODiagram.edges (d : DrawIODiagram) : List DrawIOCell :=
  d.Cells.filter (fun c => decide (c.Edge = "1"))

end renderer
/-! ## Properties the later claims speak of -/

namespace analysis

/-- Every finding of the list has one of the four severities. -/
def HasKnownSeverities (fs : List SecurityFinding) : Prop :=
  ∀ f ∈ fs, f.Severity = "Critical" ∨ f.Severity = "High" ∨ f.Severity = "Medium" ∨
    f.Severity = "Low"

/-- The sum of the penalties `GetComplianceScore` subtracts for the findings. -/
def compliancePenalties (a : ComplianceAnalysis) : ℤ := (a.Findings.map compliancePenalty).sum

/-- A resource the tagging analysis counts: not one of the system resource types. -/
def IsCounted (res : Resource) : Bool := !isSystemResource (res.str "type")

/-- A resource whose `tags` field is a map with at least one entry. -/
def HasTags (res : Resource) : Bool :=
  match res.obj "tags" with
  | none => false
  | some tags => tags.length ≠ 0

/-- The `float64` sum `s += x` over the list, from 0, in list order. -/
def floatSum (xs : List Float64) : Float64 := xs.foldl Float64.add 0

end analysis

namespace renderer

open analysis

/-- The document `d'` has the cells of `d` followed by cells that are not edges. -/
def AddsVerticesOnly (d d' : DrawIODiagram) : Prop :=
  ∃ added, d'.Cells = d.Cells ++ added ∧ ∀ c ∈ added, c.Edge = ""

/-- The rectangle `inner` lies inside the rectangle `outer`. -/
def DrawIOGeometry.Inside (inner outer : DrawIOGeometry) : Prop :=
  outer.X ≤ inner.X ∧ inner.X + inner.Width ≤ outer.X + outer.Width ∧
  outer.Y ≤ inner.Y ∧ inner.Y + inner.Height ≤ outer.Y + outer.Height

instance (inner outer : DrawIOGeometry) : Decidable (inner.Inside outer) := by
  unfold DrawIOGeometry.Inside; infer_instance

/-- The rectangle of a cell: `(x, y, width, height)`. -/
def DrawIOCell.rect (c : DrawIOCell) : Option (Float64 × Float64 × Float64 × Float64) :=
  c.Geometry.map (fun g => (g.X, g.Y, g.Width, g.Height))

/-- Every subnet container of the document lies inside every VNet container of it. -/
def SubnetsInsideVNet (cells : List DrawIOCell) : Prop :=
  ∀ c ∈ cells, c.Style = containerStyle "subnet" →
    ∀ v ∈ cells, v.Style = containerStyle "vnet" →
      ∀ g ∈ c.Geometry, ∀ gv ∈ v.Geometry, g.Inside gv

instance (cells : List DrawIOCell) : Decidable (SubnetsInsideVNet cells) := by
  unfold SubnetsInsideVNet; infer_instance

/-- The findings of one category, in the order of the list. -/
def findingsOfCategory (category : String) (findings : List SecurityFinding) :
    List SecurityFinding :=
  findings.filter (fun finding => finding.Category = category)

end renderer

/-! ## Lemmas: float64 rounding -/

namespace Float64

theorem log2Aux_spec : ∀ (fuel n : ℕ), n ≤ fuel → n ≠ 0 →
    2 ^ log2Aux fuel n ≤ n ∧ n < 2 ^ (log2Aux fuel n + 1) := by
  intro fuel
  induction fuel with
  | zero => intro n h h0; omega
  | succ k ih =>
    intro n h h0
    unfold log2Aux
    by_cases h2 : n < 2
    · simp only [h2, if_true]
      constructor
      · simp; omega
      · simp; omega
    · simp only [h2, if_false]
      have hk : n / 2 ≤ k := by omega
      have hne : n / 2 ≠ 0 := by omega
      obtain ⟨h1, h3⟩ := ih (n / 2) hk hne
      constructor
      · rw [pow_succ]; omega
      · rw [pow_succ]; omega

theorem log2_spec (n : ℕ) (h0 : n ≠ 0) : 2 ^ log2 n ≤ n ∧ n < 2 ^ (log2 n + 1) :=
  log2Aux_spec n n (le_refl n) h0

theorem pow2_eq_zpow (e : ℤ) : pow2 e = (2 : ℚ) ^ e := by
  unfold pow2
  by_cases h : 0 ≤ e
  · simp only [h, if_true]
    obtain ⟨n, rfl⟩ := Int.eq_ofNat_of_zero_le h
    simp
  · simp only [h, if_false]
    have h' : 0 ≤ -e := by omega
    obtain ⟨n, hn⟩ := Int.eq_ofNat_of_zero_le h'
    have he : e = -(n : ℤ) := by omega
    subst he
    simp

theorem pow2_pos (e : ℤ) : 0 < pow2 e := by
  rw [pow2_eq_zpow]; positivity

theorem pow2_add (a b : ℤ) : pow2 (a + b) = pow2 a * pow2 b := by
  simp only [pow2_eq_zpow]
  exact zpow_add₀ (by norm_num) a b

theorem pow2_le_pow2 {a b : ℤ} (h : a ≤ b) : pow2 a ≤ pow2 b := by
  simp only [pow2_eq_zpow]
  exact zpow_le_zpow_right₀ (by norm_num) h

theorem ilog2_spec (q : ℚ) (hq : 0 < q) : pow2 (ilog2 q) ≤ q ∧ q < pow2 (ilog2 q + 1) := by
  have hnum : 0 < q.num := Rat.num_pos.mpr hq
  have hn0 : q.num.natAbs ≠ 0 := by omega
  have hd0 : q.den ≠ 0 := q.den_nz
  obtain ⟨ha1, ha2⟩ := log2_spec q.num.natAbs hn0
  obtain ⟨hb1, hb2⟩ := log2_spec q.den hd0
  set a := log2 q.num.natAbs with ha
  set b := log2 q.den with hb
  have hqeq : q = (q.num.natAbs : ℚ) / (q.den : ℚ) := by
    have h1 : ((q.num.natAbs : ℤ) : ℚ) = (q.num : ℚ) := by
      rw [Int.natAbs_of_nonneg hnum.le]
    have h2 : (q.num.natAbs : ℚ) = (q.num : ℚ) := by
      rw [← h1]; exact (Int.cast_natCast _).symm
    rw [h2]; exact (Rat.num_div_den q).symm
  have hdpos : (0 : ℚ) < (q.den : ℚ) := by exact_mod_cast Nat.pos_of_ne_zero hd0
  have ha1q : (2 : ℚ) ^ (a : ℤ) ≤ (q.num.natAbs : ℚ) := by
    rw [zpow_natCast]; exact_mod_cast ha1
  have ha2q : (q.num.natAbs : ℚ) < (2 : ℚ) ^ ((a : ℤ) + 1) := by
    have : (q.num.natAbs : ℚ) < (2 : ℚ) ^ (a + 1) := by exact_mod_cast ha2
    rw [show ((a : ℤ) + 1) = ((a + 1 : ℕ) : ℤ) by simp, zpow_natCast]; exact this
  have hb1q : (2 : ℚ) ^ (b : ℤ) ≤ (q.den : ℚ) := by
    rw [zpow_natCast]; exact_mod_cast hb1
  have hb2q : (q.den : ℚ) < (2 : ℚ) ^ ((b : ℤ) + 1) := by
    have : (q.den : ℚ) < (2 : ℚ) ^ (b + 1) := by exact_mod_cast hb2
    rw [show ((b : ℤ) + 1) = ((b + 1 : ℕ) : ℤ) by simp, zpow_natCast]; exact this
  have h2 : (0 : ℚ) < 2 := by norm_num
  have h2ne : (2 : ℚ) ≠ 0 := by norm_num
  -- q < 2^(a-b+1)
  have hupper : q < (2 : ℚ) ^ ((a : ℤ) - b + 1) := by
    rw [hqeq, div_lt_iff₀ hdpos]
    calc (q.num.natAbs : ℚ) < (2 : ℚ) ^ ((a : ℤ) + 1) := ha2q
      _ = (2 : ℚ) ^ ((a : ℤ) - b + 1) * (2 : ℚ) ^ (b : ℤ) := by
        rw [← zpow_add₀ h2ne]; congr 1; ring
      _ ≤ (2 : ℚ) ^ ((a : ℤ) - b + 1) * (q.den : ℚ) := by
        apply mul_le_mul_of_nonneg_left hb1q; positivity
  have hlower : (2 : ℚ) ^ ((a : ℤ) - b - 1) ≤ q := by
    rw [hqeq, le_div_iff₀ hdpos]
    calc (2 : ℚ) ^ ((a : ℤ) - b - 1) * (q.den : ℚ)
        ≤ (2 : ℚ) ^ ((a : ℤ) - b - 1) * (2 : ℚ) ^ ((b : ℤ) + 1) := by
          apply mul_le_mul_of_nonneg_left hb2q.le; positivity
      _ = (2 : ℚ) ^ (a : ℤ) := by rw [← zpow_add₀ h2ne]; congr 1; ring
      _ ≤ (q.num.natAbs : ℚ) := ha1q
  unfold ilog2
  simp only [← ha, ← hb]
  by_cases hc : pow2 ((a : ℤ) - (b : ℤ)) ≤ q
  · rw [if_pos hc]
    exact ⟨hc, by rw [pow2_eq_zpow]; exact hupper⟩
  · rw [if_neg hc]
    constructor
    · rw [pow2_eq_zpow]; exact hlower
    · rw [show (a : ℤ) - b - 1 + 1 = (a : ℤ) - b by ring]; exact lt_of_not_le hc

theorem roundHalfEven_intCast (n : ℤ) : roundHalfEven (n : ℚ) = n := by
  unfold roundHalfEven
  simp

theorem roundHalfEven_bounds (q : ℚ) : ⌊q⌋ ≤ roundHalfEven q ∧ roundHalfEven q ≤ ⌊q⌋ + 1 := by
  unfold roundHalfEven
  simp only
  split_ifs <;> omega

theorem roundHalfEven_mono {a b : ℚ} (h : a ≤ b) : roundHalfEven a ≤ roundHalfEven b := by
  have hf : ⌊a⌋ ≤ ⌊b⌋ := Int.floor_mono h
  rcases lt_or_eq_of_le hf with hlt | heq
  · have h1 := (roundHalfEven_bounds a).2
    have h2 := (roundHalfEven_bounds b).1
    omega
  · unfold roundHalfEven
    simp only
    rw [heq]
    have hab : a - (⌊b⌋ : ℚ) ≤ b - (⌊b⌋ : ℚ) := by linarith
    split_ifs <;> first | omega | linarith

theorem roundNearest_zero : roundNearest 0 = 0 := by
  unfold roundNearest; simp

theorem roundNearest_bounds (x : ℚ) (hx : 0 < x) :
    pow2 (ilog2 x) ≤ roundNearest x ∧ roundNearest x ≤ pow2 (ilog2 x + 1) := by
  obtain ⟨h1, h2⟩ := ilog2_spec x hx
  unfold roundNearest
  rw [if_neg hx.ne.symm, abs_of_pos hx]
  simp only
  set l := ilog2 x with hl
  have hs : 0 < pow2 (l - 52) := pow2_pos _
  have c52 : pow2 52 = ((2 ^ 52 : ℤ) : ℚ) := by rw [pow2_eq_zpow]; norm_num
  have c53 : pow2 53 = ((2 ^ 53 : ℤ) : ℚ) := by rw [pow2_eq_zpow]; norm_num
  have e1 : pow2 l = ((2 ^ 52 : ℤ) : ℚ) * pow2 (l - 52) := by
    rw [← c52, ← pow2_add]; congr 1; ring
  have e2 : pow2 (l + 1) = ((2 ^ 53 : ℤ) : ℚ) * pow2 (l - 52) := by
    rw [← c53, ← pow2_add]; congr 1; ring
  have m1 : ((2 ^ 52 : ℤ) : ℚ) ≤ x / pow2 (l - 52) := by
    rw [le_div_iff₀ hs, ← e1]; exact h1
  have m2 : x / pow2 (l - 52) ≤ ((2 ^ 53 : ℤ) : ℚ) := by
    rw [div_le_iff₀ hs, ← e2]; exact h2.le
  have r1 := roundHalfEven_mono m1
  have r2 := roundHalfEven_mono m2
  rw [roundHalfEven_intCast] at r1 r2
  constructor
  · rw [e1]
    apply mul_le_mul_of_nonneg_right _ hs.le
    exact_mod_cast r1
  · rw [e2]
    apply mul_le_mul_of_nonneg_right _ hs.le
    exact_mod_cast r2

theorem roundNearest_pos {x : ℚ} (hx : 0 < x) : 0 < roundNearest x :=
  lt_of_lt_of_le (pow2_pos _) (roundNearest_bounds x hx).1

theorem ilog2_mono {x y : ℚ} (hx : 0 < x) (h : x ≤ y) : ilog2 x ≤ ilog2 y := by
  have hy : 0 < y := lt_of_lt_of_le hx h
  have h1 := (ilog2_spec x hx).1
  have h2 := (ilog2_spec y hy).2
  by_contra hc
  push_neg at hc
  have : pow2 (ilog2 y + 1) ≤ pow2 (ilog2 x) := pow2_le_pow2 (by omega)
  linarith

theorem roundNearest_mono {x y : ℚ} (hx : 0 ≤ x) (h : x ≤ y) :
    roundNearest x ≤ roundNearest y := by
  rcases eq_or_lt_of_le hx with h0 | hpos
  · subst h0
    rw [roundNearest_zero]
    rcases eq_or_lt_of_le h with hy0 | hypos
    · rw [← hy0, roundNearest_zero]
    · exact (roundNearest_pos hypos).le
  · have hy : 0 < y := lt_of_lt_of_le hpos h
    have hl := ilog2_mono hpos h
    rcases lt_or_eq_of_le hl with hlt | heq
    · have b1 := (roundNearest_bounds x hpos).2
      have b2 := (roundNearest_bounds y hy).1
      have : pow2 (ilog2 x + 1) ≤ pow2 (ilog2 y) := pow2_le_pow2 (by omega)
      linarith
    · unfold roundNearest
      rw [if_neg hpos.ne.symm, if_neg hy.ne.symm, abs_of_pos hpos, abs_of_pos hy, heq]
      simp only
      have hs : 0 < pow2 (ilog2 y - 52) := pow2_pos _
      apply mul_le_mul_of_nonneg_right _ hs.le
      have : x / pow2 (ilog2 y - 52) ≤ y / pow2 (ilog2 y - 52) :=
        div_le_div_of_nonneg_right h hs.le
      exact_mod_cast roundHalfEven_mono this

theorem roundNearest_nonneg {x : ℚ} (hx : 0 ≤ x) : 0 ≤ roundNearest x := by
  have := roundNearest_mono (le_refl (0 : ℚ)) hx
  rwa [roundNearest_zero] at this

theorem roundNearest_one : roundNearest 1 = 1 := by decide!

theorem roundNearest_hundred : roundNearest 100 = 100 := by decide!

theorem toInt_nonneg {x : ℚ} (hx : 0 ≤ x) : 0 ≤ toInt x := by
  unfold toInt
  rw [if_pos hx]
  exact Int.floor_nonneg.mpr hx

theorem toInt_le_of_le_intCast {x : ℚ} {n : ℤ} (hx : 0 ≤ x) (h : x ≤ n) : toInt x ≤ n := by
  unfold toInt
  rw [if_pos hx]
  exact Int.floor_le_iff.mpr (by linarith)

/-- The rate `float64(t) / float64(n) * 100` of a part `t` of a whole `n > 0` lies in
`[0, 100]`. -/
theorem percent_bounds {t n : ℤ} (ht : 0 ≤ t) (htn : t ≤ n) (hn : 0 < n) :
    0 ≤ mul (div (ofInt t) (ofInt n)) 100 ∧ mul (div (ofInt t) (ofInt n)) 100 ≤ 100 := by
  unfold mul div ofInt
  have ht' : (0 : ℚ) ≤ (t : ℚ) := by exact_mod_cast ht
  have hn' : (0 : ℚ) < (n : ℚ) := by exact_mod_cast hn
  have htn' : (t : ℚ) ≤ (n : ℚ) := by exact_mod_cast htn
  have a0 : 0 ≤ roundNearest (t : ℚ) := roundNearest_nonneg ht'
  have b0 : 0 < roundNearest (n : ℚ) := roundNearest_pos hn'
  have ab : roundNearest (t : ℚ) ≤ roundNearest (n : ℚ) := roundNearest_mono ht' htn'
  have q0 : 0 ≤ roundNearest (t : ℚ) / roundNearest (n : ℚ) := div_nonneg a0 b0.le
  have q1 : roundNearest (t : ℚ) / roundNearest (n : ℚ) ≤ 1 := (div_le_one b0).mpr ab
  have r0 := roundNearest_nonneg q0
  have r1 := roundNearest_mono q0 q1
  rw [roundNearest_one] at r1
  have p0 : 0 ≤ roundNearest (roundNearest (t : ℚ) / roundNearest (n : ℚ)) * 100 := by positivity
  have p1 : roundNearest (roundNearest (t : ℚ) / roundNearest (n : ℚ)) * 100 ≤ 100 := by linarith
  refine ⟨roundNearest_nonneg p0, ?_⟩
  have := roundNearest_mono p0 p1
  rwa [roundNearest_hundred] at this

end Float64

/-! ## Lemmas: Go maps -/

namespace GoMap

variable {β : Type}

theorem lookup_eq_none_iff (m : GoMap β) (k : String) :
    m.lookup k = none ↔ k ∉ m.map Prod.fst := by
  induction m with
  | nil => simp
  | cons e m ih =>
    obtain ⟨k0, v⟩ := e
    simp only [List.lookup_cons, List.map_cons, List.mem_cons, not_or]
    by_cases h : k = k0
    · subst h; simp
    · have : (k == k0) = false := by simpa using h
      rw [this]; simp [ih, h]

theorem lookup_isSome_iff (m : GoMap β) (k : String) :
    (∃ v, m.lookup k = some v) ↔ k ∈ m.map Prod.fst := by
  rw [← not_iff_not, ← lookup_eq_none_iff]
  cases m.lookup k <;> simp

theorem keys_update (m : GoMap β) (k : String) (zero : β) (f : β → β) :
    (update m k zero f).map Prod.fst =
      if k ∈ m.map Prod.fst then m.map Prod.fst else m.map Prod.fst ++ [k] := by
  induction m with
  | nil => simp [update]
  | cons e m ih =>
    obtain ⟨k0, v⟩ := e
    unfold update
    by_cases h : k0 = k
    · subst h; simp
    · have h' : ¬ k = k0 := fun e => h e.symm
      simp only [h, if_false, List.map_cons, ih, List.mem_cons, h', false_or]
      split_ifs <;> simp

theorem lookup_update (m : GoMap β) (k : String) (zero : β) (f : β → β) (k' : String) :
    (update m k zero f).lookup k' =
      if k' = k then some (f ((m.lookup k).getD zero)) else m.lookup k' := by
  induction m with
  | nil =>
    by_cases h : k' = k
    · subst h; simp [update]
    · have : (k' == k) = false := by simpa using h
      simp [update, h, List.lookup_cons, this]
  | cons e m ih =>
    obtain ⟨k0, v⟩ := e
    unfold update
    by_cases h : k0 = k
    · subst h
      by_cases h2 : k' = k0
      · subst h2; simp
      · have : (k' == k0) = false := by simpa using h2
        simp [List.lookup_cons, this, h2]
    · have hk : (k == k0) = false := by simpa using fun e : k = k0 => h e.symm
      simp only [h, if_false, List.lookup_cons, ih, hk]
      by_cases h2 : k' = k0
      · subst h2
        have : ¬ k' = k := h
        simp [this]
      · have : (k' == k0) = false := by simpa using h2
        simp [this]

theorem nodup_keys_update (m : GoMap β) (k : String) (zero : β) (f : β → β)
    (h : (m.map Prod.fst).Nodup) : ((update m k zero f).map Prod.fst).Nodup := by
  rw [keys_update]
  split_ifs with hk
  · exact h
  · exact List.Nodup.append h (List.nodup_singleton k) (by simpa using hk)

theorem mem_keys_update (m : GoMap β) (k : String) (zero : β) (f : β → β) (k' : String) :
    k' ∈ (update m k zero f).map Prod.fst ↔ k' ∈ m.map Prod.fst ∨ k' = k := by
  rw [keys_update]
  split_ifs with hk
  · constructor
    · intro h; exact Or.inl h
    · rintro (h | h)
      · exact h
      · subst h; exact hk
  · simp

theorem mem_range (ord : MapOrder) (site : String) (m : GoMap β) (e : String × β) :
    e ∈ range ord site m ↔ m.lookup e.1 = some e.2 := by
  unfold range
  simp only [List.mem_filterMap, Option.map_eq_some']
  constructor
  · rintro ⟨k, _, v, hv, rfl⟩
    exact hv
  · intro h
    refine ⟨e.1, ?_, e.2, h, rfl⟩
    rw [(ord.perm site _).mem_iff]
    exact (lookup_isSome_iff m e.1).mp ⟨e.2, h⟩

theorem range_keys (ord : MapOrder) (site : String) (m : GoMap β) :
    (range ord site m).map Prod.fst = ord.order site (m.map Prod.fst) := by
  unfold range
  have key : ∀ l : List String, (∀ k ∈ l, k ∈ m.map Prod.fst) →
      (l.filterMap (fun k => (m.lookup k).map (fun v => (k, v)))).map Prod.fst = l := by
    intro l
    induction l with
    | nil => intro _; rfl
    | cons k l ih =>
      intro h
      obtain ⟨v, hv⟩ := (lookup_isSome_iff m k).mpr (h k (List.mem_cons_self k l))
      rw [List.filterMap_cons, hv]
      simp only [Option.map_some', List.map_cons]
      rw [ih (fun k' hk' => h k' (List.mem_cons_of_mem k hk'))]
  apply key
  intro k hk
  exact (ord.perm site _).mem_iff.mp hk

theorem nodup_range_keys (ord : MapOrder) (site : String) (m : GoMap β)
    (h : (m.map Prod.fst).Nodup) : ((range ord site m).map Prod.fst).Nodup := by
  rw [range_keys]
  exact (ord.perm site _).nodup_iff.mpr h

end GoMap

/-! ## Lemmas: strings -/

namespace strings

theorem containsChars_iff (l sub : List Char) : containsChars l sub = true ↔ sub <:+: l := by
  induction l with
  | nil =>
    unfold containsChars
    rw [List.infix_nil]
    cases sub <;> simp
  | cons c cs ih =>
    unfold containsChars
    rw [Bool.or_eq_true, ih, List.infix_cons_iff, List.isPrefixOf_iff_prefix]

theorem Contains_iff (s substr : String) : Contains s substr = true ↔ substr.data <:+: s.data :=
  containsChars_iff _ _

end strings

namespace analysis

/-! ## Lemmas: scores -/

theorem foldl_sub_eq {α : Type} (p : α → ℤ) (fs : List α) (s : ℤ) :
    fs.foldl (fun s f => s - p f) s = s - (fs.map p).sum := by
  induction fs generalizing s with
  | nil => simp
  | cons f fs ih => simp only [List.foldl_cons, ih, List.map_cons, List.sum_cons]; ring

theorem sum_map_nonneg {α : Type} (p : α → ℤ) (hp : ∀ f, 0 ≤ p f) (fs : List α) :
    0 ≤ (fs.map p).sum := by
  induction fs with
  | nil => simp
  | cons f fs ih => simp only [List.map_cons, List.sum_cons]; have := hp f; omega

theorem compliancePenalty_nonneg (f : ComplianceFinding) : 0 ≤ compliancePenalty f := by
  unfold compliancePenalty; split_ifs <;> norm_num

theorem taggingPenalty_nonneg (f : TagFinding) : 0 ≤ taggingPenalty f := by
  unfold taggingPenalty; split_ifs <;> norm_num

theorem countSeverity_nonneg (a : SecurityAnalysis) (f : SecurityFinding) (h : CountsNonneg a) :
    CountsNonneg (countSeverity a f) := by
  obtain ⟨h1, h2, h3, h4⟩ := h
  unfold countSeverity CountsNonneg
  split_ifs <;> refine ⟨?_, ?_, ?_, ?_⟩ <;> (try simp only) <;> omega

theorem foldl_countSeverity_nonneg (fs : List SecurityFinding) (a : SecurityAnalysis)
    (h : CountsNonneg a) : CountsNonneg (fs.foldl countSeverity a) := by
  induction fs generalizing a with
  | nil => exact h
  | cons f fs ih => exact ih _ (countSeverity_nonneg a f h)

theorem securityScore_bounds (a : SecurityAnalysis) (h : CountsNonneg a) :
    0 ≤ a.GetSecurityScore ∧ a.GetSecurityScore ≤ 100 := by
  obtain ⟨h1, h2, h3, h4⟩ := h
  unfold SecurityAnalysis.GetSecurityScore
  simp only
  split_ifs <;> constructor <;> omega

theorem costScore_bounds (a : CostAnalysis) : 0 ≤ a.GetCostScore ∧ a.GetCostScore ≤ 100 := by
  unfold CostAnalysis.GetCostScore
  simp only
  split_ifs <;> constructor <;> norm_num

theorem zero_rate (m : ℤ) :
    Float64.mul (Float64.div (Float64.ofInt 0) (Float64.ofInt m)) 100 = 0 := by
  unfold Float64.mul Float64.div Float64.ofInt
  simp [Float64.roundNearest_zero]

theorem analyzeBackup_coverage (a : ComplianceAnalysis) (rs : List Resource)
    (h : a.BackupCoverage = 0) :
    (analyzeBackup a rs).BackupCoverage = 0 ∧
      (analyzeBackup a rs).MonitoringCoverage = a.MonitoringCoverage := by
  unfold analyzeBackup
  simp only [List.length_map]
  split_ifs <;> simp [zero_rate, h]

theorem analyzeMonitoring_coverage (a : ComplianceAnalysis) (rs : List Resource)
    (h : a.MonitoringCoverage = 0) :
    (analyzeMonitoring a rs).MonitoringCoverage = 0 ∧
      (analyzeMonitoring a rs).BackupCoverage = a.BackupCoverage := by
  unfold analyzeMonitoring
  simp only [List.length_map]
  split_ifs <;> simp [zero_rate, h]

theorem analyzeGeoRedundancy_coverage (a : ComplianceAnalysis) (rs : List Resource) :
    (analyzeGeoRedundancy a rs).MonitoringCoverage = a.MonitoringCoverage ∧
      (analyzeGeoRedundancy a rs).BackupCoverage = a.BackupCoverage := by
  unfold analyzeGeoRedundancy
  simp only
  split_ifs <;> simp

theorem AnalyzeCompliance_coverage (rs : List Resource) :
    (AnalyzeCompliance rs).BackupCoverage = 0 ∧ (AnalyzeCompliance rs).MonitoringCoverage = 0 := by
  unfold AnalyzeCompliance
  simp only
  obtain ⟨g1, g2⟩ := analyzeGeoRedundancy_coverage
    (analyzeMonitoring (analyzeBackup ⟨0, 0, []⟩ rs) rs) rs
  obtain ⟨b1, b2⟩ := analyzeBackup_coverage ⟨0, 0, []⟩ rs rfl
  obtain ⟨m1, m2⟩ := analyzeMonitoring_coverage (analyzeBackup ⟨0, 0, []⟩ rs) rs (by rw [b2])
  rw [g1, g2, m1, m2, b1]
  exact ⟨rfl, rfl⟩

theorem coverage_penalty_backup :
    Float64.toInt (Float64.mul (Float64.sub 100 0) (Float64.lit 0.3)) = 30 := by decide!

theorem coverage_penalty_monitoring :
    Float64.toInt (Float64.mul (Float64.sub 100 0) (Float64.lit 0.2)) = 20 := by decide!

theorem complianceScore_of_zero_coverage (a : ComplianceAnalysis) (hb : a.BackupCoverage = 0)
    (hm : a.MonitoringCoverage = 0) :
    a.GetComplianceScore = max 0 (50 - (a.Findings.map compliancePenalty).sum) := by
  unfold ComplianceAnalysis.GetComplianceScore
  simp only [hb, hm, coverage_penalty_backup, coverage_penalty_monitoring, foldl_sub_eq]
  split_ifs <;> omega

/-! ## Lemmas: counters of the tagging analysis -/

theorem missingTagsStep_counts (st : TaggingAnalysis × GoMap (List String)) (res : Resource) :
    (missingTagsStep st res).1.TotalResources = st.1.TotalResources ∧
    (missingTagsStep st res).1.RequiredTags = st.1.RequiredTags ∧
    (missingTagsStep st res).1.Findings = st.1.Findings ∧
    (missingTagsStep st res).1.ComplianceRate = st.1.ComplianceRate ∧
    st.1.TaggedResources ≤ (missingTagsStep st res).1.TaggedResources ∧
    (missingTagsStep st res).1.TaggedResources ≤ st.1.TaggedResources + 1 := by
  unfold missingTagsStep
  simp only
  split_ifs
  · simp
  · cases res.obj "tags" with
    | none => simp
    | some tags =>
      simp only
      split_ifs <;> simp

theorem foldl_missingTagsStep_counts (rs : List Resource)
    (st : TaggingAnalysis × GoMap (List String)) :
    (rs.foldl missingTagsStep st).1.TotalResources = st.1.TotalResources ∧
    (rs.foldl missingTagsStep st).1.RequiredTags = st.1.RequiredTags ∧
    (rs.foldl missingTagsStep st).1.Findings = st.1.Findings ∧
    (rs.foldl missingTagsStep st).1.ComplianceRate = st.1.ComplianceRate ∧
    st.1.TaggedResources ≤ (rs.foldl missingTagsStep st).1.TaggedResources ∧
    (rs.foldl missingTagsStep st).1.TaggedResources ≤ st.1.TaggedResources + rs.length := by
  induction rs generalizing st with
  | nil => simp
  | cons res rs ih =>
    obtain ⟨h1, h2, h3, h6, h4, h5⟩ := missingTagsStep_counts st res
    obtain ⟨i1, i2, i3, i6, i4, i5⟩ := ih (missingTagsStep st res)
    simp only [List.foldl_cons, List.length_cons, Nat.cast_add, Nat.cast_one]
    refine ⟨by rw [i1, h1], by rw [i2, h2], by rw [i3, h3], by rw [i6, h6], by omega, by omega⟩

theorem analyzeMissingTags_counts (ord : MapOrder) (a : TaggingAnalysis) (rs : List Resource) :
    (analyzeMissingTags ord a rs).TotalResources = a.TotalResources ∧
    (analyzeMissingTags ord a rs).ComplianceRate = a.ComplianceRate ∧
    a.TaggedResources ≤ (analyzeMissingTags ord a rs).TaggedResources ∧
    (analyzeMissingTags ord a rs).TaggedResources ≤ a.TaggedResources + rs.length := by
  obtain ⟨i1, _, _, i6, i4, i5⟩ := foldl_missingTagsStep_counts rs (a, [])
  unfold analyzeMissingTags
  exact ⟨i1, i6, i4, i5⟩

theorem analyzeTagConsistency_counts (ord : MapOrder) (a : TaggingAnalysis) (rs : List Resource) :
    (analyzeTagConsistency ord a rs).TotalResources = a.TotalResources ∧
    (analyzeTagConsistency ord a rs).TaggedResources = a.TaggedResources ∧
    (analyzeTagConsistency ord a rs).ComplianceRate = a.ComplianceRate :=
  ⟨rfl, rfl, rfl⟩

theorem analyzeTagValuePatterns_counts (ord : MapOrder) (a : TaggingAnalysis) (rs : List Resource) :
    (analyzeTagValuePatterns ord a rs).TotalResources = a.TotalResources ∧
    (analyzeTagValuePatterns ord a rs).TaggedResources = a.TaggedResources ∧
    (analyzeTagValuePatterns ord a rs).ComplianceRate = a.ComplianceRate := by
  unfold analyzeTagValuePatterns
  simp only
  split_ifs <;> exact ⟨rfl, rfl, rfl⟩

theorem AnalyzeTagging_rate_bounds (ord : MapOrder) (rs : List Resource) :
    0 ≤ (AnalyzeTagging ord rs).ComplianceRate ∧ (AnalyzeTagging ord rs).ComplianceRate ≤ 100 := by
  unfold AnalyzeTagging
  simp only
  set a0 : TaggingAnalysis :=
    { TotalResources := rs.length, TaggedResources := 0, UntaggedResources := 0,
      ComplianceRate := 0, Findings := [],
      RequiredTags := ["environment", "owner", "cost-center", "application"],
      TagValueInconsistencies := [] } with ha0
  obtain ⟨m1, m4, m2, m3⟩ := analyzeMissingTags_counts ord a0 rs
  obtain ⟨c1, c2, c3⟩ := analyzeTagConsistency_counts ord (analyzeMissingTags ord a0 rs) rs
  obtain ⟨v1, v2, v3⟩ := analyzeTagValuePatterns_counts ord
    (analyzeTagConsistency ord (analyzeMissingTags ord a0 rs) rs) rs
  split_ifs with hpos
  · simp only
    rw [v1, c1, m1] at hpos
    rw [v1, v2, c1, c2, m1]
    have h0 : (0 : ℤ) ≤ (analyzeMissingTags ord a0 rs).TaggedResources := m2
    have h1 : (analyzeMissingTags ord a0 rs).TaggedResources ≤ a0.TotalResources := by
      have : a0.TaggedResources + (rs.length : ℤ) = a0.TotalResources := by simp [ha0]
      omega
    exact Float64.percent_bounds h0 h1 hpos
  · rw [v3, c3]
    rw [m4]; norm_num


theorem taggingScore_bounds (a : TaggingAnalysis) (h0 : 0 ≤ a.ComplianceRate)
    (h1 : a.ComplianceRate ≤ 100) : 0 ≤ a.GetTaggingScore ∧ a.GetTaggingScore ≤ 100 := by
  unfold TaggingAnalysis.GetTaggingScore
  simp only [foldl_sub_eq]
  have hs := sum_map_nonneg taggingPenalty taggingPenalty_nonneg a.Findings
  have ht : Float64.toInt a.ComplianceRate ≤ 100 :=
    Float64.toInt_le_of_le_intCast h0 (by simpa using h1)
  split_ifs <;> constructor <;> omega

theorem range_nil {β : Type} (ord : MapOrder) (site : String) :
    GoMap.range ord site ([] : GoMap β) = [] := by
  unfold GoMap.range
  have := ord.perm site []
  simp only [List.map_nil] at this ⊢
  rw [List.perm_nil.mp this]
  rfl

/-! ## Lemmas: the map of tag key spellings -/

theorem variationsOf_nil : VariationsOf [] [] := by
  refine ⟨List.nodup_nil, ?_, ?_⟩
  · intro k; simp
  · intro k variations h; simp at h

theorem variationsOf_step (m : GoMap (GoMap ℤ)) (seen : List String) (t : String)
    (h : VariationsOf m seen) : VariationsOf (countVariation m t) (seen ++ [t]) := by
  obtain ⟨h1, h2, h3⟩ := h
  unfold countVariation
  simp only
  refine ⟨GoMap.nodup_keys_update _ _ _ _ h1, ?_, ?_⟩
  · intro k
    rw [GoMap.mem_keys_update, h2]
    constructor
    · rintro (⟨t', ht', hk⟩ | hk)
      · exact ⟨t', List.mem_append_left _ ht', hk⟩
      · exact ⟨t, by simp, hk.symm⟩
    · rintro ⟨t', ht', hk⟩
      rcases List.mem_append.mp ht' with hs | hs
      · exact Or.inl ⟨t', hs, hk⟩
      · simp only [List.mem_singleton] at hs
        subst hs
        exact Or.inr hk.symm
  · intro k variations hlk
    rw [GoMap.lookup_update] at hlk
    by_cases hk : k = strings.ToLower t
    · rw [if_pos hk] at hlk
      simp only [Option.some.injEq] at hlk
      subst hlk
      -- the old inner map
      have hold : (((m.lookup (strings.ToLower t)).getD []).map Prod.fst).Nodup ∧
          ∀ t', t' ∈ ((m.lookup (strings.ToLower t)).getD []).map Prod.fst ↔
            t' ∈ seen ∧ strings.ToLower t' = k := by
        cases hm : m.lookup (strings.ToLower t) with
        | none =>
          simp only [Option.getD_none, List.map_nil, List.nodup_nil, List.not_mem_nil, false_iff,
            true_and, not_and]
          intro t' ht' hk'
          have := (GoMap.lookup_eq_none_iff m (strings.ToLower t)).mp hm
          rw [h2] at this
          exact this ⟨t', ht', by rw [hk', hk]⟩
        | some old =>
          simp only [Option.getD_some]
          have := h3 (strings.ToLower t) old hm
          rw [← hk] at this
          exact this
      refine ⟨GoMap.nodup_keys_update _ _ _ _ hold.1, ?_⟩
      intro t'
      rw [GoMap.mem_keys_update, hold.2]
      constructor
      · rintro (⟨hs, hk'⟩ | rfl)
        · exact ⟨List.mem_append_left _ hs, hk'⟩
        · exact ⟨by simp, hk.symm⟩
      · rintro ⟨hs, hk'⟩
        rcases List.mem_append.mp hs with hs | hs
        · exact Or.inl ⟨hs, hk'⟩
        · simp only [List.mem_singleton] at hs
          exact Or.inr hs
    · rw [if_neg hk] at hlk
      obtain ⟨n1, n2⟩ := h3 k variations hlk
      refine ⟨n1, ?_⟩
      intro t'
      rw [n2]
      constructor
      · rintro ⟨hs, hk'⟩
        exact ⟨List.mem_append_left _ hs, hk'⟩
      · rintro ⟨hs, hk'⟩
        rcases List.mem_append.mp hs with hs | hs
        · exact ⟨hs, hk'⟩
        · simp only [List.mem_singleton] at hs
          subst hs
          exact absurd hk'.symm hk

theorem variationsOf_foldl (ts : List String) (m : GoMap (GoMap ℤ)) (seen : List String)
    (h : VariationsOf m seen) : VariationsOf (ts.foldl countVariation m) (seen ++ ts) := by
  induction ts generalizing m seen with
  | nil => simpa using h
  | cons t ts ih =>
    have := ih (countVariation m t) (seen ++ [t]) (variationsOf_step m seen t h)
    simpa using this

theorem tagKeyVariations_eq (resources : List Resource) :
    tagKeyVariations resources = (tagKeysOf resources).foldl countVariation [] := by
  unfold tagKeyVariations tagKeysOf
  generalize ([] : GoMap (GoMap ℤ)) = m
  induction resources generalizing m with
  | nil => rfl
  | cons res rs ih =>
    simp only [List.foldl_cons, List.flatMap_cons, List.foldl_append]
    rw [ih]
    cases res.obj "tags" <;> rfl

theorem tagKeyVariations_spec (resources : List Resource) :
    VariationsOf (tagKeyVariations resources) (tagKeysOf resources) := by
  rw [tagKeyVariations_eq]
  simpa using variationsOf_foldl (tagKeysOf resources) [] [] variationsOf_nil

/-- A map with distinct keys has more than one entry exactly when it has two
different keys. -/
theorem one_lt_length_iff (l : List String) (h : l.Nodup) :
    1 < l.length ↔ ∃ t₁ ∈ l, ∃ t₂ ∈ l, t₁ ≠ t₂ := by
  constructor
  · intro hl
    match l, h, hl with
    | a :: b :: rest, h, _ =>
      refine ⟨a, by simp, b, by simp, ?_⟩
      intro hab
      subst hab
      simp at h
  · rintro ⟨t₁, h1, t₂, h2, hne⟩
    match l, h1, h2 with
    | [], h1, _ => simp at h1
    | [a], h1, h2 =>
      simp only [List.mem_singleton] at h1 h2
      exact absurd (h1.trans h2.symm) hne
    | a :: b :: rest, _, _ => simp

theorem forall₂_flatMap_filter {α β γ : Type} (c : α → Bool) (g : α → List β) (key : α → γ)
    (P : β → γ → Prop) (hyes : ∀ e, c e = true → ∃ f, g e = [f] ∧ P f (key e))
    (hno : ∀ e, c e = false → g e = []) (l : List α) :
    List.Forall₂ P (l.flatMap g) ((l.filter c).map key) := by
  induction l with
  | nil => exact List.Forall₂.nil
  | cons e l ih =>
    rw [List.flatMap_cons]
    cases hc : c e with
    | true =>
      obtain ⟨f, hf, hP⟩ := hyes e hc
      rw [hf, List.filter_cons_of_pos hc]
      exact List.Forall₂.cons hP ih
    | false =>
      rw [hno e hc, List.filter_cons_of_neg (by simp [hc])]
      exact ih

theorem range_singleton {β : Type} (ord : MapOrder) (site k : String) (v : β) :
    GoMap.range ord site [(k, v)] = [(k, v)] := by
  unfold GoMap.range
  have := ord.perm site [k]
  simp only [List.map_cons, List.map_nil]
  rw [List.perm_singleton.mp this]
  simp

/-! ## Lemmas: two runs of the tagging analysis -/

theorem taggingPenalty_withoutIssue (f : TagFinding) :
    taggingPenalty f.withoutIssue = taggingPenalty f := rfl

theorem isDangerousPort_iff (portRange : String) :
    isDangerousPort portRange = true ↔ MentionsDangerousPort portRange := by
  unfold isDangerousPort MentionsDangerousPort
  rw [List.any_eq_true]
  constructor
  · rintro ⟨port, hp, hc⟩
    exact ⟨port, hp, (strings.Contains_iff _ _).mp hc⟩
  · rintro ⟨port, hp, hc⟩
    exact ⟨port, hp, (strings.Contains_iff _ _).mpr hc⟩

theorem nsgRuleFindings_open (nsgName : String) (ruleIface : Value) (destPort : String)
    (h : IsOpenInboundRule ruleIface destPort) :
    ∃ f, nsgRuleFindings nsgName ruleIface = [f] ∧ f.Category = "NSG" ∧ f.Resource = nsgName ∧
      (f.Severity = "Critical" ∧ MentionsDangerousPort destPort ∨
        f.Severity = "Medium" ∧ ¬ MentionsDangerousPort destPort) := by
  obtain ⟨rule, ruleProps, h1, h2, h3, h4, h5, h6⟩ := h
  unfold nsgRuleFindings
  simp only [h1, h2, h3, h4, h6, and_self, if_true]
  have h5' : ruleProps.str "sourceAddressPrefix" = "0.0.0.0/0" ∨
      ruleProps.str "sourceAddressPrefix" = "*" ∨ ruleProps.str "sourceAddressPrefix" = "Internet" := by
    rcases h5 with h | h | h
    · exact Or.inr (Or.inl h)
    · exact Or.inl h
    · exact Or.inr (Or.inr h)
  rw [if_pos h5']
  refine ⟨_, rfl, rfl, rfl, ?_⟩
  by_cases hd : isDangerousPort destPort = true
  · left
    exact ⟨by simp [hd], (isDangerousPort_iff _).mp hd⟩
  · right
    refine ⟨by simp [hd], fun hm => hd ((isDangerousPort_iff _).mpr hm)⟩

theorem nsgRules_forall₂ (nsgName : String) (rules : List Value) (ports : List String)
    (h : List.Forall₂ IsOpenInboundRule rules ports) :
    List.Forall₂
      (fun f destPort => f.Category = "NSG" ∧ f.Resource = nsgName ∧
        (f.Severity = "Critical" ∧ MentionsDangerousPort destPort ∨
          f.Severity = "Medium" ∧ ¬ MentionsDangerousPort destPort))
      (rules.flatMap (nsgRuleFindings nsgName)) ports := by
  induction h with
  | nil => exact List.Forall₂.nil
  | cons hr _ ih =>
    obtain ⟨f, hf, hP⟩ := nsgRuleFindings_open nsgName _ _ hr
    rw [List.flatMap_cons, hf]
    exact List.Forall₂.cons hP ih

/-! ## Lemmas: orphaned disks -/

theorem mem_attachedDisks (resources : List Resource) (id : String) :
    id ∈ attachedDisks resources ↔ IsOSDiskOfSomeVM resources id := by
  unfold attachedDisks IsOSDiskOfSomeVM
  simp [List.mem_filterMap]

theorem orphanedDiskFindings_eq (attached : List String) (l : List Resource) :
    l.flatMap (orphanedDiskFindings attached) =
      (l.filter (fun res => decide (typeOf res = "microsoft.compute/disks" ∧
          res.str "id" ∉ attached))).map
        (fun res =>
          { Severity := "Medium"
            Category := "Orphaned"
            Resource := res.str "name"
            Issue := "Disk is not attached to any VM"
            CurrentCost := Float64.mul (Float64.ofInt (orphanDiskSize res)) (Float64.lit 0.12)
            PotentialSavings := Float64.mul (Float64.ofInt (orphanDiskSize res)) (Float64.lit 0.12)
            Remediation := "Delete orphaned disk or attach to a VM if needed" }) := by
  induction l with
  | nil => rfl
  | cons res l ih =>
    rw [List.flatMap_cons, ih]
    unfold orphanedDiskFindings
    by_cases h1 : typeOf res = "microsoft.compute/disks"
    · by_cases h2 : res.str "id" ∈ attached
      · simp [h1, h2]
      · simp [h1, h2]
    · simp [h1]

theorem filter_eq_self_of_forall {α : Type} (p : α → Bool) (l : List α) (h : ∀ x ∈ l, p x = true) :
    l.filter p = l := List.filter_eq_self.mpr h

theorem filter_eq_nil_of_forall {α : Type} (p : α → Bool) (l : List α)
    (h : ∀ x ∈ l, p x = false) : l.filter p = [] := by
  apply List.filter_eq_nil_iff.mpr
  intro x hx
  simp [h x hx]

theorem orphanedDisk_all (attached : List String) (l : List Resource) :
    ∀ f ∈ l.flatMap (orphanedDiskFindings attached), decide (IsOrphanedDiskFinding f) = true := by
  intro f hf
  rw [orphanedDiskFindings_eq] at hf
  obtain ⟨res, _, rfl⟩ := List.mem_map.mp hf
  simp [IsOrphanedDiskFinding]

theorem orphanedPublicIP_none (used : List String) (l : List Resource) :
    ∀ f ∈ l.flatMap (orphanedPublicIPFindings used), decide (IsOrphanedDiskFinding f) = false := by
  intro f hf
  obtain ⟨res, _, hres⟩ := List.mem_flatMap.mp hf
  unfold orphanedPublicIPFindings at hres
  simp only at hres
  split_ifs at hres
  · simp at hres
  · simp at hres
  · simp only [List.mem_singleton] at hres
    subst hres
    simp [IsOrphanedDiskFinding]

theorem idle_none (l : List Resource) :
    ∀ f ∈ l.flatMap idleFindings, decide (IsOrphanedDiskFinding f) = false := by
  intro f hf
  obtain ⟨res, _, hres⟩ := List.mem_flatMap.mp hf
  unfold idleFindings at hres
  split_ifs at hres
  · cases hp : res.obj "properties" with
    | none => simp [hp] at hres
    | some props =>
      simp only [hp, List.mem_singleton] at hres
      subst hres
      simp [IsOrphanedDiskFinding]
  · simp at hres

theorem oversized_none (l : List Resource) :
    ∀ f ∈ l.flatMap oversizedFindings, decide (IsOrphanedDiskFinding f) = false := by
  intro f hf
  obtain ⟨res, _, hres⟩ := List.mem_flatMap.mp hf
  unfold oversizedFindings at hres
  split_ifs at hres
  · cases hp : res.obj "properties" with
    | none => simp [hp] at hres
    | some props =>
      simp only [hp] at hres
      split_ifs at hres
      · simp only [List.mem_singleton] at hres
        subst hres
        simp [IsOrphanedDiskFinding]
      · simp at hres
  · simp at hres

theorem storageTier_none (l : List Resource) :
    ∀ f ∈ l.flatMap storageTierFindings, decide (IsOrphanedDiskFinding f) = false := by
  intro f hf
  obtain ⟨res, _, hres⟩ := List.mem_flatMap.mp hf
  unfold storageTierFindings at hres
  split_ifs at hres
  · cases hp : res.obj "properties" with
    | none => simp [hp] at hres
    | some props =>
      simp only [hp] at hres
      split_ifs at hres
      · simp only [List.mem_singleton] at hres
        subst hres
        simp [IsOrphanedDiskFinding]
      · simp at hres
  · simp at hres

theorem AnalyzeCost_findings (resources : List Resource) :
    (AnalyzeCost resources).Findings =
      resources.flatMap (orphanedDiskFindings (attachedDisks resources)) ++
      resources.flatMap (orphanedPublicIPFindings (usedPublicIPs resources)) ++
      resources.flatMap idleFindings ++ resources.flatMap oversizedFindings ++
      resources.flatMap storageTierFindings := by
  simp [AnalyzeCost, estimateTotalCost, analyzeStorageTiers, analyzeOversizedResources,
    analyzeIdleResources, analyzeOrphanedResources]

end analysis
/-! ## The claims -/

namespace analysis

open sample

/-- C1: for every resource list (and every iteration order of the maps of the tagging
analysis) the security, cost, compliance and tagging scores of the analyzers' results
are integers between 0 and 100, however many findings the list produces. -/
theorem C1_scores_between_0_and_100 (ord : MapOrder) (resources : List Resource) :
    (0 ≤ (AnalyzeSecurity resources).GetSecurityScore ∧
      (AnalyzeSecurity resources).GetSecurityScore ≤ 100) ∧
    (0 ≤ (AnalyzeCost resources).GetCostScore ∧ (AnalyzeCost resources).GetCostScore ≤ 100) ∧
    (0 ≤ (AnalyzeCompliance resources).GetComplianceScore ∧
      (AnalyzeCompliance resources).GetComplianceScore ≤ 100) ∧
    (0 ≤ (AnalyzeTagging ord resources).GetTaggingScore ∧
      (AnalyzeTagging ord resources).GetTaggingScore ≤ 100) := by
  refine ⟨?_, costScore_bounds _, ?_, ?_⟩
  · apply securityScore_bounds
    unfold AnalyzeSecurity
    apply foldl_countSeverity_nonneg
    exact ⟨le_refl _, le_refl _, le_refl _, le_refl _⟩
  · obtain ⟨hb, hm⟩ := AnalyzeCompliance_coverage resources
    rw [complianceScore_of_zero_coverage _ hb hm]
    have hs := sum_map_nonneg compliancePenalty compliancePenalty_nonneg
      (AnalyzeCompliance resources).Findings
    constructor
    · exact le_max_left _ _
    · exact max_le (by norm_num) (by omega)
  · obtain ⟨h0, h1⟩ := AnalyzeTagging_rate_bounds ord resources
    exact taggingScore_bounds _ h0 h1

/-- C2, the code at the empty resource list: `AnalyzeCompliance` returns no finding,
and `GetComplianceScore` returns 50, not 100: both coverages stay at their zero value
and cost 30 and 20 points. -/
theorem C2_empty_compliance_score_is_50 :
    (AnalyzeCompliance []).Findings = [] ∧ (AnalyzeCompliance []).BackupCoverage = 0 ∧
    (AnalyzeCompliance []).MonitoringCoverage = 0 ∧
    (AnalyzeCompliance []).GetComplianceScore = 50 := by
  decide!

/-- C3, the code at the empty resource list: `AnalyzeTagging` returns no finding, in
every iteration order, and `GetTaggingScore` returns 0, not 100: the compliance rate
stays at its zero value. -/
theorem C3_empty_tagging_score_is_0 (ord : MapOrder) :
    (AnalyzeTagging ord []).Findings = [] ∧ (AnalyzeTagging ord []).ComplianceRate = 0 ∧
    (AnalyzeTagging ord []).GetTaggingScore = 0 := by
  have h : AnalyzeTagging ord [] =
      ⟨0, 0, 0, 0, [], ["environment", "owner", "cost-center", "application"], []⟩ := by
    simp [AnalyzeTagging, analyzeMissingTags, analyzeTagConsistency, analyzeTagValuePatterns,
      tagKeyVariations, envValues, range_nil]
  rw [h]
  exact ⟨rfl, rfl, by decide!⟩

/-- C4: for the empty resource list `AnalyzeSecurity` and `AnalyzeCost` return no
finding and their scores are 100; the total monthly cost is 0 and the cost score is
returned before the division by it. -/
theorem C4_empty_security_and_cost (a : CostAnalysis) :
    (AnalyzeSecurity []).Findings = [] ∧ (AnalyzeSecurity []).GetSecurityScore = 100 ∧
    (AnalyzeCost []).Findings = [] ∧ (AnalyzeCost []).TotalMonthlyCost = 0 ∧
    (AnalyzeCost []).GetCostScore = 100 ∧
    ({ a with TotalMonthlyCost := 0 } : CostAnalysis).GetCostScore = 100 := by
  refine ⟨by decide, by decide, by decide!, by decide!, by decide!, ?_⟩
  unfold CostAnalysis.GetCostScore
  simp

/-- C5, the code at the failing input: a network security group with five inbound Allow
rules from `*`.  The rules on ports `22` and `8080` get a Critical and a Medium finding.
The rule on port `2222`, which is none of the dangerous ports, gets a Critical finding:
`isDangerousPort` looks for the port numbers as substrings of the text, and `2222`
contains `22`.  The rules on `*` and on `20-25`, which open port 22, get Medium
findings. -/
theorem C5_port_2222_is_critical :
    "2222" ∉ dangerousPorts ∧ isDangerousPort "2222" = true ∧
    isDangerousPort "*" = false ∧ isDangerousPort "20-25" = false ∧
    ((analyzeNSGRules ⟨0, 0, 0, 0, []⟩
      [nsg "nsg1"
        [ nsgRule "ssh" "Inbound" "Allow" "*" "22", nsgRule "web" "Inbound" "Allow" "*" "8080",
          nsgRule "alt-ssh" "Inbound" "Allow" "*" "2222",
          nsgRule "any" "Inbound" "Allow" "*" "*",
          nsgRule "low" "Inbound" "Allow" "*" "20-25" ]]).Findings.map
        (fun f => f.Severity)) = ["Critical", "Medium", "Critical", "Medium", "Medium"] := by
  decide

/-- C6, amended: for every resource list the orphaned-disk findings of `AnalyzeCost`
are, in list order, one per disk record whose id is not the OS managed-disk id of any
VM of the list, and none for the other disks; each is named after its disk and has
`CurrentCost = PotentialSavings = n * 0.12`, where `n` is `int(diskSizeGB)`: the disk's
`diskSizeGB` truncated to an integer when it lies within the 64-bit range, or 128 when
the record gives no numeric `diskSizeGB`.  With one VM on `D1` and an unreferenced disk
`D2` of 256 GB there is exactly one such finding, for `D2`, at 30.72. -/
theorem C6_orphaned_disk_findings (resources : List Resource) :
    (AnalyzeCost resources).Findings.filter (fun f => decide (IsOrphanedDiskFinding f)) =
      (resources.filter (fun res => decide (IsOrphanedDisk resources res))).map
        (fun res =>
          { Severity := "Medium"
            Category := "Orphaned"
            Resource := res.str "name"
            Issue := "Disk is not attached to any VM"
            CurrentCost := Float64.mul (Float64.ofInt (orphanDiskSize res)) (Float64.lit 0.12)
            PotentialSavings := Float64.mul (Float64.ofInt (orphanDiskSize res)) (Float64.lit 0.12)
            Remediation := "Delete orphaned disk or attach to a VM if needed" }) ∧
    (∀ (res props : Object) (size : ℚ), res.obj "properties" = some props →
      props.index "diskSizeGB" = Value.number size →
      -(2 : ℚ) ^ 63 ≤ size → size < (2 : ℚ) ^ 63 →
      orphanDiskSize res = if 0 ≤ size then ⌊size⌋ else ⌈size⌉) ∧
    (∀ (res props : Object), res.obj "properties" = some props →
      (props.index "diskSizeGB").asFloat64 = none → orphanDiskSize res = 128) ∧
    (∀ res : Resource, res.obj "properties" = none → orphanDiskSize res = 128) ∧
    ((AnalyzeCost orphanInventory).Findings.filter
        (fun f => decide (IsOrphanedDiskFinding f))).map
      (fun f => (f.Resource, f.CurrentCost, f.PotentialSavings))
      = [("disk2", Float64.lit 30.72, Float64.lit 30.72)] := by
  refine ⟨?_, ?_, ?_, ?_, ?_⟩
  · rw [AnalyzeCost_findings]
    simp only [List.filter_append]
    rw [filter_eq_self_of_forall _ _ (orphanedDisk_all _ _),
      filter_eq_nil_of_forall _ _ (orphanedPublicIP_none _ _),
      filter_eq_nil_of_forall _ _ (idle_none _),
      filter_eq_nil_of_forall _ _ (oversized_none _),
      filter_eq_nil_of_forall _ _ (storageTier_none _)]
    simp only [List.append_nil]
    rw [orphanedDiskFindings_eq]
    congr 1
    apply List.filter_congr
    intro res _
    unfold IsOrphanedDisk
    simp only [mem_attachedDisks]
  · intro res props size hp hs hlo hhi
    have hrange : -(2 : ℤ) ^ 63 ≤ Float64.toInt size ∧ Float64.toInt size < (2 : ℤ) ^ 63 := by
      unfold Float64.toInt
      split_ifs with h0
      · constructor
        · exact le_trans (by norm_num) (Int.floor_nonneg.mpr h0)
        · rw [Int.floor_lt]; exact_mod_cast hhi
      · constructor
        · have h1 : ((-(2 : ℤ) ^ 63 : ℤ) : ℚ) ≤ ((⌈size⌉ : ℤ) : ℚ) :=
            le_trans (by push_cast; exact hlo) (Int.le_ceil size)
          exact_mod_cast h1
        · have h2 : ⌈size⌉ ≤ 0 := Int.ceil_le.mpr (by push_cast; exact le_of_lt (not_le.mp h0))
          exact lt_of_le_of_lt h2 (by norm_num)
    unfold orphanDiskSize
    simp only [hp, hs, Value.asFloat64, Float64.toInt64, hrange, and_self, if_true]
    rfl
  · intro res props hp hs
    unfold orphanDiskSize
    simp [hp, hs]
  · intro res hp
    unfold orphanDiskSize
    simp [hp]
  · decide!

/-- C6, counterexample: the unreferenced disk has `diskSizeGB` 256.5; its finding costs
30.72 (256 * 0.12), not 256.5 * 0.12.  A disk whose `diskSizeGB` is 10^19, beyond the
64-bit range, gets a finding of negative cost. -/
theorem C6_counterexample :
    ((AnalyzeCost fractionalDiskInventory).Findings.filter
        (fun f => decide (IsOrphanedDiskFinding f))).map (fun f => (f.Resource, f.CurrentCost))
      = [("disk2", Float64.lit 30.72)] ∧
    Float64.mul (513 / 2) (Float64.lit 0.12) ≠ Float64.lit 30.72 ∧
    ((AnalyzeCost hugeDiskInventory).Findings.filter
        (fun f => decide (IsOrphanedDiskFinding f))).map (fun f => (f.Resource, f.CurrentCost))
      = [("disk3", Float64.mul (Float64.ofInt (-(2 : ℤ) ^ 63)) (Float64.lit 0.12))] ∧
    Float64.mul (Float64.ofInt (-(2 : ℤ) ^ 63)) (Float64.lit 0.12) < 0 := by
  decide!

/-- C7: in every iteration order, `analyzeTagConsistency` adds exactly one key-casing
finding (severity Low, category Inconsistent, recommending the lower-cased key) per
lower-cased tag key that occurs with two or more distinct spellings across the
resource list, and none for any other key: the added findings match, one to one, a
duplicate-free list of exactly those keys.  For two resources tagged
`Environment=prod` and `environment=prod` exactly one finding is added, and so for the
keys `Ünit` and `ünit`. -/
theorem C7_one_finding_per_inconsistent_key (ord : MapOrder) (a : TaggingAnalysis)
    (resources : List Resource) :
    (∃ (ks : List String) (new : List TagFinding),
      (analyzeTagConsistency ord a resources).Findings = a.Findings ++ new ∧
      ks.Nodup ∧ (∀ k, k ∈ ks ↔ HasTwoSpellings resources k) ∧
      List.Forall₂
        (fun f k => f.Severity = "Low" ∧ f.Category = "Inconsistent" ∧
          f.Remediation = "Standardize to single format (recommended: '" ++ k ++ "')")
        new ks) ∧
    (analyzeTagConsistency ord a
      [tagged "a" "Environment" "prod", tagged "b" "environment" "prod"]).Findings.length
      = a.Findings.length + 1 ∧
    (analyzeTagConsistency ord a
      [tagged "a" "Ünit" "x", tagged "b" "ünit" "x"]).Findings.length
      = a.Findings.length + 1 := by
  refine ⟨?_, ?_, ?_⟩
  · obtain ⟨h1, h2, h3⟩ := tagKeyVariations_spec resources
    set R := GoMap.range ord "tagKeyVariations" (tagKeyVariations resources) with hR
    refine ⟨(R.filter (fun e => decide (1 < e.2.length))).map Prod.fst,
      R.flatMap (tagConsistencyFinding ord), rfl, ?_, ?_, ?_⟩
    · have hn : (R.map Prod.fst).Nodup := GoMap.nodup_range_keys ord _ _ h1
      exact hn.sublist ((List.filter_sublist R).map Prod.fst)
    · intro k
      simp only [List.mem_map, List.mem_filter, decide_eq_true_eq]
      constructor
      · rintro ⟨⟨k', variations⟩, ⟨hmem, hlen⟩, rfl⟩
        have hlk := (GoMap.mem_range ord _ _ _).mp hmem
        obtain ⟨n1, n2⟩ := h3 k' variations hlk
        simp only at hlen
        rw [← List.length_map variations Prod.fst] at hlen
        obtain ⟨t₁, m1, t₂, m2, hne⟩ := (one_lt_length_iff _ n1).mp hlen
        exact ⟨t₁, ((n2 t₁).mp m1).1, t₂, ((n2 t₂).mp m2).1, hne, ((n2 t₁).mp m1).2,
          ((n2 t₂).mp m2).2⟩
      · rintro ⟨t₁, m1, t₂, m2, hne, e1, e2⟩
        have hk : k ∈ (tagKeyVariations resources).map Prod.fst := (h2 k).mpr ⟨t₁, m1, e1⟩
        obtain ⟨variations, hlk⟩ := (GoMap.lookup_isSome_iff _ k).mpr hk
        obtain ⟨n1, n2⟩ := h3 k variations hlk
        refine ⟨(k, variations), ⟨(GoMap.mem_range ord _ _ _).mpr hlk, ?_⟩, rfl⟩
        simp only
        rw [← List.length_map variations Prod.fst]
        exact (one_lt_length_iff _ n1).mpr
          ⟨t₁, (n2 t₁).mpr ⟨m1, e1⟩, t₂, (n2 t₂).mpr ⟨m2, e2⟩, hne⟩
    · apply forall₂_flatMap_filter
      · intro e he
        simp only [decide_eq_true_eq] at he
        unfold tagConsistencyFinding
        simp only [he, if_true]
        exact ⟨_, rfl, rfl, rfl, rfl⟩
      · intro e he
        simp only [decide_eq_false_iff_not] at he
        unfold tagConsistencyFinding
        simp only [he, if_false]
  · have hm : tagKeyVariations [tagged "a" "Environment" "prod", tagged "b" "environment" "prod"]
        = [("environment", [("Environment", 1), ("environment", 1)])] := by decide
    unfold analyzeTagConsistency
    simp only [hm, range_singleton, List.flatMap_cons, List.flatMap_nil, List.append_nil,
      List.length_append]
    rfl
  · have hm : tagKeyVariations [tagged "a" "Ünit" "x", tagged "b" "ünit" "x"]
        = [("ünit", [("Ünit", 1), ("ünit", 1)])] := by decide!
    unfold analyzeTagConsistency
    simp only [hm, range_singleton, List.flatMap_cons, List.flatMap_nil, List.append_nil,
      List.length_append]
    rfl

end analysis

namespace renderer

open sample

/-- C8, the code at the failing input: for a VNet whose resource group holds a
Function App and a storage account and no AI connections, the document has the
fallback edge `conn-func-storage-0` before the cell `cell-storage-0` it targets, so
not every edge refers to earlier cells. -/
theorem C8_function_app_edge_refers_forward :
    ∃ d ∈ generateVNetDiagram MapOrder.listed vnet1 functionAppInventory [],
      d.Cells.map (fun c => (c.ID, c.Edge, c.Source, c.Target)) =
        [("0", "", "", ""), ("1", "", "", ""), ("cell-vnet1", "", "", ""),
          ("cell-func-0", "", "", ""),
          ("cell-edge-conn-func-storage-0", "1", "cell-func-0", "cell-storage-0"),
          ("cell-storage-0", "", "", "")] ∧
      ¬ EdgesReferToEarlier d.Cells :=
  ⟨(generateVNetDiagram MapOrder.listed vnet1 functionAppInventory []).get (by decide!),
    Option.get_mem _, by decide!, by decide!⟩

/-- C9, the code at the failing input: for a VNet whose resource group holds two VMs,
both VM icons are vertices of parent `1` at `(200, 300)`, so two sibling vertices
share their coordinates. -/
theorem C9_two_vms_share_a_place :
    ∃ d ∈ generateVNetDiagram MapOrder.listed vnet1 twoVMInventory [],
      d.Cells.map (fun c => (c.ID, c.Vertex, c.Parent, c.place)) =
        [("0", "", "", none), ("1", "", "0", none), ("cell-vnet1", "1", "1", some (50, 50)),
          ("cell-vm-0", "1", "1", some (200, 300)), ("cell-vm-1", "1", "1", some (200, 300))] ∧
      ¬ NoSiblingsAtSamePlace d.Cells :=
  ⟨(generateVNetDiagram MapOrder.listed vnet1 twoVMInventory []).get (by decide!),
    Option.get_mem _, by decide!, by decide!⟩

end renderer

namespace analysis

open sample

end analysis

/-! ## Lemmas: the document of a small VNet -/

namespace renderer

open analysis (Resource)

theorem filterByType_related (all : List Resource) (rg resourceType : String) :
    filterByType (filterByResourceGroup all rg) resourceType =
      filterByResourceGroup (filterByType all resourceType) rg := by
  unfold filterByType filterByResourceGroup
  rw [List.filter_filter, List.filter_filter]
  congr 1
  funext res
  exact Bool.and_comm _ _

theorem related_none (all : List Resource) (rg resourceType : String)
    (h : namesOfType all resourceType = []) :
    filterByType (filterByResourceGroup all rg) resourceType = [] := by
  rw [filterByType_related]
  unfold namesOfType at h
  rw [List.map_eq_nil_iff] at h
  rw [h]
  rfl

theorem only_of_names (all : List Resource) (rg resourceType name : String)
    (h : namesOfType all resourceType = [(some name, some rg)]) :
    ∃ res, filterByType all resourceType = [res] ∧
      (res.index "name").asString = some name ∧
      filterByType (filterByResourceGroup all rg) resourceType = [res] := by
  unfold namesOfType at h
  rw [filterByType_related]
  match hl : filterByType all resourceType, h with
  | [], h => simp at h
  | _ :: _ :: _, h => simp at h
  | [res], h =>
    simp only [List.map_cons, List.map_nil, List.cons.injEq, Prod.mk.injEq, and_true] at h
    refine ⟨res, rfl, h.1, ?_⟩
    simp [filterByResourceGroup, h.2]


theorem addLane_nil (idPrefix iconType : String) (x step : Float64) (i : ℕ) (y : Float64)
    (d : DrawIODiagram) (ids : GoMap String) :
    addLane idPrefix iconType x step [] i y d ids = some (d, ids) := rfl

theorem addLane_single (idPrefix iconType : String) (x step : Float64) (res : Resource)
    (name : String) (h : (res.index "name").asString = some name) (i : ℕ) (y : Float64)
    (d : DrawIODiagram) (ids : GoMap String) :
    addLane idPrefix iconType x step [res] i y d ids =
      some ((d.AddAzureIcon (idPrefix ++ "-" ++ toString i) name iconType x y).1,
        setKey ids name (d.AddAzureIcon (idPrefix ++ "-" ++ toString i) name iconType x y).2) := by
  simp only [addLane, h]


theorem vnetDiagram_cells (ord : MapOrder) (vnet : Resource) (all : List Resource)
    (vnetName rg nsgName vmName nicName : String) (s₁ s₂ : Subnet)
    (hname : (vnet.index "name").asString = some vnetName)
    (hrg : (vnet.index "resourceGroup").asString = some rg)
    (hsub : extractSubnets vnet = [s₁, s₂])
    (hnsg : namesOfType all "microsoft.network/networksecuritygroups" = [(some nsgName, some rg)])
    (hvm : namesOfType all "microsoft.compute/virtualmachines" = [(some vmName, some rg)])
    (hnic : namesOfType all "microsoft.network/networkinterfaces" = [(some nicName, some rg)])
    (hrt : namesOfType all "microsoft.network/routetables" = [])
    (hlb : namesOfType all "microsoft.network/loadbalancers" = [])
    (hnat : namesOfType all "microsoft.network/natgateways" = [])
    (hpip : namesOfType all "microsoft.network/publicipaddresses" = [])
    (hfunc : namesOfType all "microsoft.web/sites" = [])
    (hst : namesOfType all "microsoft.storage/storageaccounts" = [])
    (hc : strings.Contains nicName (strings.SplitHyphenFirst vmName) = true) :
    ∃ d, generateVNetDiagram ord vnet all [] = some d ∧
      d.Cells.map (fun c => (c.ID, c.Value, c.Style, c.Edge, c.Source, c.Target)) =
        [ ("0", "", "", "", "", ""), ("1", "", "", "", "", ""),
          ("cell-" ++ vnetName, "Virtual Network: " ++ vnetName ++ "\nResource Group: " ++ rg,
            containerStyle "vnet", "", "", ""),
          ("cell-subnet-0", "Subnet: " ++ s₁.name ++ "\n" ++ s₁.addressPrefix,
            containerStyle "subnet", "", "", ""),
          ("cell-subnet-1", "Subnet: " ++ s₂.name ++ "\n" ++ s₂.addressPrefix,
            containerStyle "subnet", "", "", ""),
          ("cell-nsg-0", nsgName, iconStyle "nsg", "", "", ""),
          ("cell-vm-0", vmName, iconStyle "vm", "", "", ""),
          ("cell-nic-0", nicName, iconStyle "nic", "", "", ""),
          ("cell-edge-conn-nic-vm-0", "attached to", connectionStyle "association", "1",
            "cell-nic-0", "cell-vm-0") ] := by
  obtain ⟨nsg, -, hnsgName, hnsgs⟩ := only_of_names all rg _ nsgName hnsg
  obtain ⟨vm, -, hvmName, hvms⟩ := only_of_names all rg _ vmName hvm
  obtain ⟨nic, -, hnicName, hnics⟩ := only_of_names all rg _ nicName hnic
  have hrts := related_none all rg _ hrt
  have hlbs := related_none all rg _ hlb
  have hnats := related_none all rg _ hnat
  have hpips := related_none all rg _ hpip
  have hfuncs := related_none all rg _ hfunc
  have hsts := related_none all rg _ hst
  unfold generateVNetDiagram
  simp only [hname, hrg, hsub, hnsgs, hvms, hnics, hrts, hlbs, hnats, hpips, hfuncs, hsts,
    Option.bind_eq_bind, Option.some_bind, addLane, addSubnets, addVMs, addNICs, addFuncApps,
    hnsgName, hvmName, hnicName, Option.pure_def]
  have hmap : GoMap.range ord ("vmIDMap:" ++ toString 0) (setKey [] vmName "cell-vm-0")
      = [(vmName, "cell-vm-0")] := analysis.range_singleton ord _ vmName "cell-vm-0"
  have e1 : "cell-" ++ ("subnet-" ++ toString 0) = "cell-subnet-0" := by decide
  have e2 : "cell-" ++ ("subnet-" ++ toString (0 + 1)) = "cell-subnet-1" := by decide
  have e3 : "cell-" ++ ("nsg" ++ "-" ++ toString 0) = "cell-nsg-0" := by decide
  have e4 : "cell-" ++ ("vm-" ++ toString 0) = "cell-vm-0" := by decide
  have e5 : "cell-" ++ ("nic-" ++ toString 0) = "cell-nic-0" := by decide
  have e6 : "cell-edge-" ++ ("conn-nic-vm-" ++ toString 0) = "cell-edge-conn-nic-vm-0" := by
    decide
  simp only [DrawIODiagram.AddAzureIcon, DrawIODiagram.AddAzureContainer,
    DrawIODiagram.AddConnection, DrawIODiagram.appendCell, NewDrawIODiagram, e1, e2, e3, e4, e5,
    e6, List.length_nil, lt_irrefl, if_false, decide_True, if_true, hmap, connectNIC,
    List.foldl_cons, List.foldl_nil, hc]
  exact ⟨_, rfl, rfl⟩


theorem none_of_names (all : List Resource) (resourceType : String)
    (h : namesOfType all resourceType = []) : filterByType all resourceType = [] := by
  unfold namesOfType at h
  exact List.map_eq_nil_iff.mp h

theorem overviewDiagram_cells (all : List Resource) (vnetName rg nsgName : String)
    (hvnet : namesOfType all "microsoft.network/virtualnetworks" = [(some vnetName, some rg)])
    (hnsg : namesOfType all "microsoft.network/networksecuritygroups" = [(some nsgName, some rg)])
    (hrt : namesOfType all "microsoft.network/routetables" = [])
    (hlb : namesOfType all "microsoft.network/loadbalancers" = [])
    (hnat : namesOfType all "microsoft.network/natgateways" = [])
    (hpip : namesOfType all "microsoft.network/publicipaddresses" = []) :
    ∃ o, generateOverviewDiagram all = some o ∧
      o.Cells.map (fun c => (c.ID, c.Value, c.Style, c.Edge, c.Source, c.Target)) =
        [ ("0", "", "", "", "", ""), ("1", "", "", "", "", ""),
          ("cell-title", "Azure Subscription Overview",
            "text;html=1;strokeColor=none;fillColor=none;align=center;verticalAlign=middle;whiteSpace=wrap;rounded=0;fontSize=20;fontStyle=1",
            "", "", ""),
          ("cell-vnet-0", vnetName, iconStyle "vnet", "", "", ""),
          ("cell-nsg-label", "Network Security Groups (1)", sectionLabelStyle, "", "", ""),
          ("cell-nsg-0", nsgName, iconStyle "nsg", "", "", "") ] := by
  obtain ⟨v, hvs, hvName, -⟩ := only_of_names all rg _ vnetName hvnet
  obtain ⟨nsg, hnsgs, hnsgName, -⟩ := only_of_names all rg _ nsgName hnsg
  have hrts := none_of_names all _ hrt
  have hlbs := none_of_names all _ hlb
  have hnats := none_of_names all _ hnat
  have hpips := none_of_names all _ hpip
  unfold generateOverviewDiagram
  have e1 : "cell-" ++ ("vnet-" ++ toString 0) = "cell-vnet-0" := by decide
  have e2 : "cell-" ++ ("nsg" ++ "-label") = "cell-nsg-label" := by decide
  have e3 : "cell-" ++ ("nsg" ++ "-" ++ toString 0) = "cell-nsg-0" := by decide
  have e4 : "Network Security Groups" ++ " (" ++ toString 1 ++ ")"
      = "Network Security Groups (1)" := by decide
  have e6 : "cell-" ++ "title" = "cell-title" := by decide
  have e7 : ¬ 2 ≤ 1 := by decide
  have e5 : ¬ (0 + 1) % 10 = 0 := by decide
  simp only [hvs, hnsgs, hrts, hlbs, hnats, hpips, Option.bind_eq_bind, Option.some_bind,
    addOverviewVNets, addSection, addGrid, hvName, hnsgName, Option.pure_def,
    DrawIODiagram.AddAzureIcon, DrawIODiagram.AddRectangle,
    DrawIODiagram.AddConnection, DrawIODiagram.appendCell, NewDrawIODiagram, e1, e2, e3, e5,
    List.length_nil, List.length_cons, lt_irrefl, if_false, if_true, zero_add, Nat.lt_one_iff,
    Nat.zero_lt_one, e4, e6, e7]
  exact ⟨_, rfl, rfl⟩


theorem countStyle_eq (d : DrawIODiagram) (style : String) :
    d.countStyle style =
      ((d.Cells.map (fun c => c.Style)).filter (fun t => decide (t = style))).length := by
  unfold DrawIODiagram.countStyle
  rw [List.filter_map, List.length_map]
  rfl

theorem edges_eq (d : DrawIODiagram) :
    d.edges.map (fun e => (e.Source, e.Target)) =
      ((d.Cells.map (fun c => (c.Edge, c.Source, c.Target))).filter
        (fun t => decide (t.1 = "1"))).map (fun t => t.2) := by
  unfold DrawIODiagram.edges
  rw [List.filter_map, List.map_map]
  rfl

/-! ## Lemmas: priority actions -/

theorem flatMap_ite_singleton {α β : Type} (p : α → Prop) [DecidablePred p] (f : α → β)
    (l : List α) :
    l.flatMap (fun x => if p x then [f x] else []) = (l.filter (fun x => decide (p x))).map f := by
  induction l with
  | nil => rfl
  | cons x l ih =>
    rw [List.flatMap_cons, ih]
    by_cases h : p x
    · simp [h]
    · simp [h]

end renderer

namespace analysis

/-! ## Lemmas: severity counts -/

theorem countSeverity_counts (a : SecurityAnalysis) (f : SecurityFinding) :
    (countSeverity a f).Findings = a.Findings ∧
    (countSeverity a f).CriticalCount = a.CriticalCount + severityCount [f] "Critical" ∧
    (countSeverity a f).HighCount = a.HighCount + severityCount [f] "High" ∧
    (countSeverity a f).MediumCount = a.MediumCount + severityCount [f] "Medium" ∧
    (countSeverity a f).LowCount = a.LowCount + severityCount [f] "Low" := by
  unfold countSeverity severityCount
  by_cases h1 : f.Severity = "Critical"
  · simp [h1]
  · by_cases h2 : f.Severity = "High"
    · simp [h2]
    · by_cases h3 : f.Severity = "Medium"
      · simp [h3]
      · by_cases h4 : f.Severity = "Low"
        · simp [h4]
        · simp [h1, h2, h3, h4]

theorem severityCount_cons (f : SecurityFinding) (fs : List SecurityFinding) (s : String) :
    severityCount (f :: fs) s = severityCount [f] s + severityCount fs s := by
  unfold severityCount
  by_cases h : f.Severity = s
  · simp [h]; ring
  · simp [h]

theorem foldl_countSeverity_counts (fs : List SecurityFinding) (a : SecurityAnalysis) :
    (fs.foldl countSeverity a).Findings = a.Findings ∧
    (fs.foldl countSeverity a).CriticalCount = a.CriticalCount + severityCount fs "Critical" ∧
    (fs.foldl countSeverity a).HighCount = a.HighCount + severityCount fs "High" ∧
    (fs.foldl countSeverity a).MediumCount = a.MediumCount + severityCount fs "Medium" ∧
    (fs.foldl countSeverity a).LowCount = a.LowCount + severityCount fs "Low" := by
  induction fs generalizing a with
  | nil => simp [severityCount]
  | cons f fs ih =>
    obtain ⟨h0, h1, h2, h3, h4⟩ := countSeverity_counts a f
    obtain ⟨i0, i1, i2, i3, i4⟩ := ih (countSeverity a f)
    simp only [List.foldl_cons]
    rw [i0, i1, i2, i3, i4, h0, h1, h2, h3, h4]
    rw [severityCount_cons f fs "Critical", severityCount_cons f fs "High",
      severityCount_cons f fs "Medium", severityCount_cons f fs "Low"]
    exact ⟨rfl, by ring, by ring, by ring, by ring⟩

theorem severityCount_nonneg (fs : List SecurityFinding) (s : String) : 0 ≤ severityCount fs s := by
  unfold severityCount; positivity

theorem taggingPenalty_sum (fs : List TagFinding) :
    (fs.map taggingPenalty).sum =
      10 * tagSeverityCount fs "High" + 5 * tagSeverityCount fs "Medium"
        + 2 * tagSeverityCount fs "Low" := by
  induction fs with
  | nil => simp [tagSeverityCount]
  | cons f fs ih =>
    have hc : ∀ s, tagSeverityCount (f :: fs) s =
        tagSeverityCount fs s + (if f.Severity = s then 1 else 0) := by
      intro s
      unfold tagSeverityCount
      rw [List.filter_cons]
      by_cases h : f.Severity = s <;> simp [h]
    rw [List.map_cons, List.sum_cons, ih, hc "High", hc "Medium", hc "Low"]
    unfold taggingPenalty
    by_cases h1 : f.Severity = "High"
    · rw [h1]; simp; ring
    · by_cases h2 : f.Severity = "Medium"
      · rw [h2]; simp; ring
      · by_cases h3 : f.Severity = "Low"
        · rw [h3]; simp; ring
        · simp [h1, h2, h3]

theorem AnalyzeTagging_rate (ord : MapOrder) (rs : List Resource) :
    (AnalyzeTagging ord rs).TotalResources = rs.length ∧
    (AnalyzeTagging ord rs).ComplianceRate =
      if 0 < rs.length then
        Float64.mul (Float64.div (Float64.ofInt (AnalyzeTagging ord rs).TaggedResources)
          (Float64.ofInt rs.length)) 100
      else 0 := by
  unfold AnalyzeTagging
  simp only
  set a0 : TaggingAnalysis :=
    { TotalResources := rs.length, TaggedResources := 0, UntaggedResources := 0,
      ComplianceRate := 0, Findings := [],
      RequiredTags := ["environment", "owner", "cost-center", "application"],
      TagValueInconsistencies := [] } with ha0
  obtain ⟨m1, m4, m2, m3⟩ := analyzeMissingTags_counts ord a0 rs
  obtain ⟨c1, c2, c3⟩ := analyzeTagConsistency_counts ord (analyzeMissingTags ord a0 rs) rs
  obtain ⟨v1, v2, v3⟩ := analyzeTagValuePatterns_counts ord
    (analyzeTagConsistency ord (analyzeMissingTags ord a0 rs) rs) rs
  have ht : (analyzeTagValuePatterns ord
      (analyzeTagConsistency ord (analyzeMissingTags ord a0 rs) rs) rs).TotalResources
      = rs.length := by rw [v1, c1, m1]
  rw [ht]
  by_cases hpos : 0 < rs.length
  · have hpos' : (0 : ℤ) < (rs.length : ℤ) := by exact_mod_cast hpos
    rw [if_pos hpos', if_pos hpos]
    exact ⟨rfl, rfl⟩
  · have hpos' : ¬ (0 : ℤ) < (rs.length : ℤ) := by exact_mod_cast hpos
    rw [if_neg hpos', if_neg hpos]
    refine ⟨ht, ?_⟩
    rw [v3, c3, m4]

/-! ## Lemmas: cost findings by category -/

theorem idleFindings_eq (l : List Resource) :
    l.flatMap idleFindings =
      (l.filter (fun res => decide (IsVMWithProperties res))).map
        (fun res =>
          { Severity := "Low"
            Category := "Idle"
            Resource := res.str "name"
            Issue := "VM may be idle or underutilized (requires metrics analysis)"
            CurrentCost := estimateVMCost (idleVMSize res)
            PotentialSavings := Float64.mul (estimateVMCost (idleVMSize res)) (Float64.lit 0.7)
            Remediation := "Review VM metrics. If CPU <5% avg, consider deallocating when not in use or downsizing" }) := by
  induction l with
  | nil => rfl
  | cons res l ih =>
    rw [List.flatMap_cons, ih]
    unfold idleFindings IsVMWithProperties idleVMSize
    by_cases h1 : typeOf res = "microsoft.compute/virtualmachines"
    · cases hp : res.obj "properties" with
      | none => simp [h1, hp]
      | some props => simp [h1, hp]
    · simp [h1]

theorem category_orphanedDisk (attached : List String) (l : List Resource) :
    ∀ f ∈ l.flatMap (orphanedDiskFindings attached), f.Category = "Orphaned" := by
  intro f hf
  rw [orphanedDiskFindings_eq] at hf
  obtain ⟨res, _, rfl⟩ := List.mem_map.mp hf
  rfl

theorem category_orphanedPublicIP (used : List String) (l : List Resource) :
    ∀ f ∈ l.flatMap (orphanedPublicIPFindings used), f.Category = "Orphaned" := by
  intro f hf
  obtain ⟨res, _, hres⟩ := List.mem_flatMap.mp hf
  unfold orphanedPublicIPFindings at hres
  simp only at hres
  split_ifs at hres
  · simp at hres
  · simp at hres
  · simp only [List.mem_singleton] at hres
    subst hres
    rfl

theorem category_idle (l : List Resource) : ∀ f ∈ l.flatMap idleFindings, f.Category = "Idle" := by
  intro f hf
  rw [idleFindings_eq] at hf
  obtain ⟨res, _, rfl⟩ := List.mem_map.mp hf
  rfl

theorem category_oversized (l : List Resource) :
    ∀ f ∈ l.flatMap oversizedFindings, f.Category = "Oversized" := by
  intro f hf
  obtain ⟨res, _, hres⟩ := List.mem_flatMap.mp hf
  unfold oversizedFindings at hres
  split_ifs at hres
  · cases hp : res.obj "properties" with
    | none => simp [hp] at hres
    | some props =>
      simp only [hp] at hres
      split_ifs at hres
      · simp only [List.mem_singleton] at hres
        subst hres
        rfl
      · simp at hres
  · simp at hres

theorem category_storageTier (l : List Resource) :
    ∀ f ∈ l.flatMap storageTierFindings, f.Category = "StorageTier" := by
  intro f hf
  obtain ⟨res, _, hres⟩ := List.mem_flatMap.mp hf
  unfold storageTierFindings at hres
  split_ifs at hres
  · cases hp : res.obj "properties" with
    | none => simp [hp] at hres
    | some props =>
      simp only [hp] at hres
      split_ifs at hres
      · simp only [List.mem_singleton] at hres
        subst hres
        rfl
      · simp at hres
  · simp at hres

theorem filter_category_eq_self (c : String) (l : List CostFinding)
    (h : ∀ f ∈ l, f.Category = c) : l.filter (fun f => decide (f.Category = c)) = l :=
  List.filter_eq_self.mpr (fun f hf => by simp [h f hf])

theorem filter_category_eq_nil (c c' : String) (hc : c' ≠ c) (l : List CostFinding)
    (h : ∀ f ∈ l, f.Category = c') : l.filter (fun f => decide (f.Category = c)) = [] := by
  apply List.filter_eq_nil_iff.mpr
  intro f hf
  simp [h f hf, hc]

/-! ## Lemmas: the cost percentage -/

theorem pct_of_tenth : Float64.roundNearest (Float64.roundNearest (1 / 10) * 100) = 10 := by decide!
theorem pct_of_quarter : Float64.roundNearest (Float64.roundNearest (1 / 4) * 100) = 25 := by decide!
theorem pct_of_two_fifths : Float64.roundNearest (Float64.roundNearest (2 / 5) * 100) = 40 := by
  decide!

/-- The computed percentage is at least the computed percentage of any smaller
non-negative ratio. -/
theorem optimizationPct_mono (a : CostAnalysis) (r : ℚ) (hr : 0 ≤ r)
    (h : r ≤ a.PotentialMonthlySavings / a.TotalMonthlyCost) :
    Float64.roundNearest (Float64.roundNearest r * 100) ≤ optimizationPct a := by
  unfold optimizationPct Float64.mul Float64.div
  have h1 := Float64.roundNearest_mono hr h
  have h0 := Float64.roundNearest_nonneg hr
  apply Float64.roundNearest_mono (by positivity)
  linarith

/-! ## Lemmas: missing tags -/

theorem foldl_appendMissing (T : List String) (hT : T.Nodup) (c : String → Bool) (name : String)
    (m : GoMap (List String)) (hm : (m.map Prod.fst).Nodup) :
    ((T.foldl (fun m t => if c t then appendMissing m t name else m) m).map Prod.fst).Nodup ∧
    ∀ t, (T.foldl (fun m t => if c t then appendMissing m t name else m) m).lookup t =
      if t ∈ T ∧ c t = true then some ((m.lookup t).getD [] ++ [name]) else m.lookup t := by
  induction T generalizing m with
  | nil => simp [hm]
  | cons t0 T ih =>
    rw [List.nodup_cons] at hT
    rw [List.foldl_cons]
    by_cases hc : c t0 = true
    · simp only [hc, if_true]
      obtain ⟨h1, h2⟩ := ih hT.2 (appendMissing m t0 name)
        (GoMap.nodup_keys_update m t0 [] _ hm)
      refine ⟨h1, fun t => ?_⟩
      rw [h2]
      unfold appendMissing
      rw [GoMap.lookup_update]
      by_cases e : t = t0
      · subst e
        simp [hT.1, hc]
      · simp [e]
    · rw [if_neg hc]
      obtain ⟨h1, h2⟩ := ih hT.2 m hm
      refine ⟨h1, fun t => ?_⟩
      rw [h2]
      by_cases e : t = t0
      · subst e
        simp [hT.1, hc]
      · simp [e]

theorem entries_eq_nil_of_length (tags : Object) (h : tags.length = 0) : tags.keys = [] := by
  rw [List.length_eq_zero] at h
  subst h
  rfl

theorem lackingNames_append (t : String) (rs : List Resource) (res : Resource) :
    lackingNames t (rs ++ [res]) =
      lackingNames t rs ++ (if LacksTag t res = true then [res.str "name"] else []) := by
  unfold lackingNames
  rw [List.filter_append, List.map_append]
  congr 1
  by_cases h : LacksTag t res = true
  · simp [h]
  · simp [h]

theorem missingTagsStep_map (T : List String) (hT : T.Nodup) (rs : List Resource)
    (st : TaggingAnalysis × GoMap (List String)) (hst : st.1.RequiredTags = T)
    (h : MissingByTagOf T rs st.2) (res : Resource) :
    MissingByTagOf T (rs ++ [res]) (missingTagsStep st res).2 := by
  obtain ⟨hn, hl⟩ := h
  have key : ∀ c : String → Bool, (∀ t, c t = LacksTag t res) →
      MissingByTagOf T (rs ++ [res])
        (T.foldl (fun m t => if c t then appendMissing m t (res.str "name") else m) st.2) := by
    intro c hc
    obtain ⟨h1, h2⟩ := foldl_appendMissing T hT c (res.str "name") st.2 hn
    refine ⟨h1, fun t => ?_⟩
    rw [h2, hl, lackingNames_append, hc]
    by_cases ht : t ∈ T
    · by_cases hlk : LacksTag t res = true
      · by_cases he : lackingNames t rs = []
        · simp [ht, hlk, he]
        · simp [ht, hlk, he]
      · by_cases he : lackingNames t rs = []
        · simp [ht, hlk, he]
        · simp [ht, hlk, he]
    · simp [ht]
  unfold missingTagsStep
  simp only
  by_cases hs : isSystemResource (res.str "type") = true
  · rw [if_pos hs]
    refine ⟨hn, fun t => ?_⟩
    rw [hl, lackingNames_append]
    have : LacksTag t res = false := by simp [LacksTag, hs]
    simp [this]
  · rw [if_neg hs]
    have hs' : isSystemResource (res.str "type") = false := by simpa using hs
    rw [hst]
    cases ho : res.obj "tags" with
    | none =>
      simp only
      have := key (fun _ => true) (fun t => by simp [LacksTag, hs', ho])
      simpa using this
    | some tags =>
      simp only
      by_cases hlen : tags.length = 0
      · rw [if_pos hlen]
        have := key (fun _ => true)
          (fun t => by simp [LacksTag, hs', ho, entries_eq_nil_of_length tags hlen])
        simpa using this
      · rw [if_neg hlen]
        have := key (fun t => !tags.keys.any (fun tagKey => strings.EqualFold tagKey t))
          (fun t => by simp [LacksTag, hs', ho])
        simpa using this

theorem foldl_missingTagsStep_map (T : List String) (hT : T.Nodup) (rs : List Resource)
    (a : TaggingAnalysis) (ha : a.RequiredTags = T) :
    MissingByTagOf T rs (rs.foldl missingTagsStep (a, [])).2 := by
  induction rs using List.reverseRecOn with
  | nil =>
    refine ⟨List.nodup_nil, fun t => ?_⟩
    simp [lackingNames]
  | append_singleton rs res ih =>
    rw [List.foldl_append, List.foldl_cons, List.foldl_nil]
    apply missingTagsStep_map T hT rs _ _ ih
    rw [(foldl_missingTagsStep_counts rs (a, [])).2.1]
    exact ha

theorem missingFindings_perm (ord : MapOrder) (T : List String) (hT : T.Nodup)
    (rs : List Resource) (m : GoMap (List String)) (h : MissingByTagOf T rs m) :
    ((GoMap.range ord "missingByTag" m).flatMap missingTagFinding).Perm
      ((T.filter (fun t => decide (lackingNames t rs ≠ []))).map
        (fun t => missingFindingOf t (lackingNames t rs))) := by
  obtain ⟨hn, hl⟩ := h
  have hperm : (GoMap.range ord "missingByTag" m).Perm
      ((T.filter (fun t => decide (lackingNames t rs ≠ []))).map
        (fun t => (t, lackingNames t rs))) := by
    rw [List.perm_ext_iff_of_nodup]
    · intro e
      rw [GoMap.mem_range, hl, List.mem_map]
      constructor
      · intro he
        by_cases c : e.1 ∈ T ∧ lackingNames e.1 rs ≠ []
        · rw [if_pos c] at he
          refine ⟨e.1, ?_, ?_⟩
          · rw [List.mem_filter]
            exact ⟨c.1, by simpa using c.2⟩
          · have := Option.some.inj he
            rw [this]
        · rw [if_neg c] at he
          exact absurd he (by simp)
      · rintro ⟨t, ht, rfl⟩
        rw [List.mem_filter] at ht
        have h2 : lackingNames t rs ≠ [] := by simpa using ht.2
        simp only
        rw [if_pos ⟨ht.1, h2⟩]
    · exact List.Nodup.of_map Prod.fst (GoMap.nodup_range_keys ord _ m hn)
    · apply List.Nodup.map
      · intro t₁ t₂ he
        exact (Prod.mk.inj he).1
      · exact hT.filter _
  refine (List.Perm.flatMap_right _ hperm).trans ?_
  apply List.Perm.of_eq
  have hmem : ∀ t ∈ T.filter (fun t => decide (lackingNames t rs ≠ [])),
      lackingNames t rs ≠ [] := by
    intro t ht
    rw [List.mem_filter] at ht
    simpa using ht.2
  generalize T.filter (fun t => decide (lackingNames t rs ≠ [])) = l at hmem
  induction l with
  | nil => rfl
  | cons t l ih =>
    rw [List.map_cons, List.flatMap_cons, List.map_cons,
      ih (fun t' ht' => hmem t' (List.mem_cons_of_mem t ht'))]
    have hne := hmem t (List.mem_cons_self t l)
    have hpos : 0 < (lackingNames t rs).length := List.length_pos.mpr hne
    unfold missingTagFinding
    simp only [hpos, if_true]
    rfl

/-! ## Lemmas: environment values -/

theorem foldl_update_keys (vs : List String) (m : GoMap ℤ) (h : (m.map Prod.fst).Nodup) :
    ((vs.foldl (fun m v => m.update v 0 (fun n => n + 1)) m).map Prod.fst).Nodup ∧
    ∀ k, k ∈ (vs.foldl (fun m v => m.update v 0 (fun n => n + 1)) m).map Prod.fst ↔
      k ∈ m.map Prod.fst ∨ k ∈ vs := by
  induction vs generalizing m with
  | nil => simp [h]
  | cons v vs ih =>
    rw [List.foldl_cons]
    obtain ⟨h1, h2⟩ := ih (m.update v 0 (fun n => n + 1)) (GoMap.nodup_keys_update m v 0 _ h)
    refine ⟨h1, fun k => ?_⟩
    rw [h2, GoMap.mem_keys_update, List.mem_cons]
    tauto

theorem envValues_eq (resources : List Resource) :
    envValues resources =
      (envTagValues resources).foldl (fun (m : GoMap ℤ) v => m.update v 0 (fun n => n + 1)) [] := by
  unfold envValues envTagValues
  generalize ([] : GoMap ℤ) = m
  induction resources generalizing m with
  | nil => rfl
  | cons res rs ih =>
    rw [List.foldl_cons, List.flatMap_cons, List.foldl_append, ih]
    congr 1
    unfold envTagValuesOf
    cases res.obj "tags" with
    | none => rfl
    | some tags =>
      simp only
      generalize tags.entries = es
      induction es generalizing m with
      | nil => rfl
      | cons e es ihe =>
        rw [List.foldl_cons, List.filterMap_cons, ihe]
        by_cases c : (strings.EqualFold e.1 "environment" || strings.EqualFold e.1 "env") = true
        · simp only [c, if_true]
          cases e.2.asString <;> rfl
        · simp only [c]
          rfl

/-- The value map holds each distinct value once. -/
theorem envValues_length (resources : List Resource) :
    (envValues resources).length = (envTagValues resources).dedup.length := by
  obtain ⟨h1, h2⟩ := foldl_update_keys (envTagValues resources) [] List.nodup_nil
  rw [← envValues_eq] at h1 h2
  rw [← List.length_map (envValues resources) Prod.fst]
  apply List.Perm.length_eq
  rw [List.perm_ext_iff_of_nodup h1 (List.nodup_dedup _)]
  intro k
  rw [h2, List.mem_dedup]
  simp

/-! ## Lemmas: the letter case of types -/

namespace SameUpToTypeCase

variable {res res' : Resource}

theorem typeOf_eq (h : SameUpToTypeCase res res') : typeOf res = typeOf res' := h.1

theorem str_eq (h : SameUpToTypeCase res res') (k : String) (hk : k ≠ "type") :
    res.str k = res'.str k := by
  unfold Object.str
  rw [h.2 k hk]

theorem obj_eq (h : SameUpToTypeCase res res') (k : String) (hk : k ≠ "type") :
    res.obj k = res'.obj k := by
  unfold Object.obj
  rw [h.2 k hk]

theorem of_cons (t t' : String) (rest : Object)
    (h : strings.ToLower t = strings.ToLower t') :
    SameUpToTypeCase (("type", Value.string t) :: rest) (("type", Value.string t') :: rest) := by
  refine ⟨h, fun k hk => ?_⟩
  have : (k == "type") = false := by simpa using hk
  simp [Object.index, List.lookup, this]

end SameUpToTypeCase

/-! ### Loops over two inventories that agree up to the case of the types -/

theorem flatMap_congr_of_forall₂ {β : Type} (f : Resource → List β)
    (hf : ∀ res res', SameUpToTypeCase res res' → f res = f res')
    {rs rs' : List Resource} (h : List.Forall₂ SameUpToTypeCase rs rs') :
    rs.flatMap f = rs'.flatMap f := by
  induction h with
  | nil => rfl
  | cons h _ ih => rw [List.flatMap_cons, List.flatMap_cons, hf _ _ h, ih]

theorem filterMap_congr_of_forall₂ {β : Type} (f : Resource → Option β)
    (hf : ∀ res res', SameUpToTypeCase res res' → f res = f res')
    {rs rs' : List Resource} (h : List.Forall₂ SameUpToTypeCase rs rs') :
    rs.filterMap f = rs'.filterMap f := by
  induction h with
  | nil => rfl
  | cons h _ ih => rw [List.filterMap_cons, List.filterMap_cons, hf _ _ h, ih]

theorem foldl_congr_of_forall₂ {β : Type} (step : β → Resource → β)
    (hf : ∀ acc res res', SameUpToTypeCase res res' → step acc res = step acc res')
    {rs rs' : List Resource} (h : List.Forall₂ SameUpToTypeCase rs rs') (init : β) :
    rs.foldl step init = rs'.foldl step init := by
  induction h generalizing init with
  | nil => rfl
  | cons h _ ih => rw [List.foldl_cons, List.foldl_cons, hf _ _ _ h, ih]

theorem filter_map_congr_of_forall₂ {β : Type} (p : Resource → Bool) (g : Resource → β)
    (hp : ∀ res res', SameUpToTypeCase res res' → p res = p res')
    (hg : ∀ res res', SameUpToTypeCase res res' → g res = g res')
    {rs rs' : List Resource} (h : List.Forall₂ SameUpToTypeCase rs rs') :
    (rs.filter p).map g = (rs'.filter p).map g ∧ (rs.filter p).length = (rs'.filter p).length := by
  induction h with
  | nil => exact ⟨rfl, rfl⟩
  | @cons a b l₁ l₂ h _ ih =>
    rw [List.filter_cons, List.filter_cons, hp _ _ h]
    cases p b with
    | true => simp only [if_true, List.map_cons, List.length_cons, hg _ _ h, ih.1, ih.2, and_self]
    | false => simpa using ih

/-! ### The security analyzer -/

theorem nsgFindings_congr (res res' : Resource) (h : SameUpToTypeCase res res') :
    nsgFindings res = nsgFindings res' := by
  unfold nsgFindings
  rw [h.typeOf_eq, h.str_eq "name" (by decide), h.obj_eq "properties" (by decide)]

theorem publicExposureFindings_congr (res res' : Resource) (h : SameUpToTypeCase res res') :
    publicExposureFindings res = publicExposureFindings res' := by
  unfold publicExposureFindings
  rw [h.typeOf_eq, h.str_eq "name" (by decide)]

theorem encryptionFindings_congr (res res' : Resource) (h : SameUpToTypeCase res res') :
    encryptionFindings res = encryptionFindings res' := by
  unfold encryptionFindings
  rw [h.typeOf_eq, h.str_eq "name" (by decide), h.obj_eq "properties" (by decide)]

theorem networkIsolationFindings_congr (res res' : Resource) (h : SameUpToTypeCase res res') :
    networkIsolationFindings res = networkIsolationFindings res' := by
  unfold networkIsolationFindings
  rw [h.typeOf_eq, h.str_eq "name" (by decide), h.obj_eq "properties" (by decide)]

theorem AnalyzeSecurity_congr {rs rs' : List Resource}
    (h : List.Forall₂ SameUpToTypeCase rs rs') : AnalyzeSecurity rs = AnalyzeSecurity rs' := by
  unfold AnalyzeSecurity analyzeNSGRules analyzePublicExposure analyzeEncryption
    analyzeNetworkIsolation
  rw [flatMap_congr_of_forall₂ _ nsgFindings_congr h,
    flatMap_congr_of_forall₂ _ publicExposureFindings_congr h,
    flatMap_congr_of_forall₂ _ encryptionFindings_congr h,
    flatMap_congr_of_forall₂ _ networkIsolationFindings_congr h]

/-! ### The cost analyzer -/

theorem osDiskID_congr (res res' : Resource) (h : SameUpToTypeCase res res') :
    osDiskID res = osDiskID res' := by
  unfold osDiskID
  rw [h.typeOf_eq, h.obj_eq "properties" (by decide)]

theorem orphanDiskSize_congr (res res' : Resource) (h : SameUpToTypeCase res res') :
    orphanDiskSize res = orphanDiskSize res' := by
  unfold orphanDiskSize
  rw [h.obj_eq "properties" (by decide)]

theorem orphanedDiskFindings_congr (attached : List String) (res res' : Resource)
    (h : SameUpToTypeCase res res') :
    orphanedDiskFindings attached res = orphanedDiskFindings attached res' := by
  unfold orphanedDiskFindings
  rw [h.typeOf_eq, h.str_eq "name" (by decide), h.str_eq "id" (by decide),
    orphanDiskSize_congr res res' h]

theorem nicPublicIPs_congr (res res' : Resource) (h : SameUpToTypeCase res res') :
    nicPublicIPs res = nicPublicIPs res' := by
  unfold nicPublicIPs
  rw [h.typeOf_eq, h.obj_eq "properties" (by decide)]

theorem orphanedPublicIPFindings_congr (used : List String) (res res' : Resource)
    (h : SameUpToTypeCase res res') :
    orphanedPublicIPFindings used res = orphanedPublicIPFindings used res' := by
  unfold orphanedPublicIPFindings
  rw [h.typeOf_eq, h.str_eq "name" (by decide), h.str_eq "id" (by decide)]

theorem idleFindings_congr (res res' : Resource) (h : SameUpToTypeCase res res') :
    idleFindings res = idleFindings res' := by
  unfold idleFindings
  rw [h.typeOf_eq, h.str_eq "name" (by decide), h.obj_eq "properties" (by decide)]

theorem oversizedFindings_congr (res res' : Resource) (h : SameUpToTypeCase res res') :
    oversizedFindings res = oversizedFindings res' := by
  unfold oversizedFindings
  rw [h.typeOf_eq, h.str_eq "name" (by decide), h.obj_eq "properties" (by decide)]

theorem storageTierFindings_congr (res res' : Resource) (h : SameUpToTypeCase res res') :
    storageTierFindings res = storageTierFindings res' := by
  unfold storageTierFindings
  rw [h.typeOf_eq, h.str_eq "name" (by decide), h.obj_eq "properties" (by decide)]

theorem addResourceCost_congr (totalCost : Float64) (res res' : Resource)
    (h : SameUpToTypeCase res res') :
    addResourceCost totalCost res = addResourceCost totalCost res' := by
  unfold addResourceCost
  rw [h.typeOf_eq, h.obj_eq "properties" (by decide)]

theorem AnalyzeCost_congr {rs rs' : List Resource}
    (h : List.Forall₂ SameUpToTypeCase rs rs') : AnalyzeCost rs = AnalyzeCost rs' := by
  unfold AnalyzeCost analyzeOrphanedResources analyzeIdleResources analyzeOversizedResources
    analyzeStorageTiers estimateTotalCost attachedDisks usedPublicIPs
  rw [filterMap_congr_of_forall₂ _ osDiskID_congr h,
    flatMap_congr_of_forall₂ _ nicPublicIPs_congr h,
    flatMap_congr_of_forall₂ _ (orphanedDiskFindings_congr _) h,
    flatMap_congr_of_forall₂ _ (orphanedPublicIPFindings_congr _) h,
    flatMap_congr_of_forall₂ _ idleFindings_congr h,
    flatMap_congr_of_forall₂ _ oversizedFindings_congr h,
    flatMap_congr_of_forall₂ _ storageTierFindings_congr h,
    foldl_congr_of_forall₂ _ addResourceCost_congr h]

/-! ### The tagging analyzer -/

theorem missingTagsStep_congr (st : TaggingAnalysis × GoMap (List String)) (res res' : Resource)
    (h : SameUpToTypeCase res res') : missingTagsStep st res = missingTagsStep st res' := by
  unfold missingTagsStep isSystemResource
  rw [h.1, h.str_eq "name" (by decide), h.obj_eq "tags" (by decide)]

theorem AnalyzeTagging_congr (ord : MapOrder) {rs rs' : List Resource}
    (h : List.Forall₂ SameUpToTypeCase rs rs') : AnalyzeTagging ord rs = AnalyzeTagging ord rs' := by
  have hobj : ∀ res res', SameUpToTypeCase res res' → res.obj "tags" = res'.obj "tags" :=
    fun _ _ h => h.obj_eq "tags" (by decide)
  have e1 : ∀ init, rs.foldl missingTagsStep init = rs'.foldl missingTagsStep init :=
    fun init => foldl_congr_of_forall₂ _ missingTagsStep_congr h init
  have e2 : tagKeyVariations rs = tagKeyVariations rs' := by
    unfold tagKeyVariations
    exact foldl_congr_of_forall₂ _ (fun acc res res' hr => by rw [hobj res res' hr]) h _
  have e3 : envValues rs = envValues rs' := by
    unfold envValues
    exact foldl_congr_of_forall₂ _ (fun acc res res' hr => by rw [hobj res res' hr]) h _
  unfold AnalyzeTagging analyzeMissingTags analyzeTagConsistency analyzeTagValuePatterns
  simp only [e1, e2, e3, h.length_eq]

/-! ### The compliance analyzer -/

theorem ToLower_append (s t : String) :
    strings.ToLower (s ++ t) = strings.ToLower s ++ strings.ToLower t := by
  unfold strings.ToLower
  apply String.ext
  simp [String.data_append]

theorem analyzeBackup_congr (a : ComplianceAnalysis) {rs rs' : List Resource}
    (h : List.Forall₂ SameUpToTypeCase rs rs') : analyzeBackup a rs = analyzeBackup a rs' := by
  obtain ⟨h1, h2⟩ := filter_map_congr_of_forall₂
    (fun res => decide (typeOf res = "microsoft.compute/virtualmachines"))
    (fun res => res.str "name")
    (fun res res' hr => by simp only [hr.typeOf_eq])
    (fun res res' hr => hr.str_eq "name" (by decide)) h
  unfold analyzeBackup
  simp only [h1, h2]

theorem nonRedundantName_congr (res res' : Resource) (h : SameUpToTypeCase res res') :
    nonRedundantName res = nonRedundantName res' := by
  unfold nonRedundantName
  rw [h.typeOf_eq, h.str_eq "name" (by decide), h.obj_eq "sku" (by decide)]

theorem sameUpToLabelCase_refl (fs : List ComplianceFinding) :
    List.Forall₂ SameUpToLabelCase fs fs := by
  induction fs with
  | nil => exact List.Forall₂.nil
  | cons f fs ih => exact List.Forall₂.cons ⟨rfl, rfl, rfl, rfl, rfl, rfl, fun _ => rfl⟩ ih

theorem analyzeMonitoring_congr (a : ComplianceAnalysis) {rs rs' : List Resource}
    (h : List.Forall₂ SameUpToTypeCase rs rs') :
    (analyzeMonitoring a rs).SameUpToLabelCase (analyzeMonitoring a rs') := by
  have hp : ∀ res res', SameUpToTypeCase res res' →
      isMonitorable (res.str "type") = isMonitorable (res'.str "type") := by
    intro res res' hr
    unfold isMonitorable
    simp only [hr.1]
  obtain ⟨h1, h2⟩ := filter_map_congr_of_forall₂
    (fun res => isMonitorable (res.str "type"))
    (fun res => strings.ToLower (res.str "name" ++ " (" ++ res.str "type" ++ ")")) hp
    (fun res res' hr => by
      simp only [ToLower_append, hr.1, hr.str_eq "name" (by decide)]) h
  have hlow : ((rs.filter (fun res => isMonitorable (res.str "type"))).map
        (fun res => res.str "name" ++ " (" ++ res.str "type" ++ ")")).map strings.ToLower =
      ((rs'.filter (fun res => isMonitorable (res.str "type"))).map
        (fun res => res.str "name" ++ " (" ++ res.str "type" ++ ")")).map strings.ToLower := by
    rw [List.map_map, List.map_map]
    exact h1
  unfold analyzeMonitoring
  simp only [List.length_map, h2]
  split_ifs
  · refine ⟨rfl, rfl, List.rel_append (sameUpToLabelCase_refl _)
      (List.Forall₂.cons ⟨rfl, rfl, rfl, rfl, rfl, ?_, fun hc => absurd rfl hc⟩ List.Forall₂.nil)⟩
    simp only [List.map_take]
    rw [hlow]
  · refine ⟨rfl, rfl, List.rel_append (sameUpToLabelCase_refl _)
      (List.Forall₂.cons ⟨rfl, rfl, rfl, rfl, rfl, hlow, fun hc => absurd rfl hc⟩ List.Forall₂.nil)⟩
  · exact ⟨rfl, rfl, sameUpToLabelCase_refl _⟩
  · exact ⟨rfl, rfl, sameUpToLabelCase_refl _⟩

theorem analyzeGeoRedundancy_congr (a a' : ComplianceAnalysis) (ha : a.SameUpToLabelCase a')
    {rs rs' : List Resource} (h : List.Forall₂ SameUpToTypeCase rs rs') :
    (analyzeGeoRedundancy a rs).SameUpToLabelCase (analyzeGeoRedundancy a' rs') := by
  unfold analyzeGeoRedundancy
  simp only [filterMap_congr_of_forall₂ _ nonRedundantName_congr h]
  split_ifs
  · exact ⟨ha.1, ha.2.1, List.rel_append ha.2.2 (sameUpToLabelCase_refl _)⟩
  · exact ha

theorem AnalyzeCompliance_congr {rs rs' : List Resource}
    (h : List.Forall₂ SameUpToTypeCase rs rs') :
    (AnalyzeCompliance rs).SameUpToLabelCase (AnalyzeCompliance rs') := by
  unfold AnalyzeCompliance
  simp only [analyzeBackup_congr _ h]
  exact analyzeGeoRedundancy_congr _ _ (analyzeMonitoring_congr _ h) h

theorem compliancePenalty_congr {fs fs' : List ComplianceFinding}
    (h : List.Forall₂ SameUpToLabelCase fs fs') :
    fs.map compliancePenalty = fs'.map compliancePenalty := by
  induction h with
  | nil => rfl
  | cons hf _ ih =>
    rw [List.map_cons, List.map_cons, ih]
    congr 1
    unfold compliancePenalty
    rw [hf.2.1]

theorem complianceScore_congr (a a' : ComplianceAnalysis) (h : a.SameUpToLabelCase a') :
    a.GetComplianceScore = a'.GetComplianceScore := by
  obtain ⟨h1, h2, h3⟩ := h
  unfold ComplianceAnalysis.GetComplianceScore
  simp only [foldl_sub_eq, h1, h2, compliancePenalty_congr h3]


theorem sample_inventories_sameUpToTypeCase :
    List.Forall₂ SameUpToTypeCase sample.mixedCaseInventory sample.lowerCaseInventory :=
  List.Forall₂.cons (SameUpToTypeCase.of_cons _ _ _ (by decide))
    (List.Forall₂.cons (SameUpToTypeCase.of_cons _ _ _ (by decide)) List.Forall₂.nil)

end analysis

/-! ## The claims C11 to C20 -/

namespace renderer

open analysis (Resource)

/-- C11: take a resource list whose only VNet is `vnet`, with two named subnets, and
whose only NSG, VM and NIC lie in the VNet's resource group, the NIC's name containing
the first hyphen-delimited token of the VM's name, and which holds no route table, load
balancer, NAT gateway, public IP, Function App or storage account (types being the
lower-case strings the renderer selects by).  Then `generateVNetDiagram` without AI
connections builds a document with exactly 2 subnet containers, 1 NSG icon, 1 VM icon,
1 NIC icon and exactly one edge, from the NIC's cell to the VM's cell; and the overview
document of the list has 1 VNet icon and no edge. -/
theorem C11_vnet_with_two_subnets (ord : MapOrder) (vnet : Resource) (all : List Resource)
    (vnetName rg nsgName vmName nicName : String) (s₁ s₂ : Subnet)
    (hmem : vnet ∈ filterByType all "microsoft.network/virtualnetworks")
    (hvnet : namesOfType all "microsoft.network/virtualnetworks" = [(some vnetName, some rg)])
    (hsub : extractSubnets vnet = [s₁, s₂])
    (hnsg : namesOfType all "microsoft.network/networksecuritygroups" = [(some nsgName, some rg)])
    (hvm : namesOfType all "microsoft.compute/virtualmachines" = [(some vmName, some rg)])
    (hnic : namesOfType all "microsoft.network/networkinterfaces" = [(some nicName, some rg)])
    (hrt : namesOfType all "microsoft.network/routetables" = [])
    (hlb : namesOfType all "microsoft.network/loadbalancers" = [])
    (hnat : namesOfType all "microsoft.network/natgateways" = [])
    (hpip : namesOfType all "microsoft.network/publicipaddresses" = [])
    (hfunc : namesOfType all "microsoft.web/sites" = [])
    (hst : namesOfType all "microsoft.storage/storageaccounts" = [])
    (hc : strings.Contains nicName (strings.SplitHyphenFirst vmName) = true) :
    (∃ d, generateVNetDiagram ord vnet all [] = some d ∧
      d.countStyle (containerStyle "subnet") = 2 ∧ d.countStyle (iconStyle "nsg") = 1 ∧
      d.countStyle (iconStyle "vm") = 1 ∧ d.countStyle (iconStyle "nic") = 1 ∧
      ∃ nicCell ∈ d.Cells, ∃ vmCell ∈ d.Cells,
        nicCell.Style = iconStyle "nic" ∧ nicCell.Value = nicName ∧
        vmCell.Style = iconStyle "vm" ∧ vmCell.Value = vmName ∧
        d.edges.map (fun e => (e.Source, e.Target)) = [(nicCell.ID, vmCell.ID)]) ∧
    (∃ o, generateOverviewDiagram all = some o ∧
      o.countStyle (iconStyle "vnet") = 1 ∧ o.edges = []) := by
  have hv : ((vnet.index "name").asString, (vnet.index "resourceGroup").asString)
      = (some vnetName, some rg) := by
    have : ((vnet.index "name").asString, (vnet.index "resourceGroup").asString)
        ∈ namesOfType all "microsoft.network/virtualnetworks" :=
      List.mem_map.mpr ⟨vnet, hmem, rfl⟩
    rw [hvnet] at this
    exact List.mem_singleton.mp this
  obtain ⟨hname, hrg⟩ := Prod.mk.inj hv
  obtain ⟨d, hd, hcells⟩ := vnetDiagram_cells ord vnet all vnetName rg nsgName vmName nicName
    s₁ s₂ hname hrg hsub hnsg hvm hnic hrt hlb hnat hpip hfunc hst hc
  obtain ⟨o, ho, hocells⟩ := overviewDiagram_cells all vnetName rg nsgName hvnet hnsg hrt hlb
    hnat hpip
  have hstyles : d.Cells.map (fun c => c.Style) =
      ["", "", containerStyle "vnet", containerStyle "subnet", containerStyle "subnet",
        iconStyle "nsg", iconStyle "vm", iconStyle "nic", connectionStyle "association"] := by
    have := congrArg (List.map (fun t => t.2.2.1)) hcells
    rw [List.map_map] at this
    exact this
  have hedges : d.Cells.map (fun c => (c.Edge, c.Source, c.Target)) =
      [("", "", ""), ("", "", ""), ("", "", ""), ("", "", ""), ("", "", ""), ("", "", ""),
        ("", "", ""), ("", "", ""), ("1", "cell-nic-0", "cell-vm-0")] := by
    have := congrArg (List.map (fun t => t.2.2.2)) hcells
    rw [List.map_map] at this
    exact this
  have hostyles : o.Cells.map (fun c => c.Style) =
      ["", "",
        "text;html=1;strokeColor=none;fillColor=none;align=center;verticalAlign=middle;whiteSpace=wrap;rounded=0;fontSize=20;fontStyle=1",
        iconStyle "vnet", sectionLabelStyle, iconStyle "nsg"] := by
    have := congrArg (List.map (fun t => t.2.2.1)) hocells
    rw [List.map_map] at this
    exact this
  have hoedges : o.Cells.map (fun c => c.Edge) = ["", "", "", "", "", ""] := by
    have := congrArg (List.map (fun t => t.2.2.2.1)) hocells
    rw [List.map_map] at this
    exact this
  have hnicCell : ("cell-nic-0", nicName, iconStyle "nic", "", "", "") ∈
      d.Cells.map (fun c => (c.ID, c.Value, c.Style, c.Edge, c.Source, c.Target)) := by
    rw [hcells]; simp
  have hvmCell : ("cell-vm-0", vmName, iconStyle "vm", "", "", "") ∈
      d.Cells.map (fun c => (c.ID, c.Value, c.Style, c.Edge, c.Source, c.Target)) := by
    rw [hcells]; simp
  obtain ⟨nicCell, hnicMem, hnicEq⟩ := List.mem_map.mp hnicCell
  obtain ⟨vmCell, hvmMem, hvmEq⟩ := List.mem_map.mp hvmCell
  simp only [Prod.mk.injEq] at hnicEq hvmEq
  constructor
  · refine ⟨d, hd, ?_, ?_, ?_, ?_, nicCell, hnicMem, vmCell, hvmMem, hnicEq.2.2.1, hnicEq.2.1,
      hvmEq.2.2.1, hvmEq.2.1, ?_⟩
    · rw [countStyle_eq, hstyles]; decide!
    · rw [countStyle_eq, hstyles]; decide!
    · rw [countStyle_eq, hstyles]; decide!
    · rw [countStyle_eq, hstyles]; decide!
    · rw [edges_eq, hedges, hnicEq.1, hvmEq.1]; decide
  · refine ⟨o, ho, ?_, ?_⟩
    · rw [countStyle_eq, hostyles]; decide!
    · unfold DrawIODiagram.edges
      rw [List.filter_eq_nil_iff]
      intro c hc
      have : c.Edge ∈ o.Cells.map (fun c => c.Edge) := List.mem_map.mpr ⟨c, hc, rfl⟩
      rw [hoedges] at this
      have h0 : c.Edge = "" := by simpa using this
      rw [h0]; decide

/-- C11, witness: the VNet `vnet1` with the subnets `subnet-web` and `subnet-data`, the
NSG `nsg1`, the VM `web-01` and the NIC `web-01-nic`, all of resource group `rg`. -/
theorem C11_vnet_with_two_subnets_witness :
    extractSubnets sample.twoSubnetVNet =
      [⟨"subnet-web", "10.0.1.0/24"⟩, ⟨"subnet-data", "10.0.2.0/24"⟩] ∧
    strings.Contains "web-01-nic" (strings.SplitHyphenFirst "web-01") = true ∧
    ((∃ d, generateVNetDiagram MapOrder.listed sample.twoSubnetVNet sample.twoSubnetInventory []
        = some d ∧
      d.countStyle (containerStyle "subnet") = 2 ∧ d.countStyle (iconStyle "nsg") = 1 ∧
      d.countStyle (iconStyle "vm") = 1 ∧ d.countStyle (iconStyle "nic") = 1 ∧
      ∃ nicCell ∈ d.Cells, ∃ vmCell ∈ d.Cells,
        nicCell.Style = iconStyle "nic" ∧ nicCell.Value = "web-01-nic" ∧
        vmCell.Style = iconStyle "vm" ∧ vmCell.Value = "web-01" ∧
        d.edges.map (fun e => (e.Source, e.Target)) = [(nicCell.ID, vmCell.ID)]) ∧
    (∃ o, generateOverviewDiagram sample.twoSubnetInventory = some o ∧
      o.countStyle (iconStyle "vnet") = 1 ∧ o.edges = [])) :=
  ⟨by decide!, by decide!,
    C11_vnet_with_two_subnets MapOrder.listed sample.twoSubnetVNet sample.twoSubnetInventory
      "vnet1" "rg" "nsg1" "web-01" "web-01-nic" ⟨"subnet-web", "10.0.1.0/24"⟩
      ⟨"subnet-data", "10.0.2.0/24"⟩
      (List.mem_filter.mpr ⟨List.mem_cons_self _ _, by decide!⟩)
      (by decide!) (by decide!) (by decide!) (by decide!) (by decide!) (by decide!) (by decide!)
      (by decide!) (by decide!) (by decide!) (by decide!) (by decide!)⟩

/-- C18: `getPriorityActions` returns exactly the concatenation, in this order and each
list in its own order, of one action per security finding of severity Critical or High,
one per cost finding with `PotentialSavings > 20` (its severity always `High`), one per
tagging finding of severity High with more than five affected resources, and one per
compliance finding of severity High; the title of every action is the `Issue` of its
finding. -/
theorem C18_priority_actions (security : analysis.SecurityAnalysis) (cost : analysis.CostAnalysis)
    (tagging : analysis.TaggingAnalysis) (compliance : analysis.ComplianceAnalysis) :
    getPriorityActions security cost tagging compliance =
      (security.Findings.filter
          (fun f => decide (f.Severity = "Critical" ∨ f.Severity = "High"))).map
        (fun f => ⟨"🔴", f.Issue, "Security: " ++ f.Impact, f.Severity⟩) ++
      (cost.Findings.filter (fun f => decide (20 < f.PotentialSavings))).map
        (fun f => ⟨"💰", f.Issue, "Save $" ++ formatFloat0 f.PotentialSavings ++ "/month", "High"⟩) ++
      (tagging.Findings.filter
          (fun f => decide (f.Severity = "High" ∧ 5 < f.Resources.length))).map
        (fun f => ⟨"🏷️", f.Issue, "Governance: " ++ f.Impact, f.Severity⟩) ++
      (compliance.Findings.filter (fun f => decide (f.Severity = "High"))).map
        (fun f => ⟨"⚠️", f.Issue, f.Impact, f.Severity⟩) := by
  unfold getPriorityActions securityAction costAction taggingAction complianceAction
  simp only [List.nil_append]
  rw [flatMap_ite_singleton, flatMap_ite_singleton, flatMap_ite_singleton, flatMap_ite_singleton]

/-- C19, the code at the failing input: for a VNet whose resource group holds an NSG, a
route table, a load balancer and a VM, with the three high-confidence suggestions
`rt1 → vm1`, `nsg1 → vm1` and `lb1 → vm1`, all four resources are drawn as icons, but the
only edge of the document is the one of `nsg1 → vm1`: the suggestions that name the
route table and the load balancer produce no edge. -/
theorem C19_route_table_suggestion_dropped :
    sample.routedSuggestions.map
        (fun conn => (conn.SourceResource, conn.TargetResource, conn.Confidence))
      = [("rt1", "vm1", "high"), ("nsg1", "vm1", "high"), ("lb1", "vm1", "high")] ∧
    ∃ d ∈ generateVNetDiagram MapOrder.listed sample.vnet1 sample.routedInventory
        sample.routedSuggestions,
      d.Cells.map (fun c => (c.ID, c.Value, c.Edge, c.Source, c.Target)) =
        [("0", "", "", "", ""), ("1", "", "", "", ""),
          ("cell-vnet1", "Virtual Network: vnet1\nResource Group: rg", "", "", ""),
          ("cell-nsg-0", "nsg1", "", "", ""), ("cell-rt-0", "rt1", "", "", ""),
          ("cell-lb-0", "lb1", "", "", ""), ("cell-vm-0", "vm1", "", "", ""),
          ("cell-edge-ai-conn-0", "protects", "1", "cell-nsg-0", "cell-vm-0")] :=
  ⟨by decide,
    (generateVNetDiagram MapOrder.listed sample.vnet1 sample.routedInventory
      sample.routedSuggestions).get (by decide!),
    Option.get_mem _, by decide!⟩

end renderer

namespace analysis

/-- C12: for every resource list, the four counters of `AnalyzeSecurity`'s result are the
numbers of findings of its `Findings` list with severity Critical, High, Medium and Low,
and its security score equals `max(0, 100 - 20*c - 10*h - 5*m - 2*l)` for these
numbers. -/
theorem C12_security_score_formula (resources : List Resource) :
    (AnalyzeSecurity resources).CriticalCount
      = severityCount (AnalyzeSecurity resources).Findings "Critical" ∧
    (AnalyzeSecurity resources).HighCount
      = severityCount (AnalyzeSecurity resources).Findings "High" ∧
    (AnalyzeSecurity resources).MediumCount
      = severityCount (AnalyzeSecurity resources).Findings "Medium" ∧
    (AnalyzeSecurity resources).LowCount
      = severityCount (AnalyzeSecurity resources).Findings "Low" ∧
    (AnalyzeSecurity resources).GetSecurityScore =
      max 0 (100 - 20 * severityCount (AnalyzeSecurity resources).Findings "Critical"
        - 10 * severityCount (AnalyzeSecurity resources).Findings "High"
        - 5 * severityCount (AnalyzeSecurity resources).Findings "Medium"
        - 2 * severityCount (AnalyzeSecurity resources).Findings "Low") := by
  have key : ∀ a : SecurityAnalysis, a.CriticalCount = 0 → a.HighCount = 0 → a.MediumCount = 0 →
      a.LowCount = 0 →
      (a.Findings.foldl countSeverity a).CriticalCount
        = severityCount (a.Findings.foldl countSeverity a).Findings "Critical" ∧
      (a.Findings.foldl countSeverity a).HighCount
        = severityCount (a.Findings.foldl countSeverity a).Findings "High" ∧
      (a.Findings.foldl countSeverity a).MediumCount
        = severityCount (a.Findings.foldl countSeverity a).Findings "Medium" ∧
      (a.Findings.foldl countSeverity a).LowCount
        = severityCount (a.Findings.foldl countSeverity a).Findings "Low" := by
    intro a h1 h2 h3 h4
    obtain ⟨i0, i1, i2, i3, i4⟩ := foldl_countSeverity_counts a.Findings a
    rw [i0, i1, i2, i3, i4, h1, h2, h3, h4]
    simp
  have hA : ∃ a : SecurityAnalysis, a.CriticalCount = 0 ∧ a.HighCount = 0 ∧ a.MediumCount = 0 ∧
      a.LowCount = 0 ∧ AnalyzeSecurity resources = a.Findings.foldl countSeverity a :=
    ⟨_, rfl, rfl, rfl, rfl, rfl⟩
  obtain ⟨a, h1, h2, h3, h4, hE⟩ := hA
  obtain ⟨k1, k2, k3, k4⟩ := key a h1 h2 h3 h4
  rw [hE]
  refine ⟨k1, k2, k3, k4, ?_⟩
  unfold SecurityAnalysis.GetSecurityScore
  simp only
  rw [k1, k2, k3, k4]
  have n1 := severityCount_nonneg (a.Findings.foldl countSeverity a).Findings "Critical"
  have n2 := severityCount_nonneg (a.Findings.foldl countSeverity a).Findings "High"
  have n3 := severityCount_nonneg (a.Findings.foldl countSeverity a).Findings "Medium"
  have n4 := severityCount_nonneg (a.Findings.foldl countSeverity a).Findings "Low"
  split_ifs with he hneg
  · have hnil : (a.Findings.foldl countSeverity a).Findings = [] := List.length_eq_zero.mp he
    rw [hnil]
    simp [severityCount]
  · omega
  · omega

/-- C13 as amended: for every resource list, the Idle findings of `AnalyzeCost` are, in
input order, exactly one per virtual-machine resource whose `properties` field is a map,
named after the VM, with `CurrentCost` the size-based estimate (`estimateVMCost` of its
`vmSize`, `Standard_B2s` when the size is not given) and `PotentialSavings` 70% of it;
a VM without a `properties` map gets none.  A `Standard_D2s_v3` VM gets the one Idle
finding with cost 70 and savings 49. -/
theorem C13_idle_finding_per_vm_with_properties (resources : List Resource) :
    (AnalyzeCost resources).Findings.filter (fun f => decide (f.Category = "Idle")) =
      (resources.filter (fun res => decide (IsVMWithProperties res))).map
        (fun res =>
          { Severity := "Low"
            Category := "Idle"
            Resource := res.str "name"
            Issue := "VM may be idle or underutilized (requires metrics analysis)"
            CurrentCost := estimateVMCost (idleVMSize res)
            PotentialSavings := Float64.mul (estimateVMCost (idleVMSize res)) (Float64.lit 0.7)
            Remediation := "Review VM metrics. If CPU <5% avg, consider deallocating when not in use or downsizing" }) ∧
    ((AnalyzeCost [sample.vmOfSize "vm1" "Standard_D2s_v3"]).Findings.filter
        (fun f => decide (f.Category = "Idle"))).map
      (fun f => (f.Resource, f.CurrentCost, f.PotentialSavings)) = [("vm1", 70, 49)] := by
  constructor
  · rw [AnalyzeCost_findings]
    simp only [List.filter_append]
    rw [filter_category_eq_nil "Idle" "Orphaned" (by decide) _ (category_orphanedDisk _ _),
      filter_category_eq_nil "Idle" "Orphaned" (by decide) _ (category_orphanedPublicIP _ _),
      filter_category_eq_self "Idle" _ (category_idle _),
      filter_category_eq_nil "Idle" "Oversized" (by decide) _ (category_oversized _),
      filter_category_eq_nil "Idle" "StorageTier" (by decide) _ (category_storageTier _)]
    simp only [List.append_nil, List.nil_append]
    exact idleFindings_eq resources
  · decide!

/-- C13, counterexample: a virtual machine record without `properties` gets no Idle
finding, although `estimateTotalCost` prices it at the default size. -/
theorem C13_counterexample :
    (AnalyzeCost [sample.bareVM "vm1"]).Findings.filter (fun f => decide (f.Category = "Idle")) = [] ∧
    typeOf (sample.bareVM "vm1") = "microsoft.compute/virtualmachines" ∧
    (AnalyzeCost [sample.bareVM "vm1"]).TotalMonthlyCost = 30 := by
  decide!

/-- C14 as amended: `GetCostScore` returns 100 when `TotalMonthlyCost` is 0; otherwise,
with `p` the `float64` value of `(PotentialMonthlySavings / TotalMonthlyCost) * 100`, the
quotient being rounded before it is multiplied, it returns 100 if `p < 10`, 80 if
`10 ≤ p < 25`, 60 if `25 ≤ p < 40` and 40 if `p ≥ 40`.  For a positive total, a savings
share of at least 10%, 25%, 40% in exact arithmetic is scored at most 80, at most 60,
exactly 40. -/
theorem C14_cost_score_bands (a : CostAnalysis) :
    (a.TotalMonthlyCost = 0 → a.GetCostScore = 100) ∧
    (a.TotalMonthlyCost ≠ 0 →
      (optimizationPct a < 10 → a.GetCostScore = 100) ∧
      (10 ≤ optimizationPct a → optimizationPct a < 25 → a.GetCostScore = 80) ∧
      (25 ≤ optimizationPct a → optimizationPct a < 40 → a.GetCostScore = 60) ∧
      (40 ≤ optimizationPct a → a.GetCostScore = 40)) ∧
    (0 < a.TotalMonthlyCost →
      (10 ≤ 100 * a.PotentialMonthlySavings / a.TotalMonthlyCost → a.GetCostScore ≤ 80) ∧
      (25 ≤ 100 * a.PotentialMonthlySavings / a.TotalMonthlyCost → a.GetCostScore ≤ 60) ∧
      (40 ≤ 100 * a.PotentialMonthlySavings / a.TotalMonthlyCost → a.GetCostScore = 40)) := by
  have bands : a.TotalMonthlyCost ≠ 0 →
      (optimizationPct a < 10 → a.GetCostScore = 100) ∧
      (10 ≤ optimizationPct a → optimizationPct a < 25 → a.GetCostScore = 80) ∧
      (25 ≤ optimizationPct a → optimizationPct a < 40 → a.GetCostScore = 60) ∧
      (40 ≤ optimizationPct a → a.GetCostScore = 40) := by
    intro h0
    unfold CostAnalysis.GetCostScore optimizationPct
    simp only [h0, if_false]
    refine ⟨?_, ?_, ?_, ?_⟩
    · intro h; rw [if_pos h]
    · intro h1 h2
      rw [if_neg (not_lt.mpr h1), if_pos h2]
    · intro h1 h2
      rw [if_neg (not_lt.mpr (le_trans (by norm_num) h1)), if_neg (not_lt.mpr h1), if_pos h2]
    · intro h1
      rw [if_neg (not_lt.mpr (le_trans (by norm_num) h1)),
        if_neg (not_lt.mpr (le_trans (by norm_num) h1)), if_neg (not_lt.mpr h1)]
  refine ⟨?_, bands, ?_⟩
  · intro h0
    unfold CostAnalysis.GetCostScore
    simp [h0]
  · intro hT
    obtain ⟨b1, b2, b3, b4⟩ := bands hT.ne.symm
    have ratio : ∀ k : ℚ, k ≤ 100 * a.PotentialMonthlySavings / a.TotalMonthlyCost →
        k / 100 ≤ a.PotentialMonthlySavings / a.TotalMonthlyCost := by
      intro k hk
      rw [div_le_iff₀ (by norm_num : (0 : ℚ) < 100)]
      calc k ≤ 100 * a.PotentialMonthlySavings / a.TotalMonthlyCost := hk
        _ = a.PotentialMonthlySavings / a.TotalMonthlyCost * 100 := by ring
    have p10 : 10 ≤ 100 * a.PotentialMonthlySavings / a.TotalMonthlyCost →
        10 ≤ optimizationPct a := by
      intro h
      have := optimizationPct_mono a (1 / 10) (by norm_num)
        (by have := ratio 10 h; norm_num at this ⊢; exact this)
      rwa [pct_of_tenth] at this
    have p25 : 25 ≤ 100 * a.PotentialMonthlySavings / a.TotalMonthlyCost →
        25 ≤ optimizationPct a := by
      intro h
      have := optimizationPct_mono a (1 / 4) (by norm_num)
        (by have := ratio 25 h; norm_num at this ⊢; exact this)
      rwa [pct_of_quarter] at this
    have p40 : 40 ≤ 100 * a.PotentialMonthlySavings / a.TotalMonthlyCost →
        40 ≤ optimizationPct a := by
      intro h
      have := optimizationPct_mono a (2 / 5) (by norm_num)
        (by have := ratio 40 h; norm_num at this ⊢; exact this)
      rwa [pct_of_two_fifths] at this
    refine ⟨?_, ?_, ?_⟩
    · intro h
      have h10 := p10 h
      by_cases c25 : optimizationPct a < 25
      · rw [b2 h10 c25]
      · by_cases c40 : optimizationPct a < 40
        · rw [b3 (not_lt.mp c25) c40]; norm_num
        · rw [b4 (not_lt.mp c40)]; norm_num
    · intro h
      have h25 := p25 h
      by_cases c40 : optimizationPct a < 40
      · rw [b3 h25 c40]
      · rw [b4 (not_lt.mp c40)]; norm_num
    · intro h
      exact b4 (p40 h)

/-- C14, counterexample: for savings of 2.3 out of a total of 5.75 (the `float64` nearest
2.3 lies just below it) the percentage `100 * 2.3 / 5.75` is below 40, in exact
arithmetic and in `float64` evaluated as written, so the claimed score is 60; the code
rounds the quotient to the `float64` nearest 0.4, gets `p = 40` and returns 40. -/
theorem C14_counterexample :
    (⟨Float64.lit 5.75, Float64.lit 2.3, []⟩ : CostAnalysis).TotalMonthlyCost ≠ 0 ∧
    25 ≤ 100 * (⟨Float64.lit 5.75, Float64.lit 2.3, []⟩ : CostAnalysis).PotentialMonthlySavings
      / (⟨Float64.lit 5.75, Float64.lit 2.3, []⟩ : CostAnalysis).TotalMonthlyCost ∧
    100 * (⟨Float64.lit 5.75, Float64.lit 2.3, []⟩ : CostAnalysis).PotentialMonthlySavings
      / (⟨Float64.lit 5.75, Float64.lit 2.3, []⟩ : CostAnalysis).TotalMonthlyCost < 40 ∧
    25 ≤ Float64.div (Float64.mul 100 (Float64.lit 2.3)) (Float64.lit 5.75) ∧
    Float64.div (Float64.mul 100 (Float64.lit 2.3)) (Float64.lit 5.75) < 40 ∧
    optimizationPct ⟨Float64.lit 5.75, Float64.lit 2.3, []⟩ = 40 ∧
    (⟨Float64.lit 5.75, Float64.lit 2.3, []⟩ : CostAnalysis).GetCostScore = 40 := by
  decide!

/-- C15: for every resource list, with the four required tags `environment`, `owner`,
`cost-center` and `application`, the findings `analyzeMissingTags` adds are, up to the
order in which the map of missing tags is visited, exactly one Missing finding for each
required tag that at least one non-system resource lacks (tag keys compared without
regard to letter case), and none for the other tags; the finding's `Resources` are the
names of the non-system resources lacking the tag, in input order, and its severity is
High for `owner` and `cost-center`, Medium for `environment` and `application`.  A
resource tagged `Owner` does not lack `owner`, and one tagged `coſt-center`, with a long
s, does not lack `cost-center`. -/
theorem C15_missing_tag_findings (ord : MapOrder) (a : TaggingAnalysis)
    (resources : List Resource)
    (ha : a.RequiredTags = ["environment", "owner", "cost-center", "application"]) :
    (∃ added : List TagFinding,
      (analyzeMissingTags ord a resources).Findings = a.Findings ++ added ∧
      added.Perm
        ((["environment", "owner", "cost-center", "application"].filter
            (fun t => decide (lackingNames t resources ≠ []))).map
          (fun t => missingFindingOf t (lackingNames t resources)))) ∧
    (∀ names : List String,
      (missingFindingOf "owner" names).Severity = "High" ∧
      (missingFindingOf "cost-center" names).Severity = "High" ∧
      (missingFindingOf "environment" names).Severity = "Medium" ∧
      (missingFindingOf "application" names).Severity = "Medium") ∧
    lackingNames "owner" sample.ownerCaseInventory = ["st3"] ∧
    lackingNames "cost-center" [sample.tagged "st1" "coſt-center" "cc1"] = [] := by
  have hT : (["environment", "owner", "cost-center", "application"] : List String).Nodup := by
    decide
  have hmap := foldl_missingTagsStep_map _ hT resources a ha
  refine ⟨⟨(GoMap.range ord "missingByTag" (resources.foldl missingTagsStep (a, [])).2).flatMap
    missingTagFinding, ?_, missingFindings_perm ord _ hT resources _ hmap⟩,
    fun names => ⟨rfl, rfl, rfl, rfl⟩, by decide!, by decide!⟩
  unfold analyzeMissingTags
  simp only
  rw [(foldl_missingTagsStep_counts resources (a, [])).2.2.1]

/-- C15, witness: the initial analysis record of `AnalyzeTagging` and an inventory of a
storage account tagged `Owner` and `environment`, a fully tagged one, an untagged one
and a network watcher. -/
theorem C15_missing_tag_findings_witness :
    (AnalyzeTagging MapOrder.listed []).RequiredTags
      = ["environment", "owner", "cost-center", "application"] ∧
    ((∃ added : List TagFinding,
      (analyzeMissingTags MapOrder.listed (AnalyzeTagging MapOrder.listed [])
        sample.ownerCaseInventory).Findings
        = (AnalyzeTagging MapOrder.listed []).Findings ++ added ∧
      added.Perm
        ((["environment", "owner", "cost-center", "application"].filter
            (fun t => decide (lackingNames t sample.ownerCaseInventory ≠ []))).map
          (fun t => missingFindingOf t (lackingNames t sample.ownerCaseInventory)))) ∧
    (∀ names : List String,
      (missingFindingOf "owner" names).Severity = "High" ∧
      (missingFindingOf "cost-center" names).Severity = "High" ∧
      (missingFindingOf "environment" names).Severity = "Medium" ∧
      (missingFindingOf "application" names).Severity = "Medium") ∧
    lackingNames "owner" sample.ownerCaseInventory = ["st3"] ∧
    lackingNames "cost-center" [sample.tagged "st1" "coſt-center" "cc1"] = []) :=
  ⟨rfl, C15_missing_tag_findings MapOrder.listed (AnalyzeTagging MapOrder.listed [])
    sample.ownerCaseInventory rfl⟩

/-- C16 as amended: `analyzeTagValuePatterns` adds a value-inconsistency finding if and
only if the tags whose key is `environment` or `env` (letter case ignored) have, taken
together, more than five distinct string values after lower-casing across the resource
list; the finding reports that number and lists exactly these values.  With five or
fewer it changes nothing: so for the six values `É`, `é`, `a`, `b`, `c`, `d`, five after
lower-casing. -/
theorem C16_environment_value_finding (ord : MapOrder) (a : TaggingAnalysis)
    (resources : List Resource) :
    (5 < (envTagValues resources).dedup.length →
      (analyzeTagValuePatterns ord a resources).Findings =
        a.Findings ++ [envValuesFinding ord (envValues resources)] ∧
      (envValues resources).length = (envTagValues resources).dedup.length ∧
      (∀ v, v ∈ (GoMap.range ord "envValues" (envValues resources)).map Prod.fst ↔
        v ∈ envTagValues resources)) ∧
    ((envTagValues resources).dedup.length ≤ 5 →
      analyzeTagValuePatterns ord a resources = a) ∧
    (envTagValues sample.accentedEnvInventory).dedup = ["é", "a", "b", "c", "d"] := by
  have hlen := envValues_length resources
  unfold analyzeTagValuePatterns
  simp only
  refine ⟨?_, ?_, by decide!⟩
  · intro h
    rw [if_pos (by omega)]
    refine ⟨rfl, hlen, fun v => ?_⟩
    obtain ⟨_, h2⟩ := foldl_update_keys (envTagValues resources) [] List.nodup_nil
    rw [← envValues_eq] at h2
    rw [GoMap.range_keys, (ord.perm _ _).mem_iff, h2]
    simp
  · intro h
    rw [if_neg (by omega)]

/-- C16, counterexample: three resources carry `environment` with three values and three
carry `env` with three other values; the tag `environment` has three distinct values,
yet the finding is added, reporting six. -/
theorem C16_counterexample :
    (environmentTagValues sample.envAliasInventory).dedup.length = 3 ∧
    (analyzeTagValuePatterns MapOrder.listed (AnalyzeTagging MapOrder.listed [])
        sample.envAliasInventory).Findings =
      [envValuesFinding MapOrder.listed (envValues sample.envAliasInventory)] ∧
    (envValuesFinding MapOrder.listed (envValues sample.envAliasInventory)).Issue =
      "Environment tag has 6 different values: [prod staging dev test qa uat]" := by
  decide!

/-- C17 as amended: for every resource list, the tagging score of `AnalyzeTagging`'s
result equals `max(0, r - 10*h - 5*m - 2*l)`, where `h`, `m`, `l` are the numbers of
High, Medium and Low findings of the result and `r` is its `ComplianceRate` truncated to
an integer, the rate being the `float64` value of
`(float64(TaggedResources) / float64(TotalResources)) * 100` for a non-empty list (and 0
for the empty one), with `TotalResources` the length of the list. -/
theorem C17_tagging_score_formula (ord : MapOrder) (resources : List Resource) :
    (AnalyzeTagging ord resources).GetTaggingScore =
      max 0 (Float64.toInt (AnalyzeTagging ord resources).ComplianceRate
        - 10 * tagSeverityCount (AnalyzeTagging ord resources).Findings "High"
        - 5 * tagSeverityCount (AnalyzeTagging ord resources).Findings "Medium"
        - 2 * tagSeverityCount (AnalyzeTagging ord resources).Findings "Low") ∧
    (AnalyzeTagging ord resources).TotalResources = resources.length ∧
    (AnalyzeTagging ord resources).ComplianceRate =
      (if 0 < resources.length then
        Float64.mul (Float64.div (Float64.ofInt (AnalyzeTagging ord resources).TaggedResources)
          (Float64.ofInt resources.length)) 100
      else 0) := by
  refine ⟨?_, AnalyzeTagging_rate ord resources⟩
  unfold TaggingAnalysis.GetTaggingScore
  simp only [foldl_sub_eq, taggingPenalty_sum]
  split_ifs with h
  · rw [max_eq_left (by omega)]
  · rw [max_eq_right (by omega)]; ring

/-- C17, counterexample: of fifty resources 29 are tagged and `100 * 29 / 50` is 58, with
two High and two Medium findings the claimed score is `58 - 30 = 28`; the code computes
the rate `57.99999999999999` in `float64`, truncates it to 57 and returns 27. -/
theorem C17_counterexample :
    (AnalyzeTagging MapOrder.listed sample.partlyTaggedInventory).TaggedResources = 29 ∧
    (AnalyzeTagging MapOrder.listed sample.partlyTaggedInventory).TotalResources = 50 ∧
    ⌊(100 * 29 / 50 : ℚ)⌋ = 58 ∧
    tagSeverityCount (AnalyzeTagging MapOrder.listed sample.partlyTaggedInventory).Findings "High"
      = 2 ∧
    tagSeverityCount (AnalyzeTagging MapOrder.listed sample.partlyTaggedInventory).Findings "Medium"
      = 2 ∧
    tagSeverityCount (AnalyzeTagging MapOrder.listed sample.partlyTaggedInventory).Findings "Low"
      = 0 ∧
    (AnalyzeTagging MapOrder.listed sample.partlyTaggedInventory).GetTaggingScore = 27 := by
  decide!

/-- C20 as amended: when two resource lists differ at most in the letter case of the
`type` fields, `AnalyzeSecurity`, `AnalyzeCost` and `AnalyzeTagging` return the same
result for both, and `AnalyzeCompliance` returns the same coverages, the same score and
the same findings except for the letter case of the type text inside the resource
labels of the Monitoring finding. -/
theorem C20_analyzers_ignore_type_case (ord : MapOrder) (rs rs' : List Resource)
    (h : List.Forall₂ SameUpToTypeCase rs rs') :
    AnalyzeSecurity rs = AnalyzeSecurity rs' ∧
    AnalyzeCost rs = AnalyzeCost rs' ∧
    AnalyzeTagging ord rs = AnalyzeTagging ord rs' ∧
    (AnalyzeCompliance rs).BackupCoverage = (AnalyzeCompliance rs').BackupCoverage ∧
    (AnalyzeCompliance rs).MonitoringCoverage = (AnalyzeCompliance rs').MonitoringCoverage ∧
    List.Forall₂ SameUpToLabelCase (AnalyzeCompliance rs).Findings
      (AnalyzeCompliance rs').Findings ∧
    (AnalyzeCompliance rs).GetComplianceScore = (AnalyzeCompliance rs').GetComplianceScore :=
  ⟨AnalyzeSecurity_congr h, AnalyzeCost_congr h, AnalyzeTagging_congr ord h,
    (AnalyzeCompliance_congr h).1, (AnalyzeCompliance_congr h).2.1,
    (AnalyzeCompliance_congr h).2.2, complianceScore_congr _ _ (AnalyzeCompliance_congr h)⟩

/-- C20, witness: a VNet and a VM, typed `Microsoft.Network/virtualNetworks` and
`Microsoft.Compute/virtualMachines` in one list and in lower case in the other. -/
theorem C20_analyzers_ignore_type_case_witness :
    List.Forall₂ SameUpToTypeCase sample.mixedCaseInventory sample.lowerCaseInventory ∧
    (AnalyzeSecurity sample.mixedCaseInventory = AnalyzeSecurity sample.lowerCaseInventory ∧
    AnalyzeCost sample.mixedCaseInventory = AnalyzeCost sample.lowerCaseInventory ∧
    AnalyzeTagging MapOrder.listed sample.mixedCaseInventory
      = AnalyzeTagging MapOrder.listed sample.lowerCaseInventory ∧
    (AnalyzeCompliance sample.mixedCaseInventory).BackupCoverage
      = (AnalyzeCompliance sample.lowerCaseInventory).BackupCoverage ∧
    (AnalyzeCompliance sample.mixedCaseInventory).MonitoringCoverage
      = (AnalyzeCompliance sample.lowerCaseInventory).MonitoringCoverage ∧
    List.Forall₂ SameUpToLabelCase (AnalyzeCompliance sample.mixedCaseInventory).Findings
      (AnalyzeCompliance sample.lowerCaseInventory).Findings ∧
    (AnalyzeCompliance sample.mixedCaseInventory).GetComplianceScore
      = (AnalyzeCompliance sample.lowerCaseInventory).GetComplianceScore) :=
  ⟨sample_inventories_sameUpToTypeCase,
    C20_analyzers_ignore_type_case MapOrder.listed _ _ sample_inventories_sameUpToTypeCase⟩

/-- C20, counterexample: the two lists differ only in the letter case of the types, yet
the Monitoring finding of `AnalyzeCompliance` labels the VM with the type as it is
spelled, and `filterByType` selects the VNet of the lower-case list only. -/
theorem C20_counterexample :
    List.Forall₂ SameUpToTypeCase sample.mixedCaseInventory sample.lowerCaseInventory ∧
    (AnalyzeCompliance sample.mixedCaseInventory).Findings.map (fun f => (f.Category, f.Resources))
      = [("Backup", ["vm1"]), ("Monitoring", ["vm1 (Microsoft.Compute/virtualMachines)"])] ∧
    (AnalyzeCompliance sample.lowerCaseInventory).Findings.map (fun f => (f.Category, f.Resources))
      = [("Backup", ["vm1"]), ("Monitoring", ["vm1 (microsoft.compute/virtualmachines)"])] ∧
    (renderer.filterByType sample.mixedCaseInventory "microsoft.network/virtualnetworks").map
      (fun res => res.str "name") = [] ∧
    (renderer.filterByType sample.lowerCaseInventory "microsoft.network/virtualnetworks").map
      (fun res => res.str "name") = ["vnet1"] :=
  ⟨sample_inventories_sameUpToTypeCase, by decide!, by decide!, by decide!, by decide!⟩

end analysis

/-! ## Lemmas: findings and counts of the security analysis -/

namespace analysis

theorem AnalyzeSecurity_findings (resources : List Resource) :
    (AnalyzeSecurity resources).Findings =
      resources.flatMap nsgFindings ++ resources.flatMap publicExposureFindings ++
      resources.flatMap encryptionFindings ++ resources.flatMap networkIsolationFindings := by
  unfold AnalyzeSecurity
  simp only
  rw [(foldl_countSeverity_counts _ _).1]
  simp [analyzeNetworkIsolation, analyzeEncryption, analyzePublicExposure, analyzeNSGRules]

theorem AnalyzeSecurity_counts (resources : List Resource) :
    (AnalyzeSecurity resources).CriticalCount
      = severityCount (AnalyzeSecurity resources).Findings "Critical" ∧
    (AnalyzeSecurity resources).HighCount
      = severityCount (AnalyzeSecurity resources).Findings "High" ∧
    (AnalyzeSecurity resources).MediumCount
      = severityCount (AnalyzeSecurity resources).Findings "Medium" ∧
    (AnalyzeSecurity resources).LowCount
      = severityCount (AnalyzeSecurity resources).Findings "Low" := by
  have hA : ∃ a : SecurityAnalysis, a.CriticalCount = 0 ∧ a.HighCount = 0 ∧ a.MediumCount = 0 ∧
      a.LowCount = 0 ∧ AnalyzeSecurity resources = a.Findings.foldl countSeverity a :=
    ⟨_, rfl, rfl, rfl, rfl, rfl⟩
  obtain ⟨a, h1, h2, h3, h4, hE⟩ := hA
  obtain ⟨i0, i1, i2, i3, i4⟩ := foldl_countSeverity_counts a.Findings a
  rw [hE, i0, i1, i2, i3, i4, h1, h2, h3, h4]
  simp

theorem severityCount_append (l₁ l₂ : List SecurityFinding) (s : String) :
    severityCount (l₁ ++ l₂) s = severityCount l₁ s + severityCount l₂ s := by
  unfold severityCount
  rw [List.filter_append, List.length_append]
  push_cast
  rfl

theorem severityCount_total (fs : List SecurityFinding) (h : HasKnownSeverities fs) :
    severityCount fs "Critical" + severityCount fs "High" + severityCount fs "Medium"
      + severityCount fs "Low" = fs.length := by
  induction fs with
  | nil => simp [severityCount]
  | cons f fs ih =>
    have ih' := ih (fun g hg => h g (List.mem_cons_of_mem f hg))
    rw [severityCount_cons f fs "Critical", severityCount_cons f fs "High",
      severityCount_cons f fs "Medium", severityCount_cons f fs "Low"]
    have hf := h f (List.mem_cons_self f fs)
    have one : severityCount [f] "Critical" + severityCount [f] "High"
        + severityCount [f] "Medium" + severityCount [f] "Low" = 1 := by
      unfold severityCount
      rcases hf with e | e | e | e <;> simp [e]
    rw [List.length_cons]
    push_cast
    linarith

theorem nsgRuleFindings_severity (nsgName : String) (rule : Value) :
    HasKnownSeverities (nsgRuleFindings nsgName rule) := by
  intro f hf
  unfold nsgRuleFindings at hf
  split at hf
  · simp at hf
  · split at hf
    · simp at hf
    · simp only at hf
      split_ifs at hf <;> simp at hf <;> subst hf <;> simp

theorem flatMap_severity {α : Type} (g : α → List SecurityFinding)
    (h : ∀ x, HasKnownSeverities (g x)) (l : List α) : HasKnownSeverities (l.flatMap g) := by
  intro f hf
  obtain ⟨x, _, hx⟩ := List.mem_flatMap.mp hf
  exact h x f hx

theorem nsgFindings_severity (res : Resource) : HasKnownSeverities (nsgFindings res) := by
  unfold nsgFindings
  split_ifs
  · intro f hf; simp at hf
  · simp only
    split
    · intro f hf; simp at hf
    · split
      · intro f hf; simp at hf
      · exact flatMap_severity _ (nsgRuleFindings_severity _) _

theorem publicExposureFindings_severity (res : Resource) :
    HasKnownSeverities (publicExposureFindings res) := by
  intro f hf
  unfold publicExposureFindings at hf
  split_ifs at hf <;> simp at hf
  subst hf; simp

theorem encryptionFindings_severity (res : Resource) :
    HasKnownSeverities (encryptionFindings res) := by
  intro f hf
  unfold encryptionFindings at hf
  simp only at hf
  split_ifs at hf
  · split at hf
    · simp at hf
    · split at hf
      · simp at hf; subst hf; simp
      · split at hf
        · simp at hf; subst hf; simp
        · simp at hf
  · split at hf
    · simp at hf
    · split at hf
      · simp at hf; subst hf; simp
      · simp at hf
  · simp at hf

theorem networkIsolationFindings_severity (res : Resource) :
    HasKnownSeverities (networkIsolationFindings res) := by
  intro f hf
  unfold networkIsolationFindings at hf
  split_ifs at hf
  · split at hf
    · simp at hf
    · split at hf
      · simp at hf
      · split_ifs at hf <;> simp at hf
        subst hf; simp
  · simp at hf

theorem AnalyzeSecurity_severities (resources : List Resource) :
    HasKnownSeverities (AnalyzeSecurity resources).Findings := by
  rw [AnalyzeSecurity_findings]
  intro f hf
  simp only [List.mem_append] at hf
  rcases hf with ((hf | hf) | hf) | hf
  · exact flatMap_severity _ nsgFindings_severity _ f hf
  · exact flatMap_severity _ publicExposureFindings_severity _ f hf
  · exact flatMap_severity _ encryptionFindings_severity _ f hf
  · exact flatMap_severity _ networkIsolationFindings_severity _ f hf

theorem severityCount_AnalyzeSecurity_append (a b : List Resource) (s : String) :
    severityCount (AnalyzeSecurity (a ++ b)).Findings s =
      severityCount (AnalyzeSecurity a).Findings s + severityCount (AnalyzeSecurity b).Findings s := by
  simp only [AnalyzeSecurity_findings, List.flatMap_append, severityCount_append]
  ring

/-! ## Lemmas: penalties of the compliance findings -/

theorem analyzeBackup_penalties (a : ComplianceAnalysis) (rs : List Resource)
    (h : ∃ res ∈ rs, typeOf res = "microsoft.compute/virtualmachines") :
    compliancePenalties (analyzeBackup a rs) = compliancePenalties a + 10 := by
  obtain ⟨res, hmem, ht⟩ := h
  have hpos : 0 < (rs.filter
      (fun res => decide (typeOf res = "microsoft.compute/virtualmachines"))).length :=
    List.length_pos_of_mem (List.mem_filter.mpr ⟨hmem, by simpa using ht⟩)
  have hpos' : (0 : ℤ) < ((rs.filter
      (fun res => decide (typeOf res = "microsoft.compute/virtualmachines"))).length : ℤ) := by
    exact_mod_cast hpos
  unfold analyzeBackup compliancePenalties
  simp only [List.length_map, hpos, hpos', if_true, List.map_append, List.sum_append,
    List.map_cons, List.map_nil, List.sum_cons, List.sum_nil]
  simp [compliancePenalty]

theorem isMonitorable_of_vm (res : Resource)
    (h : typeOf res = "microsoft.compute/virtualmachines") :
    isMonitorable (res.str "type") = true := by
  unfold isMonitorable
  unfold typeOf at h
  simp [h]

theorem analyzeMonitoring_penalties (a : ComplianceAnalysis) (rs : List Resource)
    (h : ∃ res ∈ rs, typeOf res = "microsoft.compute/virtualmachines") :
    compliancePenalties (analyzeMonitoring a rs) = compliancePenalties a + 5 := by
  obtain ⟨res, hmem, ht⟩ := h
  have hpos : 0 < (rs.filter (fun res => isMonitorable (res.str "type"))).length :=
    List.length_pos_of_mem (List.mem_filter.mpr ⟨hmem, isMonitorable_of_vm res ht⟩)
  have hpos' : (0 : ℤ) < ((rs.filter (fun res => isMonitorable (res.str "type"))).length : ℤ) := by
    exact_mod_cast hpos
  unfold analyzeMonitoring compliancePenalties
  simp only [List.length_map, hpos, hpos', if_true]
  split_ifs <;> simp [compliancePenalty]

theorem analyzeGeoRedundancy_penalties (a : ComplianceAnalysis) (rs : List Resource) :
    compliancePenalties a ≤ compliancePenalties (analyzeGeoRedundancy a rs) := by
  unfold analyzeGeoRedundancy compliancePenalties
  simp only
  split_ifs <;> simp [compliancePenalty]

/-! ## Lemmas: tagged and untagged resources -/

theorem missingTagsStep_tagged (st : TaggingAnalysis × GoMap (List String)) (res : Resource) :
    (missingTagsStep st res).1.TaggedResources =
      st.1.TaggedResources + (if IsCounted res && HasTags res then 1 else 0) ∧
    (missingTagsStep st res).1.UntaggedResources =
      st.1.UntaggedResources + (if IsCounted res && !HasTags res then 1 else 0) := by
  unfold missingTagsStep IsCounted HasTags
  simp only
  by_cases hs : isSystemResource (res.str "type") = true
  · simp [hs]
  · cases ho : res.obj "tags" with
    | none => simp [hs]
    | some tags =>
      by_cases hl : tags.length = 0
      · simp [hs, hl]
      · simp [hs, hl]

theorem foldl_missingTagsStep_tagged (rs : List Resource)
    (st : TaggingAnalysis × GoMap (List String)) :
    (rs.foldl missingTagsStep st).1.TaggedResources =
      st.1.TaggedResources + ((rs.filter (fun r => IsCounted r && HasTags r)).length : ℤ) ∧
    (rs.foldl missingTagsStep st).1.UntaggedResources =
      st.1.UntaggedResources + ((rs.filter (fun r => IsCounted r && !HasTags r)).length : ℤ) := by
  induction rs generalizing st with
  | nil => simp
  | cons res rs ih =>
    obtain ⟨h1, h2⟩ := missingTagsStep_tagged st res
    obtain ⟨i1, i2⟩ := ih (missingTagsStep st res)
    rw [List.foldl_cons, i1, i2, h1, h2, List.filter_cons, List.filter_cons]
    constructor
    · split_ifs <;> (simp; try ring)
    · split_ifs <;> (simp; try ring)

theorem AnalyzeTagging_tagged (ord : MapOrder) (rs : List Resource) :
    (AnalyzeTagging ord rs).TaggedResources =
      ((rs.filter (fun r => IsCounted r && HasTags r)).length : ℤ) ∧
    (AnalyzeTagging ord rs).UntaggedResources =
      ((rs.filter (fun r => IsCounted r && !HasTags r)).length : ℤ) := by
  have key := foldl_missingTagsStep_tagged rs
    (({ TotalResources := rs.length, TaggedResources := 0, UntaggedResources := 0,
        ComplianceRate := 0, Findings := [],
        RequiredTags := ["environment", "owner", "cost-center", "application"],
        TagValueInconsistencies := [] } : TaggingAnalysis), [])
  simp only [zero_add] at key
  unfold AnalyzeTagging analyzeMissingTags analyzeTagConsistency analyzeTagValuePatterns
  simp only
  split_ifs <;> exact key

theorem filter_counted_split (rs : List Resource) :
    (rs.filter (fun r => IsCounted r && HasTags r)).length +
      (rs.filter (fun r => IsCounted r && !HasTags r)).length = (rs.filter IsCounted).length := by
  induction rs with
  | nil => rfl
  | cons r rs ih =>
    simp only [List.filter_cons]
    cases hc : IsCounted r <;> cases ht : HasTags r <;> simp <;> omega

theorem full_rate (n : ℤ) (hn : 0 < n) :
    Float64.mul (Float64.div (Float64.ofInt n) (Float64.ofInt n)) 100 = 100 := by
  unfold Float64.mul Float64.div Float64.ofInt
  have hpos : (0 : ℚ) < Float64.roundNearest (n : ℚ) :=
    Float64.roundNearest_pos (by exact_mod_cast hn)
  rw [div_self hpos.ne.symm, Float64.roundNearest_one, one_mul, Float64.roundNearest_hundred]

/-! ## Lemmas: savings of the cost findings -/

theorem lookup_mem_values {β : Type} (k : String) (l : List (String × β)) (v : β)
    (h : l.lookup k = some v) : v ∈ l.map Prod.snd := by
  induction l with
  | nil => simp at h
  | cons e l ih =>
    obtain ⟨k0, v0⟩ := e
    rw [List.lookup_cons] at h
    cases hk : (k == k0) with
    | true =>
      rw [hk] at h
      simp only [Option.some.injEq] at h
      subst h
      simp
    | false =>
      rw [hk] at h
      exact List.mem_cons_of_mem _ (ih h)

theorem estimateVMCost_mem (vmSize : String) :
    estimateVMCost vmSize ∈ [Float64.lit 7.5, 30, 60, 70, 140, 87, 175, 50] := by
  unfold estimateVMCost
  simp only
  split
  · rename_i cost h
    have := lookup_mem_values _ _ _ h
    simp only [List.map_cons, List.map_nil] at this
    simp only [List.mem_cons, List.mem_singleton, List.not_mem_nil, or_false] at this ⊢
    tauto
  · simp

theorem savings_le_cost (vmSize : String) :
    Float64.mul (estimateVMCost vmSize) (Float64.lit 0.7) ≤ estimateVMCost vmSize ∧
    Float64.mul (estimateVMCost vmSize) (Float64.lit 0.4) ≤ estimateVMCost vmSize := by
  have h := estimateVMCost_mem vmSize
  have all : ∀ c ∈ [Float64.lit 7.5, 30, 60, 70, 140, 87, 175, 50],
      Float64.mul c (Float64.lit 0.7) ≤ c ∧ Float64.mul c (Float64.lit 0.4) ≤ c := by decide!
  exact all _ h

theorem foldl_add_map (fs : List CostFinding) (s : Float64) :
    fs.foldl (fun s finding => Float64.add s finding.PotentialSavings) s =
      (fs.map (fun f => f.PotentialSavings)).foldl Float64.add s := by
  induction fs generalizing s with
  | nil => rfl
  | cons f fs ih => simp only [List.foldl_cons, List.map_cons, ih]

theorem AnalyzeCost_savings (resources : List Resource) :
    (AnalyzeCost resources).PotentialMonthlySavings =
      floatSum ((AnalyzeCost resources).Findings.map (fun f => f.PotentialSavings)) := by
  unfold floatSum
  rw [← foldl_add_map]
  rfl

theorem finding_savings_le_cost (resources : List Resource) :
    ∀ f ∈ (AnalyzeCost resources).Findings, f.PotentialSavings ≤ f.CurrentCost := by
  intro f hf
  rw [AnalyzeCost_findings] at hf
  simp only [List.mem_append, List.mem_flatMap] at hf
  rcases hf with (((⟨res, _, h⟩ | ⟨res, _, h⟩) | ⟨res, _, h⟩) | ⟨res, _, h⟩) | ⟨res, _, h⟩
  · unfold orphanedDiskFindings at h
    simp only at h
    split_ifs at h <;> simp at h
    subst h; exact le_refl _
  · unfold orphanedPublicIPFindings at h
    simp only at h
    split_ifs at h <;> simp at h
    subst h; exact le_refl _
  · unfold idleFindings at h
    split_ifs at h
    · split at h
      · simp at h
      · simp only [List.mem_singleton] at h
        subst h
        exact (savings_le_cost _).1
    · simp at h
  · unfold oversizedFindings at h
    split_ifs at h
    · split at h
      · simp at h
      · simp only at h
        split_ifs at h
        · simp only [List.mem_singleton] at h
          subst h
          exact (savings_le_cost _).2
        · simp at h
    · simp at h
  · unfold storageTierFindings at h
    split_ifs at h
    · split at h
      · simp at h
      · split_ifs at h
        · simp only [List.mem_singleton] at h
          subst h
          norm_num
        · simp at h
    · simp at h

/-! ## Lemmas: records of any shape -/

theorem no_findings_without_properties (res : Resource) (h : res.obj "properties" = none) :
    nsgFindings res = [] ∧ encryptionFindings res = [] ∧ networkIsolationFindings res = [] ∧
    oversizedFindings res = [] ∧ storageTierFindings res = [] := by
  unfold nsgFindings encryptionFindings networkIsolationFindings oversizedFindings
    storageTierFindings
  simp only [h]
  refine ⟨?_, ?_, ?_, ?_, ?_⟩ <;> split_ifs <;> rfl

end analysis

namespace renderer

open analysis

/-! ## Lemmas: the overview document -/

theorem AddsVerticesOnly.refl (d : DrawIODiagram) : AddsVerticesOnly d d :=
  ⟨[], by simp, by simp⟩

theorem AddsVerticesOnly.trans {d₁ d₂ d₃ : DrawIODiagram} (h₁ : AddsVerticesOnly d₁ d₂)
    (h₂ : AddsVerticesOnly d₂ d₃) : AddsVerticesOnly d₁ d₃ := by
  obtain ⟨a₁, e₁, p₁⟩ := h₁
  obtain ⟨a₂, e₂, p₂⟩ := h₂
  refine ⟨a₁ ++ a₂, by rw [e₂, e₁, List.append_assoc], ?_⟩
  intro c hc
  rcases List.mem_append.mp hc with h | h
  · exact p₁ c h
  · exact p₂ c h

theorem toString_sub_ten (n : ℕ) (h : 10 < n) :
    toString ((n : ℤ) - 10) = toString (n - 10) := by
  have : ((n : ℤ) - 10) = Int.ofNat (n - 10) := by
    simp only [Int.ofNat_eq_coe]; omega
  rw [this]; rfl

theorem securityFindingLoop_from (category : String) (n : ℕ) (findings : List SecurityFinding)
    (i : ℕ) :
    securityFindingLoop category n findings i =
      (findings.take (10 - i)).flatMap securityFindingBlock
        ++ (if 10 - i < findings.length then [securityMoreMarker category n] else []) := by
  induction findings generalizing i with
  | nil => simp [securityFindingLoop]
  | cons f rest ih =>
    unfold securityFindingLoop
    by_cases h : 10 ≤ i
    · have h0 : 10 - i = 0 := by omega
      simp [h, h0]
    · obtain ⟨k, hk⟩ : ∃ k, 10 - i = k + 1 := ⟨10 - i - 1, by omega⟩
      have hk' : 10 - (i + 1) = k := by omega
      rw [if_neg h, ih, hk, hk']
      simp [List.take_succ_cons]

theorem findingsByCategory_spec (findings : List SecurityFinding) :
    ((findingsByCategory findings).map Prod.fst).Nodup ∧
    ∀ c, (findingsByCategory findings).lookup c =
      if findingsOfCategory c findings = [] then none
      else some (findingsOfCategory c findings) := by
  induction findings using List.reverseRecOn with
  | nil => simp [findingsByCategory, findingsOfCategory]
  | append_singleton fs f ih =>
    have e : findingsByCategory (fs ++ [f]) =
        (findingsByCategory fs).update f.Category [] (fun l => l ++ [f]) := by
      simp [findingsByCategory]
    rw [e]
    refine ⟨GoMap.nodup_keys_update _ _ _ _ ih.1, ?_⟩
    intro c
    rw [GoMap.lookup_update, ih.2, ih.2]
    by_cases hc : c = f.Category
    · subst hc
      simp only [if_true, findingsOfCategory, List.filter_append]
      by_cases h0 : List.filter (fun finding => decide (finding.Category = f.Category)) fs = []
      · simp [h0]
      · simp [h0]
    · have hc' : ¬ f.Category = c := fun e => hc e.symm
      simp [hc, hc', findingsOfCategory, List.filter_append]

theorem firstTenResourceLines_eq (resources : List String) (h : 10 < resources.length) :
    firstTenResourceLines resources =
      some ((resources.take 10).map (fun res => "- " ++ res ++ "\n")) := by
  obtain ⟨r0, r1, r2, r3, r4, r5, r6, r7, r8, r9, rest, rfl⟩ :
      ∃ r0 r1 r2 r3 r4 r5 r6 r7 r8 r9 rest,
        resources = r0 :: r1 :: r2 :: r3 :: r4 :: r5 :: r6 :: r7 :: r8 :: r9 :: rest := by
    match resources, h with
    | r0 :: r1 :: r2 :: r3 :: r4 :: r5 :: r6 :: r7 :: r8 :: r9 :: rest, _ =>
      exact ⟨r0, r1, r2, r3, r4, r5, r6, r7, r8, r9, rest, rfl⟩
  rfl

theorem affectedResourceLines_eq (resources : List String) :
    affectedResourceLines resources = some (
      if resources.length = 0 then []
      else if resources.length ≤ 10 then
        ["**Affected Resources:**\n"] ++ resources.map (fun res => "- " ++ res ++ "\n")
          ++ ["\n"]
      else
        ["**Affected Resources:** " ++ toString resources.length
            ++ " resources (first 10 shown)\n"]
          ++ (resources.take 10).map (fun res => "- " ++ res ++ "\n")
          ++ ["- *...and " ++ toString (resources.length - 10) ++ " more*\n\n"]) := by
  unfold affectedResourceLines
  by_cases h0 : resources.length = 0
  · simp [h0]
  · by_cases h1 : resources.length ≤ 10
    · have : 0 < resources.length := Nat.pos_of_ne_zero h0
      simp [h0, h1, this]
    · have h2 : 10 < resources.length := by omega
      have h3 : ¬ (0 < resources.length ∧ resources.length ≤ 10) := fun h => h1 h.2
      rw [if_neg h3, if_pos h2, firstTenResourceLines_eq _ h2, if_neg h0, if_neg h1,
        toString_sub_ten _ h2]

theorem mapM_taggingFindingLines (findings : List TagFinding) :
    ∃ blocks, findings.mapM taggingFindingLines = some blocks ∧
      blocks.flatten = findings.flatMap (fun finding =>
        ((taggingFindingLines finding).getD [])) := by
  induction findings with
  | nil => exact ⟨[], rfl, rfl⟩
  | cons f fs ih =>
    obtain ⟨blocks, hb, hf⟩ := ih
    have hf1 : ∃ b, taggingFindingLines f = some b := by
      unfold taggingFindingLines
      rw [affectedResourceLines_eq]
      exact ⟨_, rfl⟩
    obtain ⟨b, hb1⟩ := hf1
    refine ⟨b :: blocks, ?_, ?_⟩
    · rw [List.mapM_cons, hb1, hb]; rfl
    · simp [hf, hb1]

theorem range_findingsByCategory (ord : MapOrder) (site : String)
    (findings : List SecurityFinding) :
    ∃ categories : List String, categories.Nodup ∧
      (∀ c, c ∈ categories ↔ ∃ f ∈ findings, f.Category = c) ∧
      GoMap.range ord site (findingsByCategory findings) =
        categories.map (fun c => (c, findingsOfCategory c findings)) := by
  obtain ⟨hnd, hl⟩ := findingsByCategory_spec findings
  refine ⟨(GoMap.range ord site (findingsByCategory findings)).map Prod.fst,
    GoMap.nodup_range_keys ord site _ hnd, ?_, ?_⟩
  · intro c
    rw [GoMap.range_keys, (ord.perm site _).mem_iff, ← GoMap.lookup_isSome_iff, hl]
    by_cases h : findingsOfCategory c findings = []
    · simp only [h, if_true]
      constructor
      · rintro ⟨v, hv⟩; cases hv
      · rintro ⟨f, hf, hc⟩
        have : f ∈ findingsOfCategory c findings := by
          simp [findingsOfCategory, hf, hc]
        rw [h] at this
        cases this
    · simp only [h, if_false]
      constructor
      · intro _
        obtain ⟨f, hf⟩ := List.exists_mem_of_ne_nil _ h
        simp only [findingsOfCategory, List.mem_filter, decide_eq_true_eq] at hf
        exact ⟨f, hf.1, hf.2⟩
      · intro _; exact ⟨_, rfl⟩
  · rw [List.map_map]
    symm
    conv_rhs => rw [← List.map_id (GoMap.range ord site (findingsByCategory findings))]
    apply List.map_congr_left
    intro e he
    have := (GoMap.mem_range ord site _ e).mp he
    rw [hl] at this
    split_ifs at this with h0
    simp only [Option.some.injEq] at this
    simp only [Function.comp, id]
    rw [this]

/-! ## Lemmas: the loop of RenderAll -/

theorem renderVNets_stops (w : World) (outputDir : String) (ord : MapOrder)
    (resources pre : List Resource) (vnet : Resource) (post : List Resource) (err : String)
    (attempted : List String)
    (hgen : ∀ v ∈ pre ++ [vnet],
      (generateVNetDiagram ord v resources w.aiConnections).isSome = true)
    (hpre : ∀ (k : ℕ) (h : k < pre.length),
      w.WriteFile (attempted ++ (pre.take k).map (vnetFile w outputDir))
        (vnetFile w outputDir (pre.get ⟨k, h⟩)) = none)
    (hfail : w.WriteFile (attempted ++ pre.map (vnetFile w outputDir))
      (vnetFile w outputDir vnet) = some err) :
    renderVNets w outputDir ord resources (pre ++ vnet :: post) attempted =
      ⟨attempted ++ (pre ++ [vnet]).map (vnetFile w outputDir),
        Ending.error ("failed to generate diagram for " ++ vnet.str "name" ++ ": " ++ err)⟩ := by
  induction pre generalizing attempted with
  | nil =>
    obtain ⟨d, hd⟩ := Option.isSome_iff_exists.mp (hgen vnet (by simp))
    simp only [List.map_nil, List.append_nil] at hfail
    simp only [List.nil_append, renderVNets, hd, hfail, List.map_cons, List.map_nil]
  | cons p pre ih =>
    obtain ⟨d, hd⟩ := Option.isSome_iff_exists.mp (hgen p (by simp))
    have h0 := hpre 0 (by simp)
    simp only [List.take_zero, List.map_nil, List.append_nil, List.get_eq_getElem,
      List.getElem_cons_zero] at h0
    simp only [List.cons_append, renderVNets, hd, h0, List.append_eq]
    rw [ih (attempted ++ [vnetFile w outputDir p])]
    · simp
    · intro v hv
      exact hgen v (by simp at hv ⊢; tauto)
    · intro k h
      have := hpre (k + 1) (by simpa using h)
      simpa using this
    · simpa using hfail

end renderer

/-! ## Lemmas: the checked analyzers return the results of the model -/

namespace runtime

@[simp] theorem assert_twoValue {α : Type} (x : Value) (as : Value → Option α) :
    assert AssertionForm.twoValue x as = Except.ok (as x) := by
  unfold assert
  cases as x <;> rfl

theorem mapM_ok {α β : Type} (f : α → Checked β) (g : α → β) (h : ∀ x, f x = Except.ok (g x))
    (l : List α) : l.mapM f = Except.ok (l.map g) := by
  induction l with
  | nil => rfl
  | cons x l ih => rw [List.mapM_cons, h x, ih]; rfl

end runtime

namespace analysis.checked

open runtime

@[simp] theorem str_ok (m : Object) (k : String) : str m k = Except.ok (m.str k) := by
  simp [str, Object.str, bind, Except.bind, pure, Except.pure]

@[simp] theorem strOk_ok (m : Object) (k : String) :
    strOk m k = Except.ok ((m.index k).asString) := by
  simp [strOk]

@[simp] theorem obj_ok (m : Object) (k : String) : obj m k = Except.ok (m.obj k) := by
  simp [obj, Object.obj]

@[simp] theorem arr_ok (m : Object) (k : String) : arr m k = Except.ok (m.arr k) := by
  simp [arr, Object.arr]

@[simp] theorem float64Ok_ok (m : Object) (k : String) :
    float64Ok m k = Except.ok ((m.index k).asFloat64) := by
  simp [float64Ok]

@[simp] theorem typeOf_ok (res : Resource) : typeOf res = Except.ok (analysis.typeOf res) := by
  simp [typeOf, analysis.typeOf, bind, Except.bind, pure, Except.pure]

theorem nsgRuleFindings_ok (nsgName : String) (ruleIface : Value) :
    nsgRuleFindings nsgName ruleIface = Except.ok (analysis.nsgRuleFindings nsgName ruleIface) := by
  unfold nsgRuleFindings analysis.nsgRuleFindings
  simp only [assert_twoValue, obj_ok, str_ok, bind, Except.bind, pure, Except.pure]
  cases ruleIface.asObject with
  | none => rfl
  | some rule =>
    simp only
    cases rule.obj "properties" with
    | none => rfl
    | some ruleProps =>
      simp only
      split_ifs <;> rfl

theorem nsgFindings_ok (res : Resource) :
    nsgFindings res = Except.ok (analysis.nsgFindings res) := by
  unfold nsgFindings analysis.nsgFindings
  simp only [typeOf_ok, obj_ok, arr_ok, str_ok, bind, Except.bind, pure, Except.pure]
  split_ifs
  · rfl
  · cases res.obj "properties" with
    | none => rfl
    | some props =>
      simp only
      cases props.arr "securityRules" with
      | none => rfl
      | some securityRules =>
        simp only
        rw [mapM_ok _ _ (nsgRuleFindings_ok (res.str "name"))]
        simp [List.flatMap]

theorem analyzeNSGRules_ok (a : SecurityAnalysis) (resources : List Resource) :
    analyzeNSGRules a resources = Except.ok (analysis.analyzeNSGRules a resources) := by
  unfold analyzeNSGRules analysis.analyzeNSGRules
  rw [mapM_ok _ _ nsgFindings_ok]
  simp [List.flatMap, bind, Except.bind, pure, Except.pure]

theorem foldlM_ok {σ α : Type} (step : σ → α → Checked σ) (inv : σ → Prop)
    (h : ∀ s x, inv s → ∃ s', step s x = Except.ok s' ∧ inv s') (l : List α) (s : σ)
    (hs : inv s) : ∃ s', l.foldlM step s = Except.ok s' ∧ inv s' := by
  induction l generalizing s with
  | nil => exact ⟨s, rfl, hs⟩
  | cons x l ih =>
    obtain ⟨s₁, e₁, i₁⟩ := h s x hs
    obtain ⟨s₂, e₂, i₂⟩ := ih s₁ i₁
    refine ⟨s₂, ?_, i₂⟩
    rw [List.foldlM_cons, e₁]
    exact e₂

theorem publicIPStep_ok (publicIPs : MapRef String) (res : Resource)
    (h : publicIPs.isSome = true) :
    ∃ m, publicIPStep publicIPs res = Except.ok m ∧ m.isSome = true := by
  obtain ⟨g, rfl⟩ := Option.isSome_iff_exists.mp h
  unfold publicIPStep
  simp only [typeOf_ok, obj_ok, str_ok, bind, Except.bind, pure, Except.pure]
  split_ifs
  · exact ⟨_, rfl, rfl⟩
  · cases res.obj "properties" with
    | none => exact ⟨_, rfl, rfl⟩
    | some props =>
      simp only
      split_ifs
      · exact ⟨_, rfl, rfl⟩
      · exact ⟨_, rfl, rfl⟩

theorem publicExposureFindings_ok (res : Resource) :
    publicExposureFindings res = Except.ok (analysis.publicExposureFindings res) := by
  unfold publicExposureFindings analysis.publicExposureFindings
  simp only [typeOf_ok, str_ok, bind, Except.bind, pure, Except.pure]
  split_ifs <;> rfl

theorem analyzePublicExposure_ok (a : SecurityAnalysis) (resources : List Resource) :
    analyzePublicExposure a resources = Except.ok (analysis.analyzePublicExposure a resources) := by
  unfold analyzePublicExposure analysis.analyzePublicExposure
  obtain ⟨m, hm, -⟩ := foldlM_ok publicIPStep (fun m => m.isSome = true) publicIPStep_ok
    resources MapRef.make rfl
  rw [hm, mapM_ok _ _ publicExposureFindings_ok]
  simp [List.flatMap, bind, Except.bind, pure, Except.pure]

theorem encryptionFindings_ok (res : Resource) :
    encryptionFindings res = Except.ok (analysis.encryptionFindings res) := by
  unfold encryptionFindings analysis.encryptionFindings
  simp only [typeOf_ok, obj_ok, str_ok, bind, Except.bind, pure, Except.pure]
  split_ifs
  · cases res.obj "properties" with
    | none => rfl
    | some props =>
      simp only
      cases props.obj "encryption" with
      | none => rfl
      | some encryption =>
        simp only
        cases encryption.obj "services" <;> rfl
  · cases res.obj "properties" with
    | none => rfl
    | some props =>
      simp only
      cases props.obj "encryptionSettingsCollection" <;> rfl
  · rfl

theorem analyzeEncryption_ok (a : SecurityAnalysis) (resources : List Resource) :
    analyzeEncryption a resources = Except.ok (analysis.analyzeEncryption a resources) := by
  unfold analyzeEncryption analysis.analyzeEncryption
  rw [mapM_ok _ _ encryptionFindings_ok]
  simp [List.flatMap, bind, Except.bind, pure, Except.pure]

theorem networkIsolationFindings_ok (res : Resource) :
    networkIsolationFindings res = Except.ok (analysis.networkIsolationFindings res) := by
  unfold networkIsolationFindings analysis.networkIsolationFindings
  simp only [typeOf_ok, obj_ok, str_ok, bind, Except.bind, pure, Except.pure]
  split_ifs
  · cases res.obj "properties" with
    | none => rfl
    | some props =>
      simp only
      cases props.obj "networkAcls" with
      | none => rfl
      | some networkAcls =>
        simp only
        split_ifs <;> rfl
  · rfl

theorem analyzeNetworkIsolation_ok (a : SecurityAnalysis) (resources : List Resource) :
    analyzeNetworkIsolation a resources
      = Except.ok (analysis.analyzeNetworkIsolation a resources) := by
  unfold analyzeNetworkIsolation analysis.analyzeNetworkIsolation
  rw [mapM_ok _ _ networkIsolationFindings_ok]
  simp [List.flatMap, bind, Except.bind, pure, Except.pure]

theorem AnalyzeSecurity_ok (resources : List Resource) :
    AnalyzeSecurity resources = Except.ok (analysis.AnalyzeSecurity resources) := by
  unfold AnalyzeSecurity analysis.AnalyzeSecurity
  simp only [analyzeNSGRules_ok, analyzePublicExposure_ok, analyzeEncryption_ok,
    analyzeNetworkIsolation_ok, bind, Except.bind, pure, Except.pure]

end analysis.checked

namespace analysis.checked

open runtime

theorem marks_make : Marks MapRef.make [] := ⟨[], rfl, fun id => by simp⟩

theorem marks_assign (m : MapRef Bool) (l : List String) (id : String) (h : Marks m l) :
    ∃ m', m.assign id true = Except.ok m' ∧ Marks m' (l ++ [id]) := by
  obtain ⟨g, rfl, hg⟩ := h
  refine ⟨some (g.update id true (fun _ => true)), rfl, _, rfl, fun id' => ?_⟩
  rw [GoMap.lookup_update]
  by_cases e : id' = id
  · simp [e]
  · simp [e, hg id']

theorem marks_index (m : MapRef Bool) (l : List String) (id : String) (h : Marks m l) :
    m.index id false = true ↔ id ∈ l := by
  obtain ⟨g, rfl, hg⟩ := h
  exact hg id

/-- A loop whose body marks at most one id per element marks the ids of the elements. -/
theorem foldlM_marks {α : Type} (step : MapRef Bool → α → Checked (MapRef Bool))
    (ids : α → List String)
    (hstep : ∀ m l x, Marks m l → ∃ m', step m x = Except.ok m' ∧ Marks m' (l ++ ids x))
    (xs : List α) (m : MapRef Bool) (l : List String) (h : Marks m l) :
    ∃ m', xs.foldlM step m = Except.ok m' ∧ Marks m' (l ++ xs.flatMap ids) := by
  induction xs generalizing m l with
  | nil => exact ⟨m, rfl, by simpa using h⟩
  | cons x xs ih =>
    obtain ⟨m₁, e₁, h₁⟩ := hstep m l x h
    obtain ⟨m₂, e₂, h₂⟩ := ih m₁ _ h₁
    refine ⟨m₂, ?_, by simpa [List.append_assoc] using h₂⟩
    rw [List.foldlM_cons, e₁]
    exact e₂

theorem attachedDiskStep_marks (m : MapRef Bool) (l : List String) (res : Resource)
    (h : Marks m l) :
    ∃ m', attachedDiskStep m res = Except.ok m' ∧ Marks m' (l ++ (osDiskID res).toList) := by
  unfold attachedDiskStep osDiskID
  simp only [typeOf_ok, obj_ok, strOk_ok, bind, Except.bind, pure, Except.pure]
  split_ifs
  · exact ⟨m, rfl, by simpa using h⟩
  · cases res.obj "properties" with
    | none => exact ⟨m, rfl, by simpa using h⟩
    | some props =>
      simp only
      cases props.obj "storageProfile" with
      | none => exact ⟨m, rfl, by simpa using h⟩
      | some osDisk =>
        simp only
        cases osDisk.obj "osDisk" with
        | none => exact ⟨m, rfl, by simpa using h⟩
        | some managedDisk =>
          simp only
          cases managedDisk.obj "managedDisk" with
          | none => exact ⟨m, rfl, by simpa using h⟩
          | some diskRef =>
            simp only
            cases (diskRef.index "id").asString with
            | none => exact ⟨m, rfl, by simpa using h⟩
            | some id => exact marks_assign m l id h

theorem flatMap_toList {α β : Type} (f : α → Option β) (l : List α) :
    l.flatMap (fun x => (f x).toList) = l.filterMap f := by
  induction l with
  | nil => rfl
  | cons x l ih =>
    rw [List.flatMap_cons, ih, List.filterMap_cons]
    cases f x <;> rfl

theorem attachedDisks_ok (resources : List Resource) :
    ∃ m, resources.foldlM attachedDiskStep MapRef.make = Except.ok m ∧
      Marks m (attachedDisks resources) := by
  obtain ⟨m, e, h⟩ := foldlM_marks attachedDiskStep (fun res => (osDiskID res).toList)
    attachedDiskStep_marks resources MapRef.make [] marks_make
  refine ⟨m, e, ?_⟩
  rw [flatMap_toList] at h
  simpa [attachedDisks] using h

theorem orphanedDiskFindings_ok (m : MapRef Bool) (l : List String) (res : Resource)
    (h : Marks m l) :
    orphanedDiskFindings m res = Except.ok (analysis.orphanedDiskFindings l res) := by
  unfold orphanedDiskFindings analysis.orphanedDiskFindings orphanDiskSize
  simp only [typeOf_ok, obj_ok, str_ok, float64Ok_ok, bind, Except.bind, pure, Except.pure]
  split_ifs with h1 h2 h3 h3
  · rfl
  · rfl
  · exact absurd ((marks_index m l _ h).mp h2) h3
  · exact absurd ((marks_index m l _ h).mpr h3) h2
  · cases res.obj "properties" with
    | none => rfl
    | some props =>
      simp only
      cases (props.index "diskSizeGB").asFloat64 <;> rfl

theorem ipConfigStep_marks (m : MapRef Bool) (l : List String) (ipConfigIface : Value)
    (h : Marks m l) :
    ∃ m', ipConfigStep m ipConfigIface = Except.ok m' ∧
      Marks m' (l ++ (ipConfigPublicIP ipConfigIface).toList) := by
  unfold ipConfigStep ipConfigPublicIP
  simp only [assert_twoValue, obj_ok, strOk_ok, bind, Except.bind, pure, Except.pure]
  cases ipConfigIface.asObject with
  | none => exact ⟨m, rfl, by simpa using h⟩
  | some ipConfig =>
    simp only
    cases ipConfig.obj "properties" with
    | none => exact ⟨m, rfl, by simpa using h⟩
    | some ipProps =>
      simp only
      cases ipProps.obj "publicIPAddress" with
      | none => exact ⟨m, rfl, by simpa using h⟩
      | some pubIP =>
        simp only
        cases (pubIP.index "id").asString with
        | none => exact ⟨m, rfl, by simpa using h⟩
        | some id => exact marks_assign m l id h

theorem usedPublicIPStep_marks (m : MapRef Bool) (l : List String) (res : Resource)
    (h : Marks m l) :
    ∃ m', usedPublicIPStep m res = Except.ok m' ∧ Marks m' (l ++ nicPublicIPs res) := by
  unfold usedPublicIPStep nicPublicIPs
  simp only [typeOf_ok, obj_ok, arr_ok, bind, Except.bind, pure, Except.pure]
  split_ifs
  · exact ⟨m, rfl, by simpa using h⟩
  · cases res.obj "properties" with
    | none => exact ⟨m, rfl, by simpa using h⟩
    | some props =>
      simp only
      cases props.arr "ipConfigurations" with
      | none => exact ⟨m, rfl, by simpa using h⟩
      | some ipConfigs =>
        simp only
        obtain ⟨m', e, h'⟩ := foldlM_marks ipConfigStep
          (fun ipConfigIface => (ipConfigPublicIP ipConfigIface).toList) ipConfigStep_marks
          ipConfigs m l h
        rw [flatMap_toList] at h'
        exact ⟨m', e, h'⟩

theorem usedPublicIPs_ok (resources : List Resource) :
    ∃ m, resources.foldlM usedPublicIPStep MapRef.make = Except.ok m ∧
      Marks m (usedPublicIPs resources) := by
  obtain ⟨m, e, h⟩ := foldlM_marks usedPublicIPStep nicPublicIPs usedPublicIPStep_marks
    resources MapRef.make [] marks_make
  exact ⟨m, e, by simpa [usedPublicIPs] using h⟩

theorem orphanedPublicIPFindings_ok (m : MapRef Bool) (l : List String) (res : Resource)
    (h : Marks m l) :
    orphanedPublicIPFindings m res = Except.ok (analysis.orphanedPublicIPFindings l res) := by
  unfold orphanedPublicIPFindings analysis.orphanedPublicIPFindings
  simp only [typeOf_ok, str_ok, bind, Except.bind, pure, Except.pure]
  split_ifs with h1 h2 h3 h3
  · rfl
  · rfl
  · exact absurd ((marks_index m l _ h).mp h2) h3
  · exact absurd ((marks_index m l _ h).mpr h3) h2
  · rfl

theorem analyzeOrphanedResources_ok (a : CostAnalysis) (resources : List Resource) :
    analyzeOrphanedResources a resources
      = Except.ok (analysis.analyzeOrphanedResources a resources) := by
  unfold analyzeOrphanedResources analysis.analyzeOrphanedResources
  obtain ⟨m₁, e₁, h₁⟩ := attachedDisks_ok resources
  obtain ⟨m₂, e₂, h₂⟩ := usedPublicIPs_ok resources
  simp only [bind, Except.bind, pure, Except.pure]
  rw [e₁]
  simp only
  rw [mapM_ok _ _ (fun res => orphanedDiskFindings_ok m₁ _ res h₁)]
  simp only
  rw [e₂]
  simp only
  rw [mapM_ok _ _ (fun res => orphanedPublicIPFindings_ok m₂ _ res h₂)]
  simp [List.flatMap]

theorem vmSizeOr_ok (props : Object) (dflt : String) :
    vmSizeOr props dflt = Except.ok (analysis.vmSizeOr props dflt) := by
  unfold vmSizeOr analysis.vmSizeOr
  simp only [obj_ok, strOk_ok, bind, Except.bind, pure, Except.pure]
  cases props.obj "hardwareProfile" with
  | none => rfl
  | some hardwareProfile =>
    simp only
    cases (hardwareProfile.index "vmSize").asString <;> rfl

theorem idleFindings_ok (res : Resource) :
    idleFindings res = Except.ok (analysis.idleFindings res) := by
  unfold idleFindings analysis.idleFindings
  simp only [typeOf_ok, obj_ok, str_ok, vmSizeOr_ok, bind, Except.bind, pure, Except.pure]
  split_ifs
  · cases res.obj "properties" <;> rfl
  · rfl

theorem analyzeIdleResources_ok (a : CostAnalysis) (resources : List Resource) :
    analyzeIdleResources a resources = Except.ok (analysis.analyzeIdleResources a resources) := by
  unfold analyzeIdleResources analysis.analyzeIdleResources
  rw [mapM_ok _ _ idleFindings_ok]
  simp [List.flatMap, bind, Except.bind, pure, Except.pure]

theorem oversizedFindings_ok (res : Resource) :
    oversizedFindings res = Except.ok (analysis.oversizedFindings res) := by
  unfold oversizedFindings analysis.oversizedFindings
  simp only [typeOf_ok, obj_ok, str_ok, vmSizeOr_ok, bind, Except.bind, pure, Except.pure]
  split_ifs
  · cases res.obj "properties" with
    | none => rfl
    | some props =>
      simp only
      split_ifs <;> rfl
  · rfl

theorem analyzeOversizedResources_ok (a : CostAnalysis) (resources : List Resource) :
    analyzeOversizedResources a resources
      = Except.ok (analysis.analyzeOversizedResources a resources) := by
  unfold analyzeOversizedResources analysis.analyzeOversizedResources
  rw [mapM_ok _ _ oversizedFindings_ok]
  simp [List.flatMap, bind, Except.bind, pure, Except.pure]

theorem storageTierFindings_ok (res : Resource) :
    storageTierFindings res = Except.ok (analysis.storageTierFindings res) := by
  unfold storageTierFindings analysis.storageTierFindings
  simp only [typeOf_ok, obj_ok, str_ok, bind, Except.bind, pure, Except.pure]
  split_ifs
  · cases res.obj "properties" with
    | none => rfl
    | some props =>
      simp only
      split_ifs <;> rfl
  · rfl

theorem analyzeStorageTiers_ok (a : CostAnalysis) (resources : List Resource) :
    analyzeStorageTiers a resources = Except.ok (analysis.analyzeStorageTiers a resources) := by
  unfold analyzeStorageTiers analysis.analyzeStorageTiers
  rw [mapM_ok _ _ storageTierFindings_ok]
  simp [List.flatMap, bind, Except.bind, pure, Except.pure]

theorem foldlM_pure {σ α : Type} (step : σ → α → Checked σ) (g : σ → α → σ)
    (h : ∀ s x, step s x = Except.ok (g s x)) (l : List α) (s : σ) :
    l.foldlM step s = Except.ok (l.foldl g s) := by
  induction l generalizing s with
  | nil => rfl
  | cons x l ih => rw [List.foldlM_cons, h s x]; exact ih (g s x)

theorem addResourceCost_ok (totalCost : Float64) (res : Resource) :
    addResourceCost totalCost res = Except.ok (analysis.addResourceCost totalCost res) := by
  unfold addResourceCost analysis.addResourceCost
  simp only [typeOf_ok, obj_ok, float64Ok_ok, vmSizeOr_ok, bind, Except.bind, pure,
    Except.pure]
  split_ifs
  · cases res.obj "properties" <;> rfl
  · rfl
  · rfl
  · rfl
  · cases res.obj "properties" with
    | none => rfl
    | some props =>
      simp only
      cases (props.index "diskSizeGB").asFloat64 <;> rfl
  · rfl

theorem estimateTotalCost_ok (a : CostAnalysis) (resources : List Resource) :
    estimateTotalCost a resources = Except.ok (analysis.estimateTotalCost a resources) := by
  unfold estimateTotalCost analysis.estimateTotalCost
  rw [foldlM_pure _ _ addResourceCost_ok]
  rfl

theorem AnalyzeCost_ok (resources : List Resource) :
    AnalyzeCost resources = Except.ok (analysis.AnalyzeCost resources) := by
  unfold AnalyzeCost analysis.AnalyzeCost
  simp only [analyzeOrphanedResources_ok, analyzeIdleResources_ok, analyzeOversizedResources_ok,
    analyzeStorageTiers_ok, estimateTotalCost_ok, bind, Except.bind, pure, Except.pure]

end analysis.checked

namespace analysis.checked

open runtime

theorem foldl_collect {α β : Type} (p : α → Bool) (f : α → β) (l : List α) (acc : List β)
    (n : ℤ) :
    l.foldl (fun (st : List β × ℤ) x => if p x then (st.1 ++ [f x], st.2 + 1) else st) (acc, n)
      = (acc ++ (l.filter p).map f, n + ((l.filter p).length : ℤ)) := by
  induction l generalizing acc n with
  | nil => simp
  | cons x l ih =>
    rw [List.foldl_cons]
    by_cases h : p x = true
    · simp only [h, if_true, ih, List.filter_cons_of_pos, List.map_cons, List.length_cons]
      refine Prod.ext (by simp) ?_
      simp only
      push_cast
      ring
    · have h' : p x = false := by simpa using h
      simp [h', ih]

theorem foldl_collect_some {α β : Type} (f : α → Option β) (l : List α) (acc : List β) :
    l.foldl (fun (acc : List β) x => acc ++ (f x).toList) acc = acc ++ l.filterMap f := by
  induction l generalizing acc with
  | nil => simp
  | cons x l ih =>
    rw [List.foldl_cons, ih, List.filterMap_cons]
    cases f x <;> simp

theorem backupStep_ok (st : List String × ℤ) (res : Resource) :
    backupStep st res = Except.ok
      (if decide (analysis.typeOf res = "microsoft.compute/virtualmachines") then
        (st.1 ++ [res.str "name"], st.2 + 1) else st) := by
  unfold backupStep
  simp only [typeOf_ok, str_ok, bind, Except.bind, pure, Except.pure]
  split_ifs with h1 h2 h2
  · simp at h2; exact absurd h2 h1
  · rfl
  · rfl
  · simp at h2; simp at h1; exact absurd h1 h2

theorem analyzeBackup_ok (a : ComplianceAnalysis) (resources : List Resource) :
    analyzeBackup a resources = Except.ok (analysis.analyzeBackup a resources) := by
  unfold analyzeBackup analysis.analyzeBackup
  rw [foldlM_pure _ _ backupStep_ok, foldl_collect]
  simp only [bind, Except.bind, pure, Except.pure, zero_add, List.nil_append, List.length_map]
  split_ifs <;> rfl

theorem monitoringStep_ok (st : List String × ℤ) (res : Resource) :
    monitoringStep st res = Except.ok
      (if isMonitorable (res.str "type") then
        (st.1 ++ [res.str "name" ++ " (" ++ res.str "type" ++ ")"], st.2 + 1) else st) := by
  unfold monitoringStep
  simp only [str_ok, bind, Except.bind, pure, Except.pure]
  cases isMonitorable (res.str "type") <;> rfl

theorem sliceTo_ok {α : Type} (s : List α) (n : ℕ) (h : n ≤ s.length) :
    sliceTo s n = Except.ok (s.take n) := by
  unfold sliceTo
  rw [if_pos h]
  rfl

theorem analyzeMonitoring_ok (a : ComplianceAnalysis) (resources : List Resource) :
    analyzeMonitoring a resources = Except.ok (analysis.analyzeMonitoring a resources) := by
  unfold analyzeMonitoring analysis.analyzeMonitoring
  rw [foldlM_pure _ _ monitoringStep_ok, foldl_collect]
  simp only [bind, Except.bind, pure, Except.pure, zero_add, List.nil_append, List.length_map]
  split_ifs with h1 h2 h3
  · rw [sliceTo_ok _ _ (by simpa using le_of_lt h2)]
  · rfl
  · rfl
  · rfl

theorem geoRedundancyStep_ok (nonRedundantStorage : List String) (res : Resource) :
    geoRedundancyStep nonRedundantStorage res
      = Except.ok (nonRedundantStorage ++ (nonRedundantName res).toList) := by
  unfold geoRedundancyStep nonRedundantName
  simp only [typeOf_ok, obj_ok, str_ok, bind, Except.bind, pure, Except.pure]
  split_ifs
  · simp
  · cases res.obj "sku" with
    | none => simp
    | some sku =>
      simp only
      split_ifs <;> simp

theorem analyzeGeoRedundancy_ok (a : ComplianceAnalysis) (resources : List Resource) :
    analyzeGeoRedundancy a resources = Except.ok (analysis.analyzeGeoRedundancy a resources) := by
  unfold analyzeGeoRedundancy analysis.analyzeGeoRedundancy
  rw [foldlM_pure _ _ geoRedundancyStep_ok, foldl_collect_some]
  simp only [bind, Except.bind, pure, Except.pure, List.nil_append]
  split_ifs <;> rfl

theorem AnalyzeCompliance_ok (resources : List Resource) :
    AnalyzeCompliance resources = Except.ok (analysis.AnalyzeCompliance resources) := by
  unfold AnalyzeCompliance analysis.AnalyzeCompliance
  simp only [analyzeBackup_ok, analyzeMonitoring_ok, analyzeGeoRedundancy_ok, bind, Except.bind,
    pure, Except.pure]

end analysis.checked

namespace analysis.checked

open runtime

/-- A loop on a state that represents a state of the model, every step of which follows
the model, follows the model. -/
theorem foldlM_repr {σ τ α : Type} (repr : τ → σ) (step : σ → α → Checked σ) (h : τ → α → τ)
    (hs : ∀ t x, step (repr t) x = Except.ok (repr (h t x))) (l : List α) (t : τ) :
    l.foldlM step (repr t) = Except.ok (repr (l.foldl h t)) := by
  induction l generalizing t with
  | nil => rfl
  | cons x l ih => rw [List.foldlM_cons, hs t x]; exact ih (h t x)

theorem appendMissing_ok (g : GoMap (List String)) (requiredTag name : String) :
    appendMissing (some g) requiredTag name
      = Except.ok (some (analysis.appendMissing g requiredTag name)) := rfl

theorem missingTagsStep_ok (st : TaggingAnalysis × GoMap (List String)) (res : Resource) :
    missingTagsStep (st.1, some st.2) res
      = Except.ok ((analysis.missingTagsStep st res).1, some (analysis.missingTagsStep st res).2) := by
  obtain ⟨a, g⟩ := st
  have h1 : ∀ (l : List String) (g : GoMap (List String)),
      l.foldlM (fun m requiredTag => appendMissing m requiredTag (res.str "name")) (some g)
        = Except.ok (some (l.foldl
            (fun m requiredTag => analysis.appendMissing m requiredTag (res.str "name")) g)) :=
    fun l g => foldlM_repr some _ _ (fun g t => appendMissing_ok g t _) l g
  have h2 : ∀ (tags : Object) (l : List String) (g : GoMap (List String)),
      l.foldlM (fun m requiredTag =>
          if (!tags.keys.any fun tagKey => strings.EqualFold tagKey requiredTag) = true then
            appendMissing m requiredTag (res.str "name")
          else Except.ok m) (some g)
        = Except.ok (some (l.foldl
            (fun m requiredTag =>
              if (!tags.keys.any fun tagKey => strings.EqualFold tagKey requiredTag) = true then
                analysis.appendMissing m requiredTag (res.str "name")
              else m) g)) := by
    intro tags l g
    refine foldlM_repr some _ _ (fun g t => ?_) l g
    split_ifs <;> rfl
  unfold missingTagsStep analysis.missingTagsStep
  simp only [str_ok, obj_ok, bind, Except.bind, pure, Except.pure]
  split_ifs
  · rfl
  · cases res.obj "tags" with
    | none =>
      simp only
      rw [h1]
    | some tags =>
      simp only
      split_ifs
      · rw [h1]
      · rw [h2]

theorem analyzeMissingTags_ok (ord : MapOrder) (a : TaggingAnalysis) (resources : List Resource) :
    analyzeMissingTags ord a resources
      = Except.ok (analysis.analyzeMissingTags ord a resources) := by
  unfold analyzeMissingTags analysis.analyzeMissingTags
  have := foldlM_repr (fun st : TaggingAnalysis × GoMap (List String) => (st.1, some st.2))
    missingTagsStep analysis.missingTagsStep missingTagsStep_ok resources (a, [])
  simp only at this
  rw [show (a, (MapRef.make : MapRef (List String))) = (a, some []) from rfl, this]
  rfl

theorem lookup_map_some {β : Type} (g : GoMap β) (k : String) :
    (g.map (fun e => (e.1, some e.2))).lookup k = (g.lookup k).map some := by
  induction g with
  | nil => rfl
  | cons e g ih =>
    obtain ⟨k0, v⟩ := e
    simp only [List.map_cons, List.lookup_cons]
    cases (k == k0) with
    | true => rfl
    | false => exact ih

theorem update_nil {β : Type} (k : String) (zero : β) (f : β → β) :
    GoMap.update [] k zero f = [(k, f zero)] := rfl

theorem update_cons {β : Type} (k0 : String) (v : β) (rest : GoMap β) (k : String) (zero : β)
    (f : β → β) :
    GoMap.update ((k0, v) :: rest) k zero f =
      if k0 = k then (k0, f v) :: rest else (k0, v) :: GoMap.update rest k zero f := rfl

theorem update_assign_twice {β : Type} (g : GoMap β) (k : String) (a b : β) :
    GoMap.update (GoMap.update g k a (fun _ => a)) k b (fun _ => b)
      = GoMap.update g k b (fun _ => b) := by
  induction g with
  | nil => simp [update_nil, update_cons]
  | cons e g ih =>
    obtain ⟨k0, v⟩ := e
    by_cases h : k0 = k
    · simp [update_cons, h]
    · simp [update_cons, h, ih]

theorem update_map_some {β : Type} (g : GoMap β) (k : String) (zero : β) (f : β → β) :
    GoMap.update (g.map (fun e => (e.1, some e.2))) k (some (f ((g.lookup k).getD zero)))
        (fun _ => some (f ((g.lookup k).getD zero)))
      = (GoMap.update g k zero f).map (fun e => (e.1, some e.2)) := by
  induction g with
  | nil => simp [update_nil]
  | cons e g ih =>
    obtain ⟨k0, v⟩ := e
    by_cases h : k0 = k
    · subst h
      simp [update_cons, List.lookup_cons]
    · have hk : (k == k0) = false := by simpa using fun e : k = k0 => h e.symm
      simp only [List.map_cons, List.lookup_cons, hk, update_cons, h, if_false, ih]

theorem countVariation_ok (g : GoMap (GoMap ℤ)) (tagKey : String) :
    countVariation (allMade g) tagKey = Except.ok (allMade (analysis.countVariation g tagKey)) := by
  unfold countVariation analysis.countVariation allMade
  simp only [MapRef.index, MapRef.assign, MapRef.modify, MapRef.make, lookup_map_some, bind,
    Except.bind, pure, Except.pure]
  cases hl : g.lookup (strings.ToLower tagKey) with
  | none =>
    simp only [Option.map_none', Option.getD_none, Option.isNone_none, if_true,
      GoMap.lookup_update, Option.getD_some, update_assign_twice]
    have := update_map_some g (strings.ToLower tagKey) []
      (fun variations => variations.update tagKey 0 (fun n => n + 1))
    rw [hl] at this
    simp only [Option.getD_none] at this
    rw [← this]
  | some v =>
    simp only [Option.map_some', Option.getD_some, Option.isNone_some, Bool.false_eq_true,
      if_false]
    have := update_map_some g (strings.ToLower tagKey) []
      (fun variations => variations.update tagKey 0 (fun n => n + 1))
    rw [hl] at this
    simp only [Option.getD_some] at this
    rw [← this]

theorem tagKeyVariationsStep_ok (g : GoMap (GoMap ℤ)) (res : Resource) :
    tagKeyVariationsStep (allMade g) res
      = Except.ok (allMade (match res.obj "tags" with
          | none => g
          | some tags => tags.keys.foldl analysis.countVariation g)) := by
  unfold tagKeyVariationsStep
  simp only [obj_ok, bind, Except.bind, pure, Except.pure]
  cases res.obj "tags" with
  | none => rfl
  | some tags => exact foldlM_repr allMade _ _ countVariation_ok tags.keys g

theorem tagKeyVariations_ok (resources : List Resource) :
    resources.foldlM tagKeyVariationsStep MapRef.make
      = Except.ok (allMade (analysis.tagKeyVariations resources)) :=
  foldlM_repr allMade _ _ tagKeyVariationsStep_ok resources []

theorem range_map_some {β : Type} (ord : MapOrder) (site : String) (g : GoMap β) :
    GoMap.range ord site (g.map (fun e => (e.1, some e.2)))
      = (GoMap.range ord site g).map (fun e => (e.1, some e.2)) := by
  unfold GoMap.range
  simp only [List.map_map, List.map_filterMap]
  have : (Prod.fst ∘ fun e : String × β => (e.1, some e.2)) = Prod.fst := rfl
  rw [this]
  apply List.filterMap_congr
  intro k _
  rw [lookup_map_some]
  cases g.lookup k <;> rfl

theorem analyzeTagConsistency_ok (ord : MapOrder) (a : TaggingAnalysis)
    (resources : List Resource) :
    analyzeTagConsistency ord a resources
      = Except.ok (analysis.analyzeTagConsistency ord a resources) := by
  unfold analyzeTagConsistency analysis.analyzeTagConsistency
  rw [tagKeyVariations_ok]
  simp only [bind, Except.bind, pure, Except.pure, allMade, MapRef.entries, Option.getD_some,
    range_map_some, List.flatMap_map]

theorem envValueStep_ok (g : GoMap ℤ) (entry : String × Value) :
    envValueStep (some g) entry = Except.ok (some
      (if strings.EqualFold entry.1 "environment" || strings.EqualFold entry.1 "env" then
        match entry.2.asString with
        | some val => g.update (strings.ToLower val) 0 (fun n => n + 1)
        | none => g
      else g)) := by
  unfold envValueStep
  simp only [assert_twoValue, bind, Except.bind, pure, Except.pure]
  split_ifs
  · cases entry.2.asString <;> rfl
  · rfl

theorem envValuesStep_ok (g : GoMap ℤ) (res : Resource) :
    envValuesStep (some g) res = Except.ok (some
      (match res.obj "tags" with
        | none => g
        | some tags =>
          tags.entries.foldl
            (fun m entry =>
              if strings.EqualFold entry.1 "environment" || strings.EqualFold entry.1 "env" then
                match entry.2.asString with
                | some val => m.update (strings.ToLower val) 0 (fun n => n + 1)
                | none => m
              else m)
            g)) := by
  unfold envValuesStep
  simp only [obj_ok, bind, Except.bind, pure, Except.pure]
  cases res.obj "tags" with
  | none => rfl
  | some tags => exact foldlM_repr some _ _ envValueStep_ok tags.entries g

theorem envValues_ok (resources : List Resource) :
    resources.foldlM envValuesStep MapRef.make
      = Except.ok (some (analysis.envValues resources)) :=
  foldlM_repr some _ _ envValuesStep_ok resources []

theorem analyzeTagValuePatterns_ok (ord : MapOrder) (a : TaggingAnalysis)
    (resources : List Resource) :
    analyzeTagValuePatterns ord a resources
      = Except.ok (analysis.analyzeTagValuePatterns ord a resources) := by
  unfold analyzeTagValuePatterns analysis.analyzeTagValuePatterns
  rw [envValues_ok]
  simp only [bind, Except.bind, pure, Except.pure, MapRef.entries, Option.getD_some]
  split_ifs <;> rfl

theorem AnalyzeTagging_ok (ord : MapOrder) (resources : List Resource) :
    AnalyzeTagging ord resources = Except.ok (analysis.AnalyzeTagging ord resources) := by
  unfold AnalyzeTagging analysis.AnalyzeTagging
  simp only [analyzeMissingTags_ok, analyzeTagConsistency_ok, analyzeTagValuePatterns_ok, bind,
    Except.bind, pure, Except.pure]
  split_ifs <;> rfl

end analysis.checked

/-! ## The claims C21 to C30 -/

namespace renderer

open analysis

/-- C21 (as the code has it): when the directory is made, the resources are loaded, the
diagrams of the VNets up to `vnet` are built, the writes of the VNets before `vnet`
succeed and the write of the diagram of `vnet` fails, `RenderAll` returns at once with
the error naming `vnet`: the files it asked to have written are those of the VNets up to
`vnet`, and neither a later VNet diagram nor the overview is attempted. -/
theorem C21_render_all_stops_at_first_failed_write (w : World) (outputDir : String)
    (ord : MapOrder) (resources pre : List Resource) (vnet : Resource)
    (post : List Resource) (err : String)
    (hmk : w.MkdirAll = none) (hload : w.loadResources = Except.ok resources)
    (hvnets : filterByType resources "microsoft.network/virtualnetworks" = pre ++ vnet :: post)
    (hgen : ∀ v ∈ pre ++ [vnet],
      (generateVNetDiagram ord v resources w.aiConnections).isSome = true)
    (hpre : ∀ (k : ℕ) (h : k < pre.length),
      w.WriteFile ((pre.take k).map (vnetFile w outputDir))
        (vnetFile w outputDir (pre.get ⟨k, h⟩)) = none)
    (hfail : w.WriteFile (pre.map (vnetFile w outputDir)) (vnetFile w outputDir vnet)
      = some err) :
    RenderAll w outputDir ord =
      ⟨(pre ++ [vnet]).map (vnetFile w outputDir),
        Ending.error ("failed to generate diagram for " ++ vnet.str "name" ++ ": " ++ err)⟩ := by
  unfold RenderAll
  simp only [hmk, hload, hvnets]
  rw [renderVNets_stops w outputDir ord resources pre vnet post err [] hgen
    (by simpa using hpre) (by simpa using hfail)]
  simp

/-- C21, an instance: over two VNets, when the write of the first diagram succeeds and
the write of the second fails, `RenderAll` asked for these two files and returns the error
naming the second VNet. -/
theorem C21_render_all_stops_at_first_failed_write_witness :
    RenderAll sample.secondWriteFails "out" MapOrder.listed =
      ⟨["out/vnet1.drawio", "out/vnet2.drawio"],
        Ending.error "failed to generate diagram for vnet2: disk full"⟩ :=
  C21_render_all_stops_at_first_failed_write sample.secondWriteFails "out" MapOrder.listed
    sample.twoVNetInventory [sample.vnet1]
    (sample.resource "microsoft.network/virtualnetworks" "vnet2" "rg") [] "disk full"
    rfl rfl rfl (by decide!)
    (fun k h => match k, h with
      | 0, _ => rfl)
    (by decide!)

/-- C21 fails: over two VNets, when the write of the first VNet diagram fails, `RenderAll`
returns the error; the diagram of the second VNet and the overview are not attempted. -/
theorem C21_counterexample :
    (filterByType sample.twoVNetInventory "microsoft.network/virtualnetworks").map
        (vnetFile sample.firstWriteFails "out") = ["out/vnet1.drawio", "out/vnet2.drawio"] ∧
    overviewFile sample.firstWriteFails "out" = "out/Overview.drawio" ∧
    sample.firstWriteFails.WriteFile [] "out/vnet1.drawio" = some "disk full" ∧
    RenderAll sample.firstWriteFails "out" MapOrder.listed =
      ⟨["out/vnet1.drawio"],
        Ending.error "failed to generate diagram for vnet1: disk full"⟩ ∧
    "out/vnet2.drawio" ∉ (RenderAll sample.firstWriteFails "out" MapOrder.listed).attempted ∧
    "out/Overview.drawio" ∉
      (RenderAll sample.firstWriteFails "out" MapOrder.listed).attempted := by
  decide!

end renderer

namespace analysis

/-- C22: the four analyzers return a result on every resource list.  In the checked
rendering of the analyzers a one-value type assertion of a value of another type, an
assignment into a nil map and a slice expression out of range are panics; on every list
the checked analyzers return, without a panic, the results of `AnalyzeSecurity`,
`AnalyzeCost`, `AnalyzeCompliance` and `AnalyzeTagging`: every assertion of the analyzers
has the two-value form, every map written to has been made (the inner maps of
`tagKeyVariations` by the nil test before the increment), and the slice expression
`resourcesWithoutDiagnostics[:5]` is reached with more than five elements.  The findings
of the security and the cost analysis are the findings of the single records, and a
record whose `properties` are absent or not a map yields no NSG, encryption,
network-isolation, oversized or storage-tier finding.  On an inventory of records with
missing keys and wrongly shaped values the four analyses return the findings listed. -/
theorem C22_analyzers_tolerate_malformed_records :
    (∀ resources : List Resource,
      checked.AnalyzeSecurity resources = Except.ok (AnalyzeSecurity resources) ∧
      checked.AnalyzeCost resources = Except.ok (AnalyzeCost resources) ∧
      checked.AnalyzeCompliance resources = Except.ok (AnalyzeCompliance resources) ∧
      ∀ ord : MapOrder,
        checked.AnalyzeTagging ord resources = Except.ok (AnalyzeTagging ord resources)) ∧
    (runtime.assert runtime.AssertionForm.oneValue (Value.number 5) Value.asString
        = Except.error runtime.Panic.typeAssertion ∧
      runtime.MapRef.assign (none : runtime.MapRef Bool) "id" true
        = Except.error runtime.Panic.nilMap ∧
      runtime.sliceTo ["vm1 (t)", "vm2 (t)"] 5 = Except.error runtime.Panic.sliceBounds) ∧
    (∀ resources : List Resource,
      (AnalyzeSecurity resources).Findings =
        resources.flatMap nsgFindings ++ resources.flatMap publicExposureFindings ++
        resources.flatMap encryptionFindings ++ resources.flatMap networkIsolationFindings) ∧
    (∀ resources : List Resource,
      (AnalyzeCost resources).Findings =
        resources.flatMap (orphanedDiskFindings (attachedDisks resources)) ++
        resources.flatMap (orphanedPublicIPFindings (usedPublicIPs resources)) ++
        resources.flatMap idleFindings ++ resources.flatMap oversizedFindings ++
        resources.flatMap storageTierFindings) ∧
    (∀ res : Resource, res.obj "properties" = none →
      nsgFindings res = [] ∧ encryptionFindings res = [] ∧ networkIsolationFindings res = [] ∧
      oversizedFindings res = [] ∧ storageTierFindings res = []) ∧
    (AnalyzeSecurity sample.malformedInventory).Findings.map
        (fun f => (f.Category, f.Resource)) =
      [("PublicExposure", ""), ("PublicExposure", "vm2"), ("Encryption", "st1"),
        ("Encryption", "")] ∧
    (AnalyzeCost sample.malformedInventory).Findings.map (fun f => (f.Category, f.Resource)) =
      [("Orphaned", ""), ("Idle", "vm2")] ∧
    (AnalyzeCompliance sample.malformedInventory).Findings.map (fun f => f.Category) =
      ["Backup", "Monitoring"] ∧
    (AnalyzeTagging MapOrder.listed sample.malformedInventory).Findings.map
      (fun f => f.Category) = ["Missing", "Missing", "Missing", "Missing"] :=
  ⟨fun resources => ⟨checked.AnalyzeSecurity_ok resources, checked.AnalyzeCost_ok resources,
      checked.AnalyzeCompliance_ok resources,
      fun ord => checked.AnalyzeTagging_ok ord resources⟩,
    ⟨rfl, rfl, rfl⟩, AnalyzeSecurity_findings, AnalyzeCost_findings,
    no_findings_without_properties, by decide!, by decide!, by decide!, by decide!⟩

end analysis

namespace renderer

open analysis

/-- C24: the Markdown sections cap at ten.  For a category of `n` findings,
`generateSecuritySection` writes the blocks of the first `min n 10` findings and, exactly
when `10 < n`, one marker reporting `n - 10` more; the section consists of the header and
one such group for every category that occurs, each holding all findings of that category.
`generateTaggingSection` returns for every analysis (no index leaves the slice), and for a
finding with `n` resources it lists the first `min n 10` of them and, exactly when
`10 < n`, one marker reporting `n - 10` more. -/
theorem C24_sections_cap_at_ten :
    (∀ (category : String) (findings : List SecurityFinding),
      securityCategoryLines (category, findings) =
        ("### " ++ category ++ " Issues (" ++ toString findings.length ++ ")\n\n")
          :: ((findings.take 10).flatMap securityFindingBlock
            ++ (if 10 < findings.length then
                ["*...and " ++ toString (findings.length - 10) ++ " more " ++ category
                  ++ " issues*\n\n"]
              else []))
      ∧ (findings.take 10).length = min findings.length 10 ∧
      ∀ finding, (securityFindingBlock finding).length = 5) ∧
    (∀ (ord : MapOrder) (security : SecurityAnalysis), security.Findings ≠ [] →
      ∃ categories : List String, categories.Nodup ∧
        (∀ c, c ∈ categories ↔ ∃ f ∈ security.Findings, f.Category = c) ∧
        generateSecuritySection ord security =
          ("**Security Score:** " ++ toString security.GetSecurityScore ++ "/100 - "
              ++ security.GetSecurityPosture ++ "\n\n")
            :: categories.flatMap (fun c =>
                securityCategoryLines (c, findingsOfCategory c security.Findings))) ∧
    (∀ resources : List String,
      affectedResourceLines resources = some (
        if resources.length = 0 then []
        else if resources.length ≤ 10 then
          ["**Affected Resources:**\n"] ++ resources.map (fun res => "- " ++ res ++ "\n")
            ++ ["\n"]
        else
          ["**Affected Resources:** " ++ toString resources.length
              ++ " resources (first 10 shown)\n"]
            ++ (resources.take 10).map (fun res => "- " ++ res ++ "\n")
            ++ ["- *...and " ++ toString (resources.length - 10) ++ " more*\n\n"])
      ∧ ((resources.take 10).map (fun res => "- " ++ res ++ "\n")).length
          = min resources.length 10) ∧
    (∀ tagging : TaggingAnalysis, tagging.Findings ≠ [] →
      generateTaggingSection tagging =
        some ([ "**Tagging Health:** " ++ tagging.GetTaggingHealth ++ " (Score: "
              ++ toString tagging.GetTaggingScore ++ "/100)\n\n",
            "**Compliance Rate:** " ++ formatFloat0 tagging.ComplianceRate ++ "% ("
              ++ toString tagging.TaggedResources ++ "/" ++ toString tagging.TotalResources
              ++ " resources tagged)\n\n",
            "**Required Tags:** " ]
          ++ requiredTagsLoop tagging.RequiredTags 0 ++ ["\n\n"]
          ++ tagging.Findings.flatMap (fun finding =>
            [ "### " ++ getSeverityIcon finding.Severity ++ " " ++ finding.Severity ++ ": "
                ++ finding.Issue ++ "\n\n",
              "**Impact:** " ++ finding.Impact ++ "\n\n",
              "**Remediation:** " ++ finding.Remediation ++ "\n\n" ]
            ++ (affectedResourceLines finding.Resources).getD [] ++ ["---\n\n"]))) ∧
    (∀ tagging : TaggingAnalysis, (generateTaggingSection tagging).isSome = true) := by
  refine ⟨?_, ?_, ?_, ?_, ?_⟩
  · intro category findings
    refine ⟨?_, by simp [Nat.min_comm], fun _ => rfl⟩
    unfold securityCategoryLines
    simp only
    rw [securityFindingLoop_from]
    by_cases h : 10 < findings.length
    · simp only [Nat.sub_zero, h, if_true, securityMoreMarker, toString_sub_ten _ h]
    · simp only [Nat.sub_zero, h, if_false]
  · intro ord security hne
    obtain ⟨categories, hnd, hmem, hrange⟩ :=
      range_findingsByCategory ord "findingsByCategory" security.Findings
    refine ⟨categories, hnd, hmem, ?_⟩
    unfold generateSecuritySection
    have h0 : ¬ security.Findings.length = 0 := by
      simpa [List.length_eq_zero] using hne
    simp only [h0, if_false, hrange, List.flatMap_map]
  · intro resources
    exact ⟨affectedResourceLines_eq resources, by simp [Nat.min_comm]⟩
  · intro tagging hne
    obtain ⟨blocks, hb, hf⟩ := mapM_taggingFindingLines tagging.Findings
    have h0 : ¬ tagging.Findings.length = 0 := by
      simpa [List.length_eq_zero] using hne
    unfold generateTaggingSection
    simp only [h0, if_false, hb, hf]
    congr 2
    apply List.flatMap_congr
    intro f _
    unfold taggingFindingLines
    rw [affectedResourceLines_eq]
    simp
  · intro tagging
    obtain ⟨blocks, hb, _⟩ := mapM_taggingFindingLines tagging.Findings
    unfold generateTaggingSection
    simp only [hb]
    split_ifs <;> rfl

/-- C25 at a VNet with four subnets: the subnet containers are at `x = 100`,
`y = 120 + 140 * i`, of size 350 by 120, and the VNet container is at `(50, 50)`, of size
1100 by 600; the fourth subnet container ends at `y = 660`, below the VNet container,
which ends at `y = 650`. -/
theorem C25_fourth_subnet_leaves_the_vnet_container :
    ∃ d ∈ generateVNetDiagram MapOrder.listed sample.fourSubnetVNet [sample.fourSubnetVNet] [],
      d.Cells.map (fun c => (c.ID, c.rect)) =
        [("0", none), ("1", none), ("cell-vnet4", some (50, 50, 1100, 600)),
          ("cell-subnet-0", some (100, 120, 350, 120)),
          ("cell-subnet-1", some (100, 260, 350, 120)),
          ("cell-subnet-2", some (100, 400, 350, 120)),
          ("cell-subnet-3", some (100, 540, 350, 120))] ∧
      ¬ SubnetsInsideVNet d.Cells :=
  ⟨(generateVNetDiagram MapOrder.listed sample.fourSubnetVNet [sample.fourSubnetVNet] []).get
      (by decide!),
    Option.get_mem _, by decide!, by decide!⟩

end renderer

namespace analysis

/-- C26: `AnalyzeCompliance` always leaves `BackupCoverage` and `MonitoringCoverage`
at 0, so the compliance score is at most 50, and at most 35 whenever the list has a
virtual machine; for a single virtual machine it is 35. -/
theorem C26_compliance_coverage_is_zero (resources : List Resource) :
    (AnalyzeCompliance resources).BackupCoverage = 0 ∧
    (AnalyzeCompliance resources).MonitoringCoverage = 0 ∧
    (AnalyzeCompliance resources).GetComplianceScore ≤ 50 ∧
    ((∃ res ∈ resources, typeOf res = "microsoft.compute/virtualmachines") →
      (AnalyzeCompliance resources).GetComplianceScore ≤ 35) ∧
    (AnalyzeCompliance [sample.bareVM "vm1"]).GetComplianceScore = 35 := by
  obtain ⟨hb, hm⟩ := AnalyzeCompliance_coverage resources
  have hs := complianceScore_of_zero_coverage _ hb hm
  have hn := sum_map_nonneg compliancePenalty compliancePenalty_nonneg
    (AnalyzeCompliance resources).Findings
  refine ⟨hb, hm, ?_, ?_, by decide!⟩
  · rw [hs]; omega
  · intro hvm
    have h1 := analyzeBackup_penalties ⟨0, 0, []⟩ resources hvm
    have h2 := analyzeMonitoring_penalties (analyzeBackup ⟨0, 0, []⟩ resources) resources hvm
    have h3 := analyzeGeoRedundancy_penalties
      (analyzeMonitoring (analyzeBackup ⟨0, 0, []⟩ resources) resources) resources
    have h0 : compliancePenalties ⟨0, 0, []⟩ = 0 := rfl
    have h4 : compliancePenalties (AnalyzeCompliance resources) =
        ((AnalyzeCompliance resources).Findings.map compliancePenalty).sum := rfl
    have h5 : AnalyzeCompliance resources = analyzeGeoRedundancy
      (analyzeMonitoring (analyzeBackup ⟨0, 0, []⟩ resources) resources) resources := rfl
    rw [hs, ← h4, h5]
    omega

/-- C27 (as the code has it): `TotalResources` is the length of the list, and
`TaggedResources + UntaggedResources` is the number of records that are not system
resources; the two agree when no record is a system resource, and a non-empty list in
which every record is counted and carries at least one tag has `ComplianceRate` 100. -/
theorem C27_tagged_plus_untagged (ord : MapOrder) (resources : List Resource) :
    (AnalyzeTagging ord resources).TotalResources = resources.length ∧
    (AnalyzeTagging ord resources).TaggedResources + (AnalyzeTagging ord resources).UntaggedResources
      = ((resources.filter IsCounted).length : ℤ) ∧
    ((∀ res ∈ resources, IsCounted res = true) →
      (AnalyzeTagging ord resources).TaggedResources
        + (AnalyzeTagging ord resources).UntaggedResources
        = (AnalyzeTagging ord resources).TotalResources) ∧
    (resources ≠ [] → (∀ res ∈ resources, IsCounted res = true ∧ HasTags res = true) →
      (AnalyzeTagging ord resources).ComplianceRate = 100) := by
  obtain ⟨ht, hu⟩ := AnalyzeTagging_tagged ord resources
  obtain ⟨hT, hr⟩ := AnalyzeTagging_rate ord resources
  have hsplit := filter_counted_split resources
  refine ⟨hT, ?_, ?_, ?_⟩
  · rw [ht, hu]; exact_mod_cast hsplit
  · intro hall
    rw [ht, hu, hT]
    have : resources.filter IsCounted = resources := List.filter_eq_self.mpr hall
    rw [this] at hsplit
    exact_mod_cast hsplit
  · intro hne hall
    have hlen : 0 < resources.length := List.length_pos.mpr hne
    have hf : resources.filter (fun r => IsCounted r && HasTags r) = resources :=
      List.filter_eq_self.mpr (fun r hr => by simp [(hall r hr).1, (hall r hr).2])
    rw [hr, if_pos hlen, ht, hf]
    exact full_rate _ (by exact_mod_cast hlen)

/-- C27 fails: for a tagged storage account and a network watcher, the one counted
resource carries a tag, yet `TaggedResources + UntaggedResources` is 1, `TotalResources`
is 2 and `ComplianceRate` is 50. -/
theorem C27_counterexample :
    (AnalyzeTagging MapOrder.listed sample.watcherInventory).TaggedResources = 1 ∧
    (AnalyzeTagging MapOrder.listed sample.watcherInventory).UntaggedResources = 0 ∧
    (AnalyzeTagging MapOrder.listed sample.watcherInventory).TotalResources = 2 ∧
    sample.watcherInventory.map IsCounted = [true, false] ∧
    sample.watcherInventory.map HasTags = [true, false] ∧
    (AnalyzeTagging MapOrder.listed sample.watcherInventory).ComplianceRate = 50 := by
  decide!

/-- C28 (as the code has it): `PotentialMonthlySavings` is the `float64` sum of
`PotentialSavings` over the findings, in their order, and every finding saves at most its
own `CurrentCost`. -/
theorem C28_savings_are_the_sum (resources : List Resource) :
    (AnalyzeCost resources).PotentialMonthlySavings =
      floatSum ((AnalyzeCost resources).Findings.map (fun f => f.PotentialSavings)) ∧
    (∀ f ∈ (AnalyzeCost resources).Findings, f.PotentialSavings ≤ f.CurrentCost) :=
  ⟨AnalyzeCost_savings resources, finding_savings_le_cost resources⟩

/-- C28 fails: a single VM of size `Standard_D2s_v3` gets an idle finding saving 49
and an oversized finding saving 28; `PotentialMonthlySavings` is 77 and exceeds
`TotalMonthlyCost`, which is 70. -/
theorem C28_counterexample :
    (AnalyzeCost [sample.vmOfSize "vm1" "Standard_D2s_v3"]).Findings.map
        (fun f => (f.Category, f.PotentialSavings)) = [("Idle", 49), ("Oversized", 28)] ∧
    (AnalyzeCost [sample.vmOfSize "vm1" "Standard_D2s_v3"]).PotentialMonthlySavings = 77 ∧
    (AnalyzeCost [sample.vmOfSize "vm1" "Standard_D2s_v3"]).TotalMonthlyCost = 70 ∧
    ¬ (AnalyzeCost [sample.vmOfSize "vm1" "Standard_D2s_v3"]).PotentialMonthlySavings
      ≤ (AnalyzeCost [sample.vmOfSize "vm1" "Standard_D2s_v3"]).TotalMonthlyCost := by
  decide!

end analysis

namespace renderer

open analysis

/-- C29 at a VNet with the VMs `web-01` and `web-02` and the NIC `web-nic`: the NIC
matches both VMs, and the two edges the fallback rule adds for it carry the same id
`cell-edge-conn-nic-vm-0`; the cell ids of the document are not pairwise distinct. -/
theorem C29_edges_of_one_nic_share_an_id :
    ∃ d ∈ generateVNetDiagram MapOrder.listed sample.vnet1 sample.sharedTokenInventory [],
      d.Cells.map (fun c => (c.ID, c.Source, c.Target)) =
        [("0", "", ""), ("1", "", ""), ("cell-vnet1", "", ""), ("cell-vm-0", "", ""),
          ("cell-vm-1", "", ""), ("cell-nic-0", "", ""),
          ("cell-edge-conn-nic-vm-0", "cell-nic-0", "cell-vm-0"),
          ("cell-edge-conn-nic-vm-0", "cell-nic-0", "cell-vm-1")] ∧
      ¬ (d.Cells.map (fun c => c.ID)).Nodup :=
  ⟨(generateVNetDiagram MapOrder.listed sample.vnet1 sample.sharedTokenInventory []).get
      (by decide!),
    Option.get_mem _, by decide!, by decide!⟩

end renderer

namespace analysis

/-- C30: `AnalyzeSecurity` is additive over concatenation: each of the four severity
counts of `a ++ b` is the sum of the counts of `a` and of `b`; the four counts of any list
add up to the number of its findings; and the security score of `a ++ b` is at most the
score of `a`. -/
theorem C30_security_additive (a b : List Resource) :
    (AnalyzeSecurity (a ++ b)).CriticalCount
      = (AnalyzeSecurity a).CriticalCount + (AnalyzeSecurity b).CriticalCount ∧
    (AnalyzeSecurity (a ++ b)).HighCount
      = (AnalyzeSecurity a).HighCount + (AnalyzeSecurity b).HighCount ∧
    (AnalyzeSecurity (a ++ b)).MediumCount
      = (AnalyzeSecurity a).MediumCount + (AnalyzeSecurity b).MediumCount ∧
    (AnalyzeSecurity (a ++ b)).LowCount
      = (AnalyzeSecurity a).LowCount + (AnalyzeSecurity b).LowCount ∧
    (∀ l : List Resource,
      (AnalyzeSecurity l).CriticalCount + (AnalyzeSecurity l).HighCount
        + (AnalyzeSecurity l).MediumCount + (AnalyzeSecurity l).LowCount
        = (AnalyzeSecurity l).Findings.length) ∧
    (AnalyzeSecurity (a ++ b)).GetSecurityScore ≤ (AnalyzeSecurity a).GetSecurityScore := by
  obtain ⟨c1, c2, c3, c4⟩ := AnalyzeSecurity_counts (a ++ b)
  obtain ⟨a1, a2, a3, a4⟩ := AnalyzeSecurity_counts a
  obtain ⟨b1, b2, b3, b4⟩ := AnalyzeSecurity_counts b
  have e1 := severityCount_AnalyzeSecurity_append a b "Critical"
  have e2 := severityCount_AnalyzeSecurity_append a b "High"
  have e3 := severityCount_AnalyzeSecurity_append a b "Medium"
  have e4 := severityCount_AnalyzeSecurity_append a b "Low"
  have total : ∀ l : List Resource,
      (AnalyzeSecurity l).CriticalCount + (AnalyzeSecurity l).HighCount
        + (AnalyzeSecurity l).MediumCount + (AnalyzeSecurity l).LowCount
        = (AnalyzeSecurity l).Findings.length := by
    intro l
    obtain ⟨l1, l2, l3, l4⟩ := AnalyzeSecurity_counts l
    rw [l1, l2, l3, l4]
    exact severityCount_total _ (AnalyzeSecurity_severities l)
  refine ⟨by rw [c1, a1, b1, e1], by rw [c2, a2, b2, e2], by rw [c3, a3, b3, e3],
    by rw [c4, a4, b4, e4], total, ?_⟩
  have n1 := severityCount_nonneg (AnalyzeSecurity b).Findings "Critical"
  have n2 := severityCount_nonneg (AnalyzeSecurity b).Findings "High"
  have n3 := severityCount_nonneg (AnalyzeSecurity b).Findings "Medium"
  have n4 := severityCount_nonneg (AnalyzeSecurity b).Findings "Low"
  have m1 := severityCount_nonneg (AnalyzeSecurity a).Findings "Critical"
  have m2 := severityCount_nonneg (AnalyzeSecurity a).Findings "High"
  have m3 := severityCount_nonneg (AnalyzeSecurity a).Findings "Medium"
  have m4 := severityCount_nonneg (AnalyzeSecurity a).Findings "Low"
  have ta := total a
  have tab := total (a ++ b)
  rw [c1, c2, c3, c4, e1, e2, e3, e4] at tab
  rw [a1, a2, a3, a4] at ta
  unfold SecurityAnalysis.GetSecurityScore
  simp only
  rw [c1, c2, c3, c4, e1, e2, e3, e4, a1, a2, a3, a4]
  split_ifs <;> omega

end analysis
